import Mathlib

/-!
# Tensor attribute column

A shallow embedding of `search::tensor::TensorAttribute`
(`searchlib/src/vespa/searchlib/tensor/tensor_attribute.cpp`) together with the
collaborators it drives: the reference vector, the tensor store hold lists, the
generation holder and the generation handler.  Member functions become pure
functions on an explicit column state; functions guarded by `assert` return
`Option`, functions that throw return `Except`.  Generations and local document ids
(lids) are natural numbers.
-/

set_option autoImplicit false

/-! ## Collaborators -/

/-- Width of `size_t` on the supported (64-bit) platforms. -/
def SIZE_T_BITS : Nat := 64

/-- Product of two `size_t` values as the machine computes it (wraps modulo 2^64). -/
def size_t_mul (a b : Nat) : Nat := (a * b) % 2 ^ SIZE_T_BITS

/-- Modelled from the spec: `vespalib::datastore::EntryRef` is not part of the sources.
"An opaque integer handle, valid or invalid (sentinel)"; the default constructed
reference `EntryRef()` is the invalid sentinel. -/
structure EntryRef where
  ref : Nat
deriving DecidableEq, Repr

namespace EntryRef

/-- The default constructed reference `EntryRef()`. -/
def invalid : EntryRef := ⟨0⟩

/-- The member `EntryRef::valid()`. -/
def valid (r : EntryRef) : Bool := r.ref != 0

end EntryRef

/-- Modelled from the spec: the hold list machinery (`GenerationHolder`, and the hold
lists of the data store behind `TensorStore`) is not part of the sources.  "Hold list: a
queue of (generation, freed-resource) pairs."  Resources are first queued untagged
(`hold1`), tagged with a generation when hold lists are transferred (`hold2`), and
`released` records, in order, the resources whose storage has actually been released. -/
structure HoldLists (α : Type) where
  hold1 : List α
  hold2 : List (Nat × α)
  released : List α
deriving DecidableEq, Repr

namespace HoldLists

variable {α : Type}

/-- Modelled from the spec: `hold(ref)` "marks ref as logically dead for new reads but
keeps it physically intact until reclamation". -/
def hold (h : HoldLists α) (x : α) : HoldLists α :=
  { h with hold1 := h.hold1 ++ [x] }

/-- Modelled from the spec: `transferHoldLists(generation)` tags every queued resource
with `generation` ("reclaim-pending resources tagged with the generation at which they
became dead"). -/
def transferHoldLists (h : HoldLists α) (generation : Nat) : HoldLists α :=
  { h with hold1 := [], hold2 := h.hold2 ++ h.hold1.map (fun x => (generation, x)) }

/-- Modelled from the spec: `trimHoldLists(firstUsedGeneration)` "releases physical
storage for every held entry whose generation is strictly less than
firstUsedGeneration". -/
def trimHoldLists (h : HoldLists α) (usedGen : Nat) : HoldLists α :=
  { h with
    hold2 := h.hold2.filter (fun e => decide (usedGen ≤ e.1)),
    released := h.released ++ (h.hold2.filter (fun e => decide (e.1 < usedGen))).map Prod.snd }

end HoldLists

/-- Modelled from the spec: `TensorStore` is not part of the sources; only its hold
lists of payload references matter to the column. -/
abbrev TensorStore := HoldLists EntryRef

/-- The member `TensorStore::holdTensor(ref)`: the payload is put on hold. -/
def TensorStore.holdTensor (t : TensorStore) (ref : EntryRef) : TensorStore :=
  HoldLists.hold t ref

/-- Modelled from the spec: `vespalib::GenerationHolder` is not part of the sources; it
holds the backing arrays replaced by the reference vector. -/
abbrev GenerationHolder := HoldLists (List EntryRef)

/-- Modelled from the spec: `vespalib::RcuVectorBase<EntryRef>` is not part of the
sources.  A growable vector with an explicit capacity and the grow strategy handed over
by the constructor of the column. -/
structure RcuVectorBase where
  data : List EntryRef
  capacity : Nat
  growPercent : Nat
  growDelta : Nat
deriving DecidableEq, Repr

namespace RcuVectorBase

/-- The member `size()`. -/
def size (v : RcuVectorBase) : Nat := v.data.length

/-- The member `isFull()`: no free capacity is left. -/
def isFull (v : RcuVectorBase) : Bool := v.data.length == v.capacity

/-- Read access `operator[]`; the default value stands in for an out of range read. -/
def get (v : RcuVectorBase) (i : Nat) : EntryRef := v.data.getD i EntryRef.invalid

/-- Write access `operator[]`. -/
def set (v : RcuVectorBase) (i : Nat) (x : EntryRef) : RcuVectorBase :=
  { v with data := v.data.set i x }

/-- Capacity chosen by the grow strategy for a vector of `baseSize` elements. -/
def calcNewSize (v : RcuVectorBase) (baseSize : Nat) : Nat :=
  baseSize + max (baseSize * v.growPercent / 100 + v.growDelta) 1

/-- Modelled from the spec: `push_back(entry)`: "If capacity is exhausted, allocates a new
backing array, copies existing committed entries, and the old array is placed on the
generation hold list rather than freed immediately". -/
def push_back (v : RcuVectorBase) (g : GenerationHolder) (x : EntryRef) :
    RcuVectorBase × GenerationHolder :=
  if v.data.length < v.capacity then
    ({ v with data := v.data ++ [x] }, g)
  else
    ({ v with data := v.data ++ [x], capacity := v.calcNewSize v.capacity },
      HoldLists.hold g v.data)

/-- Modelled from the spec: `shrink(newSize)` "only removes trailing unused capacity"; when
the backing array is replaced by a smaller one the old array is put on hold. -/
def shrink (v : RcuVectorBase) (g : GenerationHolder) (newSize : Nat) :
    RcuVectorBase × GenerationHolder :=
  if v.calcNewSize newSize ≥ v.capacity then
    ({ v with data := v.data.take newSize }, g)
  else
    ({ v with data := v.data.take newSize, capacity := v.calcNewSize newSize },
      HoldLists.hold g (v.data.take newSize))

end RcuVectorBase

/-- Modelled from the spec: `vespalib::GenerationHandler` is not part of the sources.
The generation is "a monotonically increasing integer counter"; `readers` lists the
generations guarded by live reader snapshots, and `firstUsedGeneration` caches "the
oldest generation any live reader snapshot still references". -/
structure GenerationHandler where
  generation : Nat
  firstUsedGeneration : Nat
  readers : List Nat
deriving DecidableEq, Repr

namespace GenerationHandler

/-- The member `getNextGeneration()`. -/
def getNextGeneration (h : GenerationHandler) : Nat := h.generation + 1

/-- The member `incGeneration()`: the counter advances by one. -/
def incGeneration (h : GenerationHandler) : GenerationHandler :=
  { h with generation := h.generation + 1 }

/-- The member `updateFirstUsedGeneration()`: the oldest generation still guarded by a
reader, or the current generation when there is no reader. -/
def updateFirstUsedGeneration (h : GenerationHandler) : GenerationHandler :=
  { h with firstUsedGeneration := h.readers.foldl min h.generation }

end GenerationHandler

/-- Modelled from the spec: `vespalib::eval::ValueType` is not part of the sources; a
type is represented by its type spec, the text `to_spec()` returns. -/
structure ValueType where
  to_spec : String
deriving DecidableEq, Repr

/-- Modelled from the spec: `vespalib::tensor::Tensor` is not part of the sources; only
its `type()` is consulted by the column. -/
structure Tensor where
  type : ValueType
deriving DecidableEq, Repr

/-- Modelled from the spec: the attribute `Config`, of which the column reads the
configured tensor type. -/
structure Config where
  tensorType : ValueType
deriving DecidableEq, Repr

/-- Modelled from the spec: `AttributeVector::Status`, the byte totals of the column
("Let used and dead be current column byte totals"). -/
structure Status where
  used : Nat
  dead : Nat
deriving DecidableEq, Repr

/-- The exception `document::WrongTensorTypeException`, carrying its message. -/
structure WrongTensorTypeException where
  message : String
deriving DecidableEq, Repr

/-- Modelled from the spec: the class `PrepareResult` (prepare_result.h) is not part of
the sources; it carries "the result of the costly and non-modifying part" of a two-phase
set operation and is opaque to the column. -/
structure PrepareResult where
  payload : List Nat
deriving DecidableEq, Repr

/-! ## The column -/

/-- Constant `DEAD_SLACK`: minimum dead bytes in tensor attribute before consider compaction. -/
def DEAD_SLACK : Nat := 0x10000

/-- The text built by `makeWrongTensorTypeMsg`. -/
def makeWrongTensorTypeMsg (fieldTensorType tensorType : ValueType) : String :=
  "Field tensor type is '" ++ fieldTensorType.to_spec ++
    "' but other tensor type is '" ++ tensorType.to_spec ++ "'"

/-- State of a `TensorAttribute`: its own members (`_refVector`, `_tensorStore`,
`_compactGeneration`) and the members of the `AttributeVector` base it uses.
`compactWorstCalls` counts the calls of the pure virtual `compactWorst()`. -/
structure TensorAttribute where
  refVector : RcuVectorBase
  tensorStore : TensorStore
  compactGeneration : Nat
  genHolder : GenerationHolder
  genHandler : GenerationHandler
  numDocs : Nat
  committedDocIdLimit : Nat
  uncommittedDocIdLimit : Nat
  status : Status
  config : Config
  compactWorstCalls : Nat
deriving DecidableEq, Repr

namespace TensorAttribute

/-- Modelled from the spec: `AttributeVector::updateUncommittedDocIdLimit(doc)` is not
part of the sources; it raises the uncommitted limit to cover `doc`. -/
def updateUncommittedDocIdLimit (s : TensorAttribute) (doc : Nat) : TensorAttribute :=
  if s.uncommittedDocIdLimit ≤ doc then { s with uncommittedDocIdLimit := doc + 1 } else s

/-- The accessor `getFirstUsedGeneration()`. -/
def getFirstUsedGeneration (s : TensorAttribute) : Nat :=
  s.genHandler.firstUsedGeneration

/-- The accessor `getCurrentGeneration()`. -/
def getCurrentGeneration (s : TensorAttribute) : Nat :=
  s.genHandler.generation

/-- The accessor `getNumDocs()`. -/
def getNumDocs (s : TensorAttribute) : Nat := s.numDocs

/-- The accessor `getCommittedDocIdLimit()`. -/
def getCommittedDocIdLimit (s : TensorAttribute) : Nat := s.committedDocIdLimit

/-- The member `incNumDocs()` of the base: "numDocs grows via addDoc". -/
def incNumDocs (s : TensorAttribute) : TensorAttribute :=
  { s with numDocs := s.numDocs + 1 }

/-- The member `setNumDocs(n)` of the base. -/
def setNumDocs (s : TensorAttribute) (n : Nat) : TensorAttribute :=
  { s with numDocs := n }

/-- Embedding of `TensorAttribute::clearDoc`; the result is the returned count. -/
def clearDoc (s : TensorAttribute) (docId : Nat) : Nat × TensorAttribute :=
  let oldRef := s.refVector.get docId
  let s := s.updateUncommittedDocIdLimit docId
  let s := { s with refVector := s.refVector.set docId EntryRef.invalid }
  if oldRef.valid then
    (1, { s with tensorStore := s.tensorStore.holdTensor oldRef })
  else
    (0, s)

/-- Embedding of `TensorAttribute::removeOldGenerations`. -/
def removeOldGenerations (s : TensorAttribute) (firstUsed : Nat) : TensorAttribute :=
  let s := { s with tensorStore := HoldLists.trimHoldLists s.tensorStore firstUsed }
  { s with genHolder := HoldLists.trimHoldLists s.genHolder firstUsed }

/-- Embedding of `TensorAttribute::onGenerationChange`.  The argument is the generation
about to be entered (at least 1), so `generation - 1` is the generation being left. -/
def onGenerationChange (s : TensorAttribute) (generation : Nat) : TensorAttribute :=
  let s := { s with genHolder := HoldLists.transferHoldLists s.genHolder (generation - 1) }
  { s with tensorStore := HoldLists.transferHoldLists s.tensorStore (generation - 1) }

/-- Modelled from the spec: `AttributeVector::removeAllOldGenerations()` is not part of
the sources: it recomputes the first used generation and hands it to the virtual
`removeOldGenerations`. -/
def removeAllOldGenerations (s : TensorAttribute) : TensorAttribute :=
  let s := { s with genHandler := s.genHandler.updateFirstUsedGeneration }
  s.removeOldGenerations s.genHandler.firstUsedGeneration

/-- Modelled from the spec: `AttributeVector::incGeneration()` is not part of the
sources: it announces the next generation through the virtual `onGenerationChange`,
advances the counter, and trims the hold lists ("trimHoldLists ... must be invoked once
per generation advance"). -/
def incGeneration (s : TensorAttribute) : TensorAttribute :=
  let s := s.onGenerationChange s.genHandler.getNextGeneration
  let s := { s with genHandler := s.genHandler.incGeneration }
  s.removeAllOldGenerations

/-- A call of the pure virtual `compactWorst()`, dispatched to the implementation
`impl` of the concrete column; the call is counted. -/
def compactWorst (impl : TensorAttribute → TensorAttribute) (s : TensorAttribute) :
    TensorAttribute :=
  { impl s with compactWorstCalls := s.compactWorstCalls + 1 }

/-- Embedding of `TensorAttribute::onCommit`. -/
def onCommit (impl : TensorAttribute → TensorAttribute) (s : TensorAttribute) :
    TensorAttribute :=
  let s := s.incGeneration
  if s.getFirstUsedGeneration > s.compactGeneration then
    let used := s.status.used
    let dead := s.status.dead
    if dead ≥ DEAD_SLACK ∧ size_t_mul dead 5 > used then
      s.compactWorst impl
    else s
  else s

/-- Embedding of `TensorAttribute::addDoc`; the result is the returned flag and the reported `docId`. -/
def addDoc (s : TensorAttribute) : (Bool × Nat) × TensorAttribute :=
  let incGen := s.refVector.isFull
  let r := s.refVector.push_back s.genHolder EntryRef.invalid
  let s := { s with refVector := r.1, genHolder := r.2 }
  let s := s.incNumDocs
  let docId := s.getNumDocs - 1
  let s := s.updateUncommittedDocIdLimit docId
  let s := if incGen then s.incGeneration else s.removeAllOldGenerations
  ((true, docId), s)

/-- Embedding of `TensorAttribute::checkTensorType`; `isAssignableType` stands for
`TensorDataType::isAssignableType`, which is not part of the sources. -/
def checkTensorType (isAssignableType : ValueType → ValueType → Bool)
    (s : TensorAttribute) (tensor : Tensor) :
    Except WrongTensorTypeException Unit × TensorAttribute :=
  let fieldTensorType := s.config.tensorType
  let tensorType := tensor.type
  if !isAssignableType fieldTensorType tensorType then
    (.error ⟨makeWrongTensorTypeMsg fieldTensorType tensorType⟩, s)
  else
    (.ok (), s)

/-- Embedding of `TensorAttribute::setTensorRef`; `none` when the assertion fails.  The
release fence orders the writes for concurrent readers and has no effect on the
sequential state. -/
def setTensorRef (s : TensorAttribute) (docId : Nat) (ref : EntryRef) :
    Option TensorAttribute :=
  if docId < s.refVector.size then
    let s := s.updateUncommittedDocIdLimit docId
    let oldRef := s.refVector.get docId
    let s := { s with refVector := s.refVector.set docId ref }
    if oldRef.valid then
      some { s with tensorStore := s.tensorStore.holdTensor oldRef }
    else
      some s
  else none

/-- Body of the loop of `clearDocs` for one `lid`. -/
def clearDocsStep (s : TensorAttribute) (lid : Nat) : TensorAttribute :=
  let ref := s.refVector.get lid
  if ref.valid then
    let s := { s with tensorStore := s.tensorStore.holdTensor ref }
    { s with refVector := s.refVector.set lid EntryRef.invalid }
  else s

/-- The loop of `clearDocs`: `count` iterations starting at `lid`. -/
def clearDocsLoop : Nat → Nat → TensorAttribute → TensorAttribute
  | 0, _, s => s
  | count + 1, lid, s => clearDocsLoop count (lid + 1) (s.clearDocsStep lid)

/-- Embedding of `TensorAttribute::clearDocs`; `none` when an assertion fails. -/
def clearDocs (s : TensorAttribute) (lidLow lidLimit : Nat) : Option TensorAttribute :=
  if lidLow ≤ lidLimit then
    if lidLimit ≤ s.getNumDocs then
      some (clearDocsLoop (lidLimit - lidLow) lidLow s)
    else none
  else none

/-- Embedding of `TensorAttribute::onShrinkLidSpace`; `none` when the assertion fails. -/
def onShrinkLidSpace (s : TensorAttribute) : Option TensorAttribute :=
  let committedDocIdLimit := s.getCommittedDocIdLimit
  if s.refVector.size ≥ committedDocIdLimit then
    let r := s.refVector.shrink s.genHolder committedDocIdLimit
    let s := { s with refVector := r.1, genHolder := r.2 }
    some (s.setNumDocs committedDocIdLimit)
  else none

/-- Embedding of the base `TensorAttribute::prepare_set_tensor`: a `const` member that
ignores both arguments and returns the null pointer; the column is handed back as it
was. -/
def prepare_set_tensor (s : TensorAttribute) (_docid : Nat) (_tensor : Tensor) :
    Option PrepareResult × TensorAttribute :=
  (none, s)

/-- Embedding of the base `TensorAttribute::complete_set_tensor`: all three arguments are
ignored. -/
def complete_set_tensor (s : TensorAttribute) (_docid : Nat) (_tensor : Tensor)
    (_prepare_result : Option PrepareResult) : TensorAttribute :=
  s

/-- Embedding of `TensorAttribute::getRefCopy`, a `const` member: the copy of the first
`getCommittedDocIdLimit()` references, or nothing when the assertion fails; the column is
handed back as it was. -/
def getRefCopy (s : TensorAttribute) : Option (List EntryRef) × TensorAttribute :=
  let size := s.getCommittedDocIdLimit
  if size ≤ s.refVector.size then
    (some (s.refVector.data.take size), s)
  else (none, s)

/-- Reference behaviour for `clearDocs`: `clearDoc(lid)` called for `count` consecutive
lids starting at `lid`, in increasing order; the first component is the sum of the values
returned by the calls. -/
def clearDocSeq : Nat → Nat → TensorAttribute → Nat × TensorAttribute
  | 0, _, s => (0, s)
  | count + 1, lid, s =>
    let r := s.clearDoc lid
    let rest := clearDocSeq count (lid + 1) r.2
    (r.1 + rest.1, rest.2)

end TensorAttribute

/-! ## Concrete column states used by the examples -/

namespace TensorAttribute

/-- A freshly constructed column with room for four lids and the lid 0 added. -/
def exampleColumn : TensorAttribute where
  refVector := { data := [EntryRef.invalid], capacity := 4, growPercent := 0, growDelta := 1 }
  tensorStore := { hold1 := [], hold2 := [], released := [] }
  compactGeneration := 0
  genHolder := { hold1 := [], hold2 := [], released := [] }
  genHandler := { generation := 0, firstUsedGeneration := 0, readers := [] }
  numDocs := 1
  committedDocIdLimit := 1
  uncommittedDocIdLimit := 0
  status := { used := 0, dead := 0 }
  config := { tensorType := ⟨"tensor(x[2],y[3])"⟩ }
  compactWorstCalls := 0

/-- A column holding payload 5 at lid 1 and payload 9 at lid 2. -/
def filledColumn : TensorAttribute :=
  { exampleColumn with
    refVector := { data := [EntryRef.invalid, ⟨5⟩, ⟨9⟩], capacity := 4, growPercent := 0,
                   growDelta := 1 }
    numDocs := 3
    committedDocIdLimit := 3 }

/-- A column whose status reports byte totals so large that `dead * 5` no longer fits in
`size_t`: `dead = 2^64 / 5 + 1` and `used = 2^63`. -/
def hugeDeadColumn : TensorAttribute :=
  { exampleColumn with status := { used := 9223372036854775808, dead := 3689348814741910324 } }

/-- A column with a payload put on hold in generation 0 while a reader was active; the
reader is gone by now and the column is at generation 1. -/
def heldColumn : TensorAttribute :=
  { exampleColumn with
    tensorStore := { hold1 := [], hold2 := [(0, ⟨7⟩)], released := [] }
    genHandler := { generation := 1, firstUsedGeneration := 0, readers := [] } }

/-- A compaction routine of a concrete column, reduced to its bookkeeping: it records the
generation of the compaction and advances the generation. -/
def exampleCompactWorst (s : TensorAttribute) : TensorAttribute :=
  ({ s with compactGeneration := s.getCurrentGeneration }).incGeneration

/-- A column whose committed limit lies below a lid that still holds a payload. -/
def uncommittedTailColumn : TensorAttribute :=
  { exampleColumn with
    refVector := { data := [EntryRef.invalid, ⟨5⟩], capacity := 4, growPercent := 0,
                   growDelta := 1 }
    numDocs := 2
    committedDocIdLimit := 1 }

/-- The frame of an operation that only queues: from `s` to `t` nothing is released and no
tagged entry leaves a hold list, in the tensor store and in the generation holder; the
untagged queues can only grow at their end. -/
def OnlyQueues (s t : TensorAttribute) : Prop :=
  t.tensorStore.released = s.tensorStore.released ∧
  t.tensorStore.hold2 = s.tensorStore.hold2 ∧
  (∃ l, t.tensorStore.hold1 = s.tensorStore.hold1 ++ l) ∧
  t.genHolder.released = s.genHolder.released ∧
  t.genHolder.hold2 = s.genHolder.hold2 ∧
  (∃ l, t.genHolder.hold1 = s.genHolder.hold1 ++ l)

end TensorAttribute

/-! ## The attribute writer

The writer pipeline (`proton::AttributeWriter`, the attribute manager and the sequenced
task executor behind it) is exercised by `attribute_test.cpp` but its implementation is
not part of the sources.  It is modelled from the specification: columns seen through the
generic attribute interface, the writer operations, and the execute history of the shard
executor.  Tasks run to completion inside the call, as with the foreground executor of
the tests. -/

namespace proton

/-- Modelled from the spec: the attribute writer's input values are not part of the
sources.  One change to the value a column stores for a lid: an assignment, a clear
("undefined/default"), or an arithmetic add as used by the update test. -/
inductive FieldOp where
  | assign (value : Int)
  | clear
  | add (operand : Int)
deriving DecidableEq, Repr

namespace FieldOp

/-- Modelled from the spec: effect of a change on a stored value, `none` being the
undefined/default value; an arithmetic add leaves an undefined value undefined. -/
def apply : FieldOp → Option Int → Option Int
  | assign v, _ => some v
  | clear, _ => none
  | add n, some v => some (v + n)
  | add _, none => none

end FieldOp

/-- Modelled from the spec: a document as the writer sees it after decomposition, "a set
of (column, value) pairs". -/
structure Document where
  fields : List (String × Int)
deriving DecidableEq, Repr

/-- Modelled from the spec: a document update after decomposition, the changes to apply
per column name. -/
structure DocumentUpdate where
  updates : List (String × FieldOp)
deriving DecidableEq, Repr

/-- Modelled from the spec: a column behind the generic attribute interface
(`AttributeVector`), not part of the sources.  `values` is what readers observe, one
entry per lid; `changes` holds the writes that were applied with delayed visibility and
become observable at the next commit; `lastSyncToken` is "the last externally-committed
operation"; `componentId` is the identity by which the column is pinned to a shard. -/
structure Attribute where
  name : String
  componentId : Nat
  values : List (Option Int)
  changes : List (Nat × FieldOp)
  lastSyncToken : Nat
deriving DecidableEq, Repr

namespace Attribute

/-- Modelled from the spec: the accessor `getNumDocs()` of a column, the size of its lid
space. -/
def getNumDocs (a : Attribute) : Nat := a.values.length

/-- Modelled from the spec: a read of the value of `lid` by a reader; lids without a
value read as undefined. -/
def get (a : Attribute) (lid : Nat) : Option Int := a.values.getD lid none

/-- Modelled from the spec: lid space is extended to cover `lid` ("numDocs grows via
addDoc"), new lids being unset. -/
def ensureLidSpace (a : Attribute) (lid : Nat) : Attribute :=
  { a with values := a.values ++ List.replicate (lid + 1 - a.values.length) none }

/-- Modelled from the spec: a write is "applied to the column's data structures" without
yet being observable: lid space is ensured and the change is queued behind the earlier
ones. -/
def update (a : Attribute) (lid : Nat) (op : FieldOp) : Attribute :=
  let a := a.ensureLidSpace lid
  { a with changes := a.changes ++ [(lid, op)] }

/-- Modelled from the spec: effect of one queued change on the observable values, which
"observes the latest value" left by the changes before it. -/
def applyChange (values : List (Option Int)) (change : Nat × FieldOp) : List (Option Int) :=
  values.set change.1 (change.2.apply (values.getD change.1 none))

/-- Modelled from the spec: commit of a column with sync token `serial`: the queued
changes become observable in the order they were applied and the token is published. -/
def commit (a : Attribute) (serial : Nat) : Attribute :=
  { a with values := a.changes.foldl applyChange a.values, changes := [],
           lastSyncToken := serial }

/-- Modelled from the spec: one writer operation with serial number `serial` applied to
one column.  "An equal serial is treated as a legitimate retry/no-op"; otherwise the
changes are applied in order and, with `immediate`, committed at once.  The prepare step
of the two-phase application is side-effect free, so only the complete step shows in the
column. -/
def applyWrite (serial : Nat) (immediate : Bool) (changes : List (Nat × FieldOp))
    (a : Attribute) : Attribute :=
  if a.lastSyncToken = serial then a
  else
    let a := changes.foldl (fun a change => a.update change.1 change.2) a
    if immediate then a.commit serial else a

end Attribute

/-- Modelled from the spec: the StaleOperation condition, "raised as an illegal-state
condition". -/
inductive WriterError where
  | staleOperation
deriving DecidableEq, Repr

/-- Modelled from the spec: the writer together with what it drives: the columns of the
attribute manager, the number of shards of the `WriteShardExecutor`, the execute history
observed by the test executor, and the search caches of the imported attributes. -/
structure AttributeWriter where
  numShards : Nat
  attributes : List Attribute
  executeHistory : List Nat
  importedSearchCaches : List (List String)
deriving DecidableEq, Repr

namespace AttributeWriter

/-- Modelled from the spec: "each column is deterministically assigned to exactly one
shard (e.g., by a stable hash of the column's identity)". -/
def getExecutorId (w : AttributeWriter) (a : Attribute) : Nat :=
  a.componentId % w.numShards

/-- Modelled from the spec: the shards that execute work for an operation touching the
columns `touched`: one task per shard that has a touched column pinned to it, in shard
order. -/
def executorIds (w : AttributeWriter) (touched : List Attribute) : List Nat :=
  ((touched.map w.getExecutorId).dedup).insertionSort (fun i j => i ≤ j)

/-- Modelled from the spec: step 1 of every call, "validates serial >= the writer's
last-seen serial; a strictly smaller serial is a fatal precondition violation".  The
serial is compared with the last committed token of the columns. -/
def isStale (w : AttributeWriter) (serial : Nat) : Bool :=
  w.attributes.any (fun a => decide (serial < a.lastSyncToken))

/-- Modelled from the spec: the change a put makes to the column `name`: the value of the
document, or a clear when the document has no such field. -/
def putOp (doc : Document) (name : String) : FieldOp :=
  match doc.fields.lookup name with
  | some v => FieldOp.assign v
  | none => FieldOp.clear

/-- Modelled from the spec: `put(serial, document, lid, immediate)`.  Every column of the
writer is affected. -/
def put (w : AttributeWriter) (serial : Nat) (doc : Document) (lid : Nat) (immediate : Bool) :
    Except WriterError Unit × AttributeWriter :=
  if w.isStale serial then (.error .staleOperation, w)
  else
    (.ok (),
     { w with
       attributes :=
         w.attributes.map (fun a => a.applyWrite serial immediate [(lid, putOp doc a.name)]),
       executeHistory := w.executeHistory ++ w.executorIds w.attributes })

/-- Modelled from the spec: the changes an update makes to the column `name` at `lid`. -/
def updateOps (upd : DocumentUpdate) (lid : Nat) (name : String) : List (Nat × FieldOp) :=
  (upd.updates.filter (fun u => u.1 == name)).map (fun u => (lid, u.2))

/-- Modelled from the spec: `update(serial, update, lid, immediate)`.  Only the columns
named by the update are affected. -/
def update (w : AttributeWriter) (serial : Nat) (upd : DocumentUpdate) (lid : Nat)
    (immediate : Bool) : Except WriterError Unit × AttributeWriter :=
  if w.isStale serial then (.error .staleOperation, w)
  else
    (.ok (),
     { w with
       attributes :=
         w.attributes.map (fun a =>
           if (updateOps upd lid a.name).isEmpty then a
           else a.applyWrite serial immediate (updateOps upd lid a.name)),
       executeHistory := w.executeHistory ++
         w.executorIds (w.attributes.filter (fun a => !(updateOps upd lid a.name).isEmpty)) })

/-- Modelled from the spec: `remove(serial, lid, immediate)`. -/
def remove (w : AttributeWriter) (serial : Nat) (lid : Nat) (immediate : Bool) :
    Except WriterError Unit × AttributeWriter :=
  if w.isStale serial then (.error .staleOperation, w)
  else
    (.ok (),
     { w with
       attributes := w.attributes.map (fun a => a.applyWrite serial immediate [(lid, .clear)]),
       executeHistory := w.executeHistory ++ w.executorIds w.attributes })

/-- Modelled from the spec: the batch `remove(lidSet, serial, immediate)`. -/
def removeBatch (w : AttributeWriter) (lids : List Nat) (serial : Nat) (immediate : Bool) :
    Except WriterError Unit × AttributeWriter :=
  if w.isStale serial then (.error .staleOperation, w)
  else
    (.ok (),
     { w with
       attributes :=
         w.attributes.map (fun a =>
           a.applyWrite serial immediate (lids.map (fun lid => (lid, FieldOp.clear)))),
       executeHistory := w.executeHistory ++ w.executorIds w.attributes })

/-- Modelled from the spec: `forceCommit(serial)` "schedules an onCommit() task on every
column's shard and, once all complete, publishes serial"; the search caches of the
imported attributes are cleared. -/
def forceCommit (w : AttributeWriter) (serial : Nat) :
    Except WriterError Unit × AttributeWriter :=
  if w.isStale serial then (.error .staleOperation, w)
  else
    (.ok (),
     { w with
       attributes := w.attributes.map (fun a => a.commit serial),
       executeHistory := w.executeHistory ++ w.executorIds w.attributes,
       importedSearchCaches := w.importedSearchCaches.map (fun _ => []) })

/-- Modelled from the spec: the "observable state" of one column: its name, the values
per lid (and with them numDocs) and the last sync token. -/
def observable (a : Attribute) : String × List (Option Int) × Nat :=
  (a.name, a.values, a.lastSyncToken)

end AttributeWriter

end proton

/-! ## Concrete writers used by the examples -/

namespace proton

/-- A column as the attribute manager creates it: lid 0 reserved, nothing committed. -/
def freshAttribute (name : String) (componentId : Nat) : Attribute :=
  { name := name, componentId := componentId, values := [none], changes := [],
    lastSyncToken := 0 }

/-- A column filled by the test helper `fillAttribute(attr, numDocs, value, token)`: the
lids 1 .. numDocs hold `value` and everything is committed with sync token `token`. -/
def filledAttribute (name : String) (componentId numDocs : Nat) (value : Int) (token : Nat) :
    Attribute :=
  { name := name, componentId := componentId,
    values := none :: List.replicate numDocs (some value), changes := [],
    lastSyncToken := token }

/-- The writer of `putAttributes`: columns a1, a2, a3 over `numShards` shards. -/
def threeColumnWriter (numShards : Nat) : AttributeWriter :=
  { numShards := numShards,
    attributes := [freshAttribute "a1" 0, freshAttribute "a2" 1, freshAttribute "a3" 2],
    executeHistory := [], importedSearchCaches := [] }

/-- The document of `putAttributes`: a1 = 10, a2 = 15, a3 = 20. -/
def threeColumnDocument : Document := ⟨[("a1", 10), ("a2", 15), ("a3", 20)]⟩

/-- The writer of `visibility_delay_is_honoured` after its first put: one column a1 with
value 10 at lid 1, committed with sync token 3. -/
def delayedWriter : AttributeWriter :=
  { numShards := 1, attributes := [filledAttribute "a1" 0 1 10 3],
    executeHistory := [0], importedSearchCaches := [] }

/-- The same writer further on in `visibility_delay_is_honoured`, after the second
forceCommit: lids 1, 2 and 4 hold 10, sync token 8. -/
def committedDelayedWriter : AttributeWriter :=
  { numShards := 1,
    attributes :=
      [{ name := "a1", componentId := 0,
         values := [none, some 10, some 10, none, some 10], changes := [],
         lastSyncToken := 8 }],
    executeHistory := [0, 0, 0, 0, 0, 0, 0], importedSearchCaches := [] }

/-- A document with the single field a1. -/
def a1Document (value : Int) : Document := ⟨[("a1", value)]⟩

/-- The writer of `handles_remove` and `handles_update`: a1 = 10 and a2 = 20 at lid 1,
sync token 1. -/
def filledWriter : AttributeWriter :=
  { numShards := 1,
    attributes := [filledAttribute "a1" 0 1 10 1, filledAttribute "a2" 1 1 20 1],
    executeHistory := [], importedSearchCaches := [] }

/-- The update of `handles_update`: add 5 to a1 and 10 to a2. -/
def arithmeticUpdate : DocumentUpdate :=
  ⟨[("a1", FieldOp.add 5), ("a2", FieldOp.add 10)]⟩

/-- The writer of `handles_batch_remove`: lids 1 .. 4 hold 22 in a1 and 33 in a2. -/
def batchWriter : AttributeWriter :=
  { numShards := 1,
    attributes := [filledAttribute "a1" 0 4 22 1, filledAttribute "a2" 1 4 33 1],
    executeHistory := [], importedSearchCaches := [] }

end proton

/-! ## The distance feature

Embedding of `searchlib/src/vespa/searchlib/features/distancefeature.cpp`.  Coordinates
are `int32_t` values kept as integers; an `int32_t` subtraction whose result is not an
`int32_t` value has undefined behaviour and yields no result.  `uint32_t` and `uint64_t`
values are natural numbers reduced modulo 2^32 and 2^64 where the code computes them.  A
`feature_t` (double) result is kept as the expression that produces it; floating point
evaluation is not modelled. -/

namespace search.features

/-- Largest `uint64_t`, `std::numeric_limits<uint64_t>::max()`. -/
def UINT64_MAX : Nat := 2 ^ 64 - 1

/-- The subtraction `a - b` of two `int32_t` values: its result when that is an `int32_t`
value, `none` when the subtraction overflows (undefined behaviour in the source). -/
def int32_sub (a b : Int) : Option Int :=
  if -2 ^ 31 ≤ a - b ∧ a - b < 2 ^ 31 then some (a - b) else none

/-- Conversion of an `int32_t` value to `uint32_t`: the value modulo 2^32. -/
def uint32_of_int32 (z : Int) : Nat := (z % 2 ^ 32).toNat

/-- A `feature_t` value as the executor produces it: a literal, or the square root of a
`uint64_t` converted to double. -/
inductive FeatureValue where
  | literal (value : Nat)
  | sqrt_of (sqabsdist : Nat)
deriving DecidableEq, Repr

/-- Modelled from the spec: `fef::Location` is not part of the sources; the accessors the
executor uses: `isValid()`, `getXPosition()`, `getYPosition()` (`int32_t`) and
`getXAspect()` (`uint32_t`). -/
structure Location where
  isValid : Bool
  xPosition : Int
  yPosition : Int
  xAspect : Nat
deriving DecidableEq, Repr

/-- Modelled from the spec: `attribute::CollectionType` is not part of the sources. -/
inductive CollectionType where
  | SINGLE
  | ARRAY
  | WSET
deriving DecidableEq, Repr

/-- Modelled from the spec: `attribute::IAttributeVector` is not part of the sources; what
the distance feature reads of a position attribute: its name, whether it is an integer
attribute, its collection type and the (z-curve encoded) integer values of a document as
`AttributeContent::fill` delivers them. -/
structure IAttributeVector where
  name : String
  isIntegerType : Bool
  collectionType : CollectionType
  values : Nat → List Int

/-- State of a `DistanceExecutor`: the query location and the position attribute, `none`
for the null pointer. -/
structure DistanceExecutor where
  location : Location
  pos : Option IAttributeVector

namespace DistanceExecutor

/-- The constant `DistanceExecutor::DEFAULT_DISTANCE(6400000000.0)`. -/
def DEFAULT_DISTANCE : FeatureValue := FeatureValue.literal 6400000000

/-- Body of the loop of `calculate2DZDistance` for one decoded position: the value of
`sqdist`, `none` when one of the two `int32_t` subtractions overflows. -/
def sqdist (location : Location) (docx docy : Int) : Option Nat :=
  (if location.xPosition > docx then int32_sub location.xPosition docx
   else int32_sub docx location.xPosition).bind fun xdiff =>
  let dx := uint32_of_int32 xdiff
  let dx :=
    if location.xAspect ≠ 0 then ((dx * location.xAspect) % 2 ^ 64 / 2 ^ 32) % 2 ^ 32
    else dx
  (if location.yPosition > docy then int32_sub location.yPosition docy
   else int32_sub docy location.yPosition).bind fun ydiff =>
  let dy := uint32_of_int32 ydiff
  some (((dx * dx) % 2 ^ 64 + (dy * dy) % 2 ^ 64) % 2 ^ 64)

/-- One iteration of the loop of `calculate2DZDistance`: the new value of `sqabsdist`. -/
def sqabsdistStep (location : Location) (sqabsdist : Option Nat) (p : Int × Int) :
    Option Nat :=
  sqabsdist.bind fun m =>
    (sqdist location p.1 p.2).map fun d => if d < m then d else m

/-- The loop of `calculate2DZDistance` over the decoded positions: the final value of
`sqabsdist`, `none` when a subtraction overflowed on the way. -/
def sqabsdist (location : Location) (positions : List (Int × Int)) : Option Nat :=
  positions.foldl (sqabsdistStep location) (some UINT64_MAX)

/-- Embedding of `DistanceExecutor::calculate2DZDistance` for the bound attribute `pos`;
`decode` stands for `vespalib::geo::ZCurve::decode`, which is not part of the sources. -/
def calculate2DZDistance (decode : Int → Int × Int) (location : Location)
    (pos : IAttributeVector) (docId : Nat) : Option FeatureValue :=
  (sqabsdist location ((pos.values docId).map decode)).map FeatureValue.sqrt_of

/-- Embedding of `DistanceExecutor::calculateDistance`. -/
def calculateDistance (decode : Int → Int × Int) (e : DistanceExecutor) (docId : Nat) :
    Option FeatureValue :=
  match e.pos with
  | some pos =>
    if e.location.isValid then calculate2DZDistance decode e.location pos docId
    else some DEFAULT_DISTANCE
  | none => some DEFAULT_DISTANCE

/-- The squared distance the code is meant to compute for one position, over the exact
integers: dx^2 + dy^2 with dy = |locY - docY| and dx = |locX - docX|, replaced by
floor(dx * xAspect / 2^32) when xAspect is not 0. -/
def exactSqDist (location : Location) (docx docy : Int) : Nat :=
  let dx := (location.xPosition - docx).natAbs
  let dx := if location.xAspect ≠ 0 then dx * location.xAspect / 2 ^ 32 else dx
  let dy := (location.yPosition - docy).natAbs
  dx * dx + dy * dy

/-- Every coordinate difference between the location and a position is an `int32_t`
value, so no subtraction of the loop overflows. -/
def DifferencesFit (location : Location) (positions : List (Int × Int)) : Prop :=
  ∀ p ∈ positions,
    (location.xPosition - p.1).natAbs < 2 ^ 31 ∧ (location.yPosition - p.2).natAbs < 2 ^ 31

/-- All coordinates are `int32_t` values and the aspect is a `uint32_t` value. -/
def InRange (location : Location) (positions : List (Int × Int)) : Prop :=
  -2 ^ 31 ≤ location.xPosition ∧ location.xPosition < 2 ^ 31 ∧
  -2 ^ 31 ≤ location.yPosition ∧ location.yPosition < 2 ^ 31 ∧
  location.xAspect < 2 ^ 32 ∧
  ∀ p ∈ positions, -2 ^ 31 ≤ p.1 ∧ p.1 < 2 ^ 31 ∧ -2 ^ 31 ≤ p.2 ∧ p.2 < 2 ^ 31

end DistanceExecutor

/-- Modelled from the spec: `index::schema::DataType` is not part of the sources; the
blueprint only asks whether a field is a tensor. -/
inductive DataType where
  | TENSOR
  | INT64
  | OTHER
deriving DecidableEq, Repr

/-- Modelled from the spec: `fef::FieldInfo` is not part of the sources; the members the
blueprint reads. -/
structure FieldInfo where
  id : Nat
  hasAttribute : Bool
  get_data_type : DataType
  collection : CollectionType
deriving DecidableEq, Repr

/-- Modelled from the spec: `fef::IIndexEnvironment` is not part of the sources;
`getFieldByName` returns `none` for the null pointer. -/
structure IIndexEnvironment where
  getFieldByName : String → Option FieldInfo

/-- Modelled from the spec: `fef::IQueryEnvironment` is not part of the sources: the query
location and the attribute lookup of its attribute context. -/
structure IQueryEnvironment where
  getLocation : Location
  getAttribute : String → Option IAttributeVector

/-- Modelled from the spec: `search::index::Schema::UNKNOWN_FIELD_ID`, the largest
`uint32_t`. -/
def UNKNOWN_FIELD_ID : Nat := 2 ^ 32 - 1

/-- State of a `DistanceBlueprint`: its members, the outputs described so far and the
attribute access hints given to the index environment. -/
structure DistanceBlueprint where
  arg_string : String
  attr_id : Nat
  use_geo_pos : Bool
  use_nns_tensor : Bool
  use_item_label : Bool
  outputs : List (String × String)
  hintedAttributes : List String
deriving DecidableEq, Repr

/-- The executor `createExecutor` puts on the stash. -/
inductive Executor where
  | convertRawscoreForField (fieldId : Nat)
  | convertRawscoreForLabel (label : String)
  | distance (executor : DistanceExecutor)

namespace DistanceBlueprint

/-- The constructor `DistanceBlueprint::DistanceBlueprint()`. -/
def new : DistanceBlueprint :=
  { arg_string := "", attr_id := UNKNOWN_FIELD_ID, use_geo_pos := false,
    use_nns_tensor := false, use_item_label := false, outputs := [],
    hintedAttributes := [] }

/-- Embedding of `DistanceBlueprint::setup_geopos`. -/
def setup_geopos (b : DistanceBlueprint) (attr : String) : Bool × DistanceBlueprint :=
  (true,
   { b with
     arg_string := attr, use_geo_pos := true,
     outputs := b.outputs ++ [("out", "The euclidean distance from the query position.")],
     hintedAttributes := b.hintedAttributes ++ [attr] })

/-- Embedding of `DistanceBlueprint::setup_nns`. -/
def setup_nns (b : DistanceBlueprint) (attr : String) : Bool × DistanceBlueprint :=
  (true,
   { b with
     arg_string := attr, use_nns_tensor := true,
     outputs := b.outputs ++ [("out", "The euclidean distance from the query position.")],
     hintedAttributes := b.hintedAttributes ++ [attr] })

/-- The test `fi != nullptr && fi->hasAttribute()`. -/
def existsWithAttribute (fi : Option FieldInfo) : Bool :=
  match fi with
  | some f => f.hasAttribute
  | none => false

/-- Tail of `DistanceBlueprint::setup` once the field `arg` itself gave no attribute: the
z-curve companion field, then the backwards compatibility fallback, then failure.
`getZCurveFieldName` stands for `document::PositionDataType::getZCurveFieldName`, which
is not part of the sources. -/
def setupZCurve (getZCurveFieldName : String → String) (b : DistanceBlueprint)
    (env : IIndexEnvironment) (arg : String) (allow_bad_field : Bool) :
    Bool × DistanceBlueprint :=
  if existsWithAttribute (env.getFieldByName (getZCurveFieldName arg)) then
    b.setup_geopos (getZCurveFieldName arg)
  else if allow_bad_field then b.setup_geopos arg
  else (false, b)

/-- Second half of `DistanceBlueprint::setup`, from the lookup of the field `arg` on. -/
def setupField (getZCurveFieldName : String → String) (b : DistanceBlueprint)
    (env : IIndexEnvironment) (arg : String) (allow_bad_field : Bool) :
    Bool × DistanceBlueprint :=
  match env.getFieldByName arg with
  | some fi =>
    if fi.hasAttribute then
      if fi.get_data_type = DataType.TENSOR ∧ fi.collection = CollectionType.SINGLE then
        ({ b with attr_id := fi.id }).setup_nns arg
      else b.setup_geopos arg
    else setupZCurve getZCurveFieldName b env arg allow_bad_field
  | none => setupZCurve getZCurveFieldName b env arg allow_bad_field

/-- Embedding of `DistanceBlueprint::setup`; `params` holds the values of the parameters
(at least one). -/
def setup (getZCurveFieldName : String → String) (b : DistanceBlueprint)
    (env : IIndexEnvironment) (params : List String) : Bool × DistanceBlueprint :=
  let arg := params.getD 0 ""
  if params.length = 2 then
    if arg = "label" then
      (true,
       { b with
         arg_string := params.getD 1 "", use_item_label := true,
         outputs := b.outputs ++
           [("out", "The euclidean distance from the labeled query item.")] })
    else if arg = "field" then
      setupField getZCurveFieldName b env (params.getD 1 "") false
    else (false, b)
  else setupField getZCurveFieldName b env arg true

/-- The position attribute `createExecutor` binds: the pointer `pos` at the end of the
function. -/
def boundPosition (b : DistanceBlueprint) (env : IQueryEnvironment) :
    Option IAttributeVector :=
  if b.use_geo_pos ∧ env.getLocation.isValid then
    match env.getAttribute b.arg_string with
    | some pos =>
      if !pos.isIntegerType then none
      else if pos.collectionType = CollectionType.WSET then none
      else some pos
    | none => none
  else none

/-- Embedding of `DistanceBlueprint::createExecutor`. -/
def createExecutor (b : DistanceBlueprint) (env : IQueryEnvironment) : Executor :=
  if b.use_nns_tensor then Executor.convertRawscoreForField b.attr_id
  else if b.use_item_label then Executor.convertRawscoreForLabel b.arg_string
  else Executor.distance { location := env.getLocation, pos := b.boundPosition env }

end DistanceBlueprint

end search.features

/-! ## The storage protocol codec

Embedding of the helpers of
`storageapi/src/vespa/storageapi/mbusprot/protocolserialization7.cpp` that convert between
the storage API types and the protobuf messages, and of the header framing.  Bytes are
natural numbers below 256; the protobuf wire encoding itself belongs to the protobuf
library and enters as a pair of functions. -/

namespace storage.mbusprot

/-- The integer `memcpy` reads from a byte sequence on the (little-endian) host. -/
def le_value : List Nat → Nat
  | [] => 0
  | b :: bs => b + 256 * le_value bs

/-- The `n` bytes `memcpy` writes for an integer on the (little-endian) host. -/
def le_bytes : Nat → Nat → List Nat
  | 0, _ => []
  | n + 1, v => v % 256 :: le_bytes n (v / 256)

/-- Modelled from the spec: `document::GlobalId` is not part of the sources: an array of
`GlobalId::LENGTH` = 12 bytes, `get()` giving access to them. -/
structure GlobalId where
  get : List Nat
deriving DecidableEq, Repr

/-- A global id holds exactly 12 bytes. -/
def GlobalId.WellFormed (g : GlobalId) : Prop :=
  g.get.length = 12 ∧ ∀ b ∈ g.get, b < 256

/-- Modelled from the spec: `api::GetBucketDiffCommand::Entry` is not part of the sources;
its members with their widths: a 64-bit timestamp, the gid, 32-bit header and body sizes,
16-bit flags and mask. -/
structure Entry where
  timestamp : Nat
  gid : GlobalId
  headerSize : Nat
  bodySize : Nat
  flags : Nat
  hasMask : Nat
deriving DecidableEq, Repr

/-- Every member of a diff entry fits its width. -/
def Entry.WellFormed (e : Entry) : Prop :=
  e.timestamp < 2 ^ 64 ∧ e.gid.WellFormed ∧ e.headerSize < 2 ^ 32 ∧ e.bodySize < 2 ^ 32 ∧
  e.flags < 2 ^ 16 ∧ e.hasMask < 2 ^ 16

/-- Modelled from the spec: `api::BucketInfo` is not part of the sources; the members its
getters and setters access. -/
structure BucketInfo where
  lastModified : Nat
  checksum : Nat
  documentCount : Nat
  totalDocumentSize : Nat
  metaCount : Nat
  usedFileSize : Nat
  active : Bool
  ready : Bool
deriving DecidableEq, Repr

/-- Modelled from the spec: what the header writer reads of an `api::StorageCommand`. -/
structure StorageCommand where
  getMsgId : Nat
  getPriority : Nat
  getSourceIndex : Nat
  getLoadTypeId : Nat
deriving DecidableEq, Repr

namespace protobuf

/-- Modelled from the spec: the generated message `protobuf::GlobalId`. -/
structure GlobalId where
  hi_32 : Nat
  lo_64 : Nat
deriving DecidableEq, Repr

/-- Modelled from the spec: the generated message `protobuf::MetaDiffEntry`. -/
structure MetaDiffEntry where
  timestamp : Nat
  gid : GlobalId
  header_size : Nat
  body_size : Nat
  flags : Nat
  has_mask : Nat
deriving DecidableEq, Repr

/-- Modelled from the spec: the generated message `protobuf::BucketInfoV1`. -/
structure BucketInfoV1 where
  last_modified_timestamp : Nat
  checksum : Nat
  doc_count : Nat
  total_doc_size : Nat
  meta_count : Nat
  used_file_size : Nat
  active : Bool
  ready : Bool
deriving DecidableEq, Repr

/-- Modelled from the spec: the generated message `protobuf::BucketInfo` with its optional
member `info_v1`. -/
structure BucketInfo where
  info_v1 : Option BucketInfoV1
deriving DecidableEq, Repr

/-- Modelled from the spec: the generated message `protobuf::RequestHeader`. -/
structure RequestHeader where
  message_id : Nat
  priority : Nat
  source_index : Nat
  loadtype_id : Nat
deriving DecidableEq, Repr

/-- Modelled from the spec: the generated message `protobuf::ResponseHeader`. -/
structure ResponseHeader where
  return_code_id : Nat
  return_code_message : List Nat
  message_id : Nat
  priority : Nat
deriving DecidableEq, Repr

end protobuf

/-- Embedding of `set_global_id`. -/
def set_global_id (dest : protobuf.GlobalId) (src : GlobalId) : protobuf.GlobalId :=
  let lo64 := le_value ((src.get.drop 4).take 8)
  let hi32 := le_value (src.get.take 4)
  let dest := { dest with hi_32 := hi32 }
  { dest with lo_64 := lo64 }

/-- Embedding of `get_global_id`. -/
def get_global_id (src : protobuf.GlobalId) : GlobalId :=
  let lo64 := src.lo_64
  let hi32 := src.hi_32
  { get := le_bytes 4 hi32 ++ le_bytes 8 lo64 }

/-- Embedding of `set_diff_entry`. -/
def set_diff_entry (dest : protobuf.MetaDiffEntry) (src : Entry) : protobuf.MetaDiffEntry :=
  { timestamp := src.timestamp,
    gid := set_global_id dest.gid src.gid,
    header_size := src.headerSize,
    body_size := src.bodySize,
    flags := src.flags,
    has_mask := src.hasMask }

/-- Embedding of `get_diff_entry`; the 32-bit protobuf members `flags` and `has_mask` are
narrowed to the 16-bit members of the entry. -/
def get_diff_entry (src : protobuf.MetaDiffEntry) : Entry :=
  { timestamp := src.timestamp,
    gid := get_global_id src.gid,
    headerSize := src.header_size,
    bodySize := src.body_size,
    flags := src.flags % 2 ^ 16,
    hasMask := src.has_mask % 2 ^ 16 }

/-- Embedding of `set_bucket_info`. -/
def set_bucket_info (_dest : protobuf.BucketInfo) (src : BucketInfo) : protobuf.BucketInfo :=
  { info_v1 := some
      { last_modified_timestamp := src.lastModified,
        checksum := src.checksum,
        doc_count := src.documentCount,
        total_doc_size := src.totalDocumentSize,
        meta_count := src.metaCount,
        used_file_size := src.usedFileSize,
        active := src.active,
        ready := src.ready } }

/-- Embedding of `get_bucket_info`; `defaultInfo` is the default constructed
`api::BucketInfo`, whose constructor is not part of the sources. -/
def get_bucket_info (defaultInfo : BucketInfo) (src : protobuf.BucketInfo) : BucketInfo :=
  match src.info_v1 with
  | none => defaultInfo
  | some s =>
    { defaultInfo with
      lastModified := s.last_modified_timestamp,
      checksum := s.checksum,
      documentCount := s.doc_count,
      totalDocumentSize := s.total_doc_size,
      metaCount := s.meta_count,
      usedFileSize := s.used_file_size,
      active := s.active,
      ready := s.ready }

/-- Modelled from the spec: `document::ByteBuffer` is not part of the sources: the bytes
and the read position. -/
structure ByteBuffer where
  bytes : List Nat
  pos : Nat
deriving DecidableEq, Repr

namespace ByteBuffer

/-- The member `getRemaining()`. -/
def getRemaining (buf : ByteBuffer) : Nat := buf.bytes.length - buf.pos

/-- The bytes `getBufferAtPos()` points to, `len` of them. -/
def getBufferAtPos (buf : ByteBuffer) (len : Nat) : List Nat :=
  (buf.bytes.drop buf.pos).take len

/-- The member `incPos(len)`. -/
def incPos (buf : ByteBuffer) (len : Nat) : ByteBuffer := { buf with pos := buf.pos + len }

end ByteBuffer

/-- The exceptions thrown while decoding a header. -/
inductive DecodeException where
  | BufferOutOfBoundsException (pos len : Nat)
  | IllegalArgumentException (message : String)
deriving DecidableEq, Repr

/-- The 32-bit integer four bytes stand for in network byte order. -/
def be_value32 (bytes : List Nat) : Nat :=
  bytes.foldl (fun acc b => acc * 256 + b) 0

/-- Modelled from the spec: `GrowableByteBuffer::putInt`, not part of the sources: the four
bytes of a 32-bit integer in network byte order. -/
def putInt (v : Nat) : List Nat :=
  [v / 2 ^ 24 % 256, v / 2 ^ 16 % 256, v / 2 ^ 8 % 256, v % 256]

/-- Modelled from the spec: `SerializationHelper::getInt`, not part of the sources: reads
a signed 32-bit integer in network byte order and advances the position by 4; it throws
when fewer than 4 bytes remain. -/
def getInt (buf : ByteBuffer) : Except DecodeException (Int × ByteBuffer) :=
  if buf.getRemaining < 4 then
    .error (.BufferOutOfBoundsException buf.pos 4)
  else
    let u : Nat := be_value32 (buf.getBufferAtPos 4) % 2 ^ 32
    let v : Int := if u < 2 ^ 31 then (u : Int) else (u : Int) - 2 ^ 32
    .ok (v, buf.incPos 4)

/-- The conversion `static_cast<uint32_t>` of a signed 32-bit integer. -/
def toUInt32 (v : Int) : Nat := (v % 2 ^ 32).toNat

/-- Embedding of `write_request_header`; `serialize` stands for the protobuf encoding of
the header (`ByteSizeLong` is its length), `none` when the assertion on the size
fails. -/
def write_request_header (serialize : protobuf.RequestHeader → List Nat) (buf : List Nat)
    (cmd : StorageCommand) : Option (List Nat) :=
  let hdr : protobuf.RequestHeader :=
    { message_id := cmd.getMsgId, priority := cmd.getPriority,
      source_index := cmd.getSourceIndex, loadtype_id := cmd.getLoadTypeId }
  let encoded_size := (serialize hdr).length % 2 ^ 32
  if encoded_size ≤ 128 then
    some (buf ++ putInt encoded_size ++ (serialize hdr).take encoded_size)
  else none

/-- Embedding of `decode_request_header`; `parse` stands for `ParseFromArray` of the
protobuf library. -/
def decode_request_header (parse : List Nat → Option protobuf.RequestHeader)
    (buf : ByteBuffer) : Except DecodeException (protobuf.RequestHeader × ByteBuffer) :=
  match getInt buf with
  | .error e => .error e
  | .ok r =>
    let hdr_len := toUInt32 r.1
    let buf := r.2
    if hdr_len > buf.getRemaining then
      .error (.BufferOutOfBoundsException buf.pos hdr_len)
    else
      match parse (buf.getBufferAtPos hdr_len) with
      | none => .error (.IllegalArgumentException "Malformed protobuf request header")
      | some hdr => .ok (hdr, buf.incPos hdr_len)

/-- Embedding of `decode_response_header`. -/
def decode_response_header (parse : List Nat → Option protobuf.ResponseHeader)
    (buf : ByteBuffer) : Except DecodeException (protobuf.ResponseHeader × ByteBuffer) :=
  match getInt buf with
  | .error e => .error e
  | .ok r =>
    let hdr_len := toUInt32 r.1
    let buf := r.2
    if hdr_len > buf.getRemaining then
      .error (.BufferOutOfBoundsException buf.pos hdr_len)
    else
      match parse (buf.getBufferAtPos hdr_len) with
      | none => .error (.IllegalArgumentException "Malformed protobuf response header")
      | some hdr => .ok (hdr, buf.incPos hdr_len)

/-- The length field a decoder reads at the position of `buf`, as the unsigned 32-bit
number `hdr_len`. -/
def headerLength (buf : ByteBuffer) : Nat := be_value32 (buf.getBufferAtPos 4) % 2 ^ 32

end storage.mbusprot

/-! ## Concrete inputs for the distance feature and the codec -/

namespace search.features

/-- A query location at the largest `int32_t` coordinates, without aspect. -/
def cornerLocation : Location :=
  { isValid := true, xPosition := 2147483647, yPosition := 2147483647, xAspect := 0 }

/-- A query location in Trondheim, in microdegrees, without aspect. -/
def trondheim : Location :=
  { isValid := true, xPosition := 10395000, yPosition := 63430000, xAspect := 0 }

/-- A position attribute with two positions for document 1 and none for the others; the
values are kept decoded, see `pairDecode`. -/
def positionAttribute : IAttributeVector :=
  { name := "pos_zcurve", isIntegerType := true, collectionType := CollectionType.ARRAY,
    values := fun docId => if docId = 1 then [0, 1] else [] }

/-- A stand-in for the z-curve decoder on the two values of `positionAttribute`. -/
def pairDecode (v : Int) : Int × Int :=
  if v = 0 then (10395003, 63430004) else (10757933, 59911491)

/-- An index environment with the attribute field `pos_zcurve` and the index field
`title`. -/
def exampleIndexEnvironment : IIndexEnvironment :=
  { getFieldByName := fun name =>
      if name = "pos_zcurve" then
        some { id := 3, hasAttribute := true, get_data_type := DataType.INT64,
               collection := CollectionType.SINGLE }
      else if name = "title" then
        some { id := 1, hasAttribute := false, get_data_type := DataType.OTHER,
               collection := CollectionType.SINGLE }
      else none }

/-- The z-curve companion of a position field. -/
def zcurveName (name : String) : String := name ++ "_zcurve"

/-- A query environment with a valid location and the attribute `pos_zcurve`. -/
def exampleQueryEnvironment : IQueryEnvironment :=
  { getLocation := trondheim,
    getAttribute := fun name => if name = "pos_zcurve" then some positionAttribute else none }

/-- The blueprint after `setup` with the single parameter `pos`. -/
def posBlueprint : DistanceBlueprint :=
  (DistanceBlueprint.setup zcurveName DistanceBlueprint.new exampleIndexEnvironment ["pos"]).2

end search.features

namespace storage.mbusprot

/-- A global id with the bytes 1 .. 12. -/
def exampleGid : GlobalId := { get := [1, 2, 3, 4, 5, 6, 7, 8, 9, 10, 11, 12] }

/-- A diff entry. -/
def exampleEntry : Entry :=
  { timestamp := 1000, gid := exampleGid, headerSize := 100, bodySize := 200, flags := 1,
    hasMask := 3 }

/-- A toy header encoding standing in for protobuf: the four members as 8 bytes each. -/
def toySerialize (h : protobuf.RequestHeader) : List Nat :=
  le_bytes 8 h.message_id ++ le_bytes 8 h.priority ++ le_bytes 8 h.source_index ++
    le_bytes 8 h.loadtype_id

/-- The parser of the toy header encoding. -/
def toyParse (bytes : List Nat) : Option protobuf.RequestHeader :=
  if bytes.length = 32 then
    some { message_id := le_value (bytes.take 8),
           priority := le_value ((bytes.drop 8).take 8),
           source_index := le_value ((bytes.drop 16).take 8),
           loadtype_id := le_value ((bytes.drop 24).take 8) }
  else none

/-- A storage command. -/
def exampleCommand : StorageCommand :=
  { getMsgId := 77, getPriority := 120, getSourceIndex := 3, getLoadTypeId := 0 }

/-- A bucket info. -/
def exampleBucketInfo : BucketInfo :=
  { lastModified := 1234567, checksum := 3735928559, documentCount := 10,
    totalDocumentSize := 1000, metaCount := 12, usedFileSize := 1200, active := true,
    ready := false }

/-- A stand-in for the default constructed bucket info. -/
def defaultBucketInfo : BucketInfo :=
  { lastModified := 0, checksum := 0, documentCount := 0, totalDocumentSize := 0,
    metaCount := 0, usedFileSize := 0, active := false, ready := false }

/-- A buffer holding the length 2 followed by a single byte. -/
def truncatedBuffer : ByteBuffer := { bytes := [0, 0, 0, 2, 7], pos := 0 }

end storage.mbusprot

/-! ## Auxiliary facts -/

namespace TensorAttribute

theorem incGeneration_status (s : TensorAttribute) : s.incGeneration.status = s.status := rfl

theorem incGeneration_compactGeneration (s : TensorAttribute) :
    s.incGeneration.compactGeneration = s.compactGeneration := rfl

theorem incGeneration_compactWorstCalls (s : TensorAttribute) :
    s.incGeneration.compactWorstCalls = s.compactWorstCalls := rfl

theorem incGeneration_generation (s : TensorAttribute) :
    s.incGeneration.genHandler.generation = s.genHandler.generation + 1 := rfl

theorem onCommit_calls (impl : TensorAttribute → TensorAttribute) (s : TensorAttribute) :
    (s.onCommit impl).compactWorstCalls =
      if s.incGeneration.getFirstUsedGeneration > s.compactGeneration ∧
          s.status.dead ≥ DEAD_SLACK ∧ size_t_mul s.status.dead 5 > s.status.used
      then s.compactWorstCalls + 1 else s.compactWorstCalls := by
  unfold onCommit
  simp only [incGeneration_status, incGeneration_compactGeneration]
  by_cases h1 : s.incGeneration.getFirstUsedGeneration > s.compactGeneration
  · by_cases h2 : s.status.dead ≥ DEAD_SLACK ∧ size_t_mul s.status.dead 5 > s.status.used
    · simp [h1, h2, compactWorst, incGeneration_compactWorstCalls]
    · simp [h1, h2, incGeneration_compactWorstCalls]
  · simp [h1, incGeneration_compactWorstCalls]

theorem OnlyQueues.refl (s : TensorAttribute) : OnlyQueues s s :=
  ⟨rfl, rfl, ⟨[], (List.append_nil _).symm⟩, rfl, rfl, ⟨[], (List.append_nil _).symm⟩⟩

theorem OnlyQueues.trans {s t u : TensorAttribute} (h1 : OnlyQueues s t)
    (h2 : OnlyQueues t u) : OnlyQueues s u := by
  obtain ⟨a1, a2, ⟨l1, a3⟩, a4, a5, ⟨m1, a6⟩⟩ := h1
  obtain ⟨b1, b2, ⟨l2, b3⟩, b4, b5, ⟨m2, b6⟩⟩ := h2
  refine ⟨b1.trans a1, b2.trans a2, ⟨l1 ++ l2, ?_⟩, b4.trans a4, b5.trans a5, ⟨m1 ++ m2, ?_⟩⟩
  · rw [b3, a3, List.append_assoc]
  · rw [b6, a6, List.append_assoc]

theorem updateUncommittedDocIdLimit_onlyQueues (s : TensorAttribute) (doc : Nat) :
    OnlyQueues s (s.updateUncommittedDocIdLimit doc) := by
  unfold updateUncommittedDocIdLimit
  split_ifs
  · exact ⟨rfl, rfl, ⟨[], (List.append_nil _).symm⟩, rfl, rfl, ⟨[], (List.append_nil _).symm⟩⟩
  · exact OnlyQueues.refl s

theorem clearDoc_onlyQueues (s : TensorAttribute) (docId : Nat) :
    OnlyQueues s (s.clearDoc docId).2 := by
  unfold clearDoc updateUncommittedDocIdLimit
  cases hv : (s.refVector.get docId).valid <;>
    by_cases hu : s.uncommittedDocIdLimit ≤ docId <;>
    simp only [hv, hu, if_true, if_false, Bool.false_eq_true] <;>
    first
    | exact ⟨rfl, rfl, ⟨[s.refVector.get docId], rfl⟩, rfl, rfl, ⟨[], (List.append_nil _).symm⟩⟩
    | exact ⟨rfl, rfl, ⟨[], (List.append_nil _).symm⟩, rfl, rfl, ⟨[], (List.append_nil _).symm⟩⟩

theorem setTensorRef_onlyQueues (s t : TensorAttribute) (docId : Nat) (ref : EntryRef)
    (h : s.setTensorRef docId ref = some t) : OnlyQueues s t := by
  unfold setTensorRef at h
  by_cases hd : docId < s.refVector.size
  · simp only [hd, if_true] at h
    cases hv : ((s.updateUncommittedDocIdLimit docId).refVector.get docId).valid
    · simp only [hv, Bool.false_eq_true, if_false, Option.some.injEq] at h
      subst h
      refine OnlyQueues.trans (updateUncommittedDocIdLimit_onlyQueues s docId) ?_
      exact ⟨rfl, rfl, ⟨[], (List.append_nil _).symm⟩, rfl, rfl, ⟨[], (List.append_nil _).symm⟩⟩
    · simp only [hv, if_true, Option.some.injEq] at h
      subst h
      refine OnlyQueues.trans (updateUncommittedDocIdLimit_onlyQueues s docId) ?_
      exact ⟨rfl, rfl, ⟨[_], rfl⟩, rfl, rfl, ⟨[], (List.append_nil _).symm⟩⟩
  · simp [hd] at h

theorem clearDocsStep_onlyQueues (s : TensorAttribute) (lid : Nat) :
    OnlyQueues s (s.clearDocsStep lid) := by
  unfold clearDocsStep
  cases hv : (s.refVector.get lid).valid
  · simp only [hv, Bool.false_eq_true, if_false]
    exact OnlyQueues.refl s
  · simp only [hv, if_true]
    exact ⟨rfl, rfl, ⟨[s.refVector.get lid], rfl⟩, rfl, rfl, ⟨[], (List.append_nil _).symm⟩⟩

theorem clearDocsLoop_onlyQueues (count : Nat) (lid : Nat) (s : TensorAttribute) :
    OnlyQueues s (clearDocsLoop count lid s) := by
  induction count generalizing lid s with
  | zero => exact OnlyQueues.refl s
  | succ n ih =>
    exact OnlyQueues.trans (clearDocsStep_onlyQueues s lid) (ih (lid + 1) (s.clearDocsStep lid))

theorem clearDocs_onlyQueues (s t : TensorAttribute) (lidLow lidLimit : Nat)
    (h : s.clearDocs lidLow lidLimit = some t) : OnlyQueues s t := by
  unfold clearDocs at h
  split_ifs at h
  simp only [Option.some.injEq] at h
  subst h
  exact clearDocsLoop_onlyQueues _ _ _

theorem onShrinkLidSpace_onlyQueues (s t : TensorAttribute)
    (h : s.onShrinkLidSpace = some t) : OnlyQueues s t := by
  unfold onShrinkLidSpace at h
  simp only at h
  split_ifs at h
  simp only [Option.some.injEq] at h
  subst h
  unfold RcuVectorBase.shrink
  split_ifs
  · exact ⟨rfl, rfl, ⟨[], (List.append_nil _).symm⟩, rfl, rfl, ⟨[], (List.append_nil _).symm⟩⟩
  · exact ⟨rfl, rfl, ⟨[], (List.append_nil _).symm⟩, rfl, rfl, ⟨[_], rfl⟩⟩

theorem removeAllOldGenerations_trimmed (s : TensorAttribute) :
    (∀ e ∈ s.removeAllOldGenerations.tensorStore.hold2,
      s.removeAllOldGenerations.genHandler.firstUsedGeneration ≤ e.1) ∧
    (∀ e ∈ s.removeAllOldGenerations.genHolder.hold2,
      s.removeAllOldGenerations.genHandler.firstUsedGeneration ≤ e.1) := by
  constructor <;>
  · intro e he
    simp only [removeAllOldGenerations, removeOldGenerations, HoldLists.trimHoldLists,
      List.mem_filter, decide_eq_true_eq] at he ⊢
    exact he.2

theorem addDoc_state (s : TensorAttribute) :
    ∃ t : TensorAttribute, (s.addDoc).2 = t.removeAllOldGenerations := by
  unfold addDoc
  dsimp only
  split_ifs
  · exact ⟨_, rfl⟩
  · exact ⟨_, rfl⟩

theorem removeAllOldGenerations_frame (s : TensorAttribute) :
    s.removeAllOldGenerations.refVector = s.refVector ∧
    s.removeAllOldGenerations.numDocs = s.numDocs ∧
    s.removeAllOldGenerations.genHandler.generation = s.genHandler.generation :=
  ⟨rfl, rfl, rfl⟩

theorem incGeneration_frame (s : TensorAttribute) :
    s.incGeneration.refVector = s.refVector ∧ s.incGeneration.numDocs = s.numDocs :=
  ⟨rfl, rfl⟩

theorem updateUncommittedDocIdLimit_frame (s : TensorAttribute) (doc : Nat) :
    (s.updateUncommittedDocIdLimit doc).refVector = s.refVector ∧
    (s.updateUncommittedDocIdLimit doc).tensorStore = s.tensorStore ∧
    (s.updateUncommittedDocIdLimit doc).genHolder = s.genHolder ∧
    (s.updateUncommittedDocIdLimit doc).genHandler = s.genHandler ∧
    (s.updateUncommittedDocIdLimit doc).numDocs = s.numDocs ∧
    (s.updateUncommittedDocIdLimit doc).committedDocIdLimit = s.committedDocIdLimit := by
  unfold updateUncommittedDocIdLimit
  split_ifs <;> exact ⟨rfl, rfl, rfl, rfl, rfl, rfl⟩

theorem push_back_data (v : RcuVectorBase) (g : GenerationHolder) (x : EntryRef) :
    (v.push_back g x).1.data = v.data ++ [x] := by
  unfold RcuVectorBase.push_back
  split_ifs <;> rfl

theorem addDoc_refVector_numDocs (s : TensorAttribute) :
    (s.addDoc).2.refVector = (s.refVector.push_back s.genHolder EntryRef.invalid).1 ∧
    (s.addDoc).2.numDocs = s.numDocs + 1 ∧ (s.addDoc).1 = (true, s.numDocs) := by
  unfold addDoc
  dsimp only [getNumDocs, incNumDocs]
  refine ⟨?_, ?_, ?_⟩
  · split_ifs
    · rw [(incGeneration_frame _).1, (updateUncommittedDocIdLimit_frame _ _).1]
    · rw [(removeAllOldGenerations_frame _).1, (updateUncommittedDocIdLimit_frame _ _).1]
  · split_ifs
    · rw [(incGeneration_frame _).2, (updateUncommittedDocIdLimit_frame _ _).2.2.2.2.1]
    · rw [(removeAllOldGenerations_frame _).2.1, (updateUncommittedDocIdLimit_frame _ _).2.2.2.2.1]
  · rw [Nat.add_sub_cancel]

theorem valid_eq_false_iff (r : EntryRef) : r.valid = false ↔ r = EntryRef.invalid := by
  cases r with
  | mk n => simp [EntryRef.valid, EntryRef.invalid]

theorem get_eq_of_getElem? (v : RcuVectorBase) (i : Nat) (r : EntryRef)
    (h : v.data[i]? = some r) : v.get i = r := by
  simp [RcuVectorBase.get, List.getD_eq_getElem?_getD, h]

theorem get_of_le (v : RcuVectorBase) (i : Nat) (h : v.data.length ≤ i) :
    v.get i = EntryRef.invalid := by
  simp [RcuVectorBase.get, List.getD_eq_getElem?_getD, List.getElem?_eq_none h]

theorem clearDocsStep_data (s : TensorAttribute) (lid : Nat) :
    (s.clearDocsStep lid).refVector.data = s.refVector.data.set lid EntryRef.invalid := by
  unfold clearDocsStep
  cases hv : (s.refVector.get lid).valid
  · simp only [hv, Bool.false_eq_true, if_false]
    have hinv : s.refVector.get lid = EntryRef.invalid := (valid_eq_false_iff _).mp hv
    apply List.ext_getElem?
    intro j
    rw [List.getElem?_set]
    by_cases hj : lid = j
    · subst hj
      by_cases hl : lid < s.refVector.data.length
      · simp only [if_true, hl]
        rw [← hinv]
        simp [RcuVectorBase.get, List.getD_eq_getElem?_getD, List.getElem?_eq_getElem hl]
      · simp only [if_true, hl, if_false]
        exact List.getElem?_eq_none (Nat.le_of_not_lt hl)
    · simp only [hj, if_false]
  · simp only [hv, if_true]
    rfl

theorem clearDocsStep_hold1 (s : TensorAttribute) (lid : Nat) :
    (s.clearDocsStep lid).tensorStore.hold1 =
      s.tensorStore.hold1 ++ [s.refVector.get lid].filter EntryRef.valid := by
  unfold clearDocsStep
  cases hv : (s.refVector.get lid).valid
  · simp [hv]
  · simp [hv, TensorStore.holdTensor, HoldLists.hold]

theorem clearDocsStep_frame (s : TensorAttribute) (lid : Nat) :
    (s.clearDocsStep lid).genHandler = s.genHandler ∧
    (s.clearDocsStep lid).genHolder = s.genHolder ∧
    (s.clearDocsStep lid).numDocs = s.numDocs ∧
    (s.clearDocsStep lid).committedDocIdLimit = s.committedDocIdLimit ∧
    (s.clearDocsStep lid).refVector.capacity = s.refVector.capacity ∧
    (s.clearDocsStep lid).refVector.growPercent = s.refVector.growPercent ∧
    (s.clearDocsStep lid).refVector.growDelta = s.refVector.growDelta := by
  unfold clearDocsStep
  dsimp only
  split_ifs <;> exact ⟨rfl, rfl, rfl, rfl, rfl, rfl, rfl⟩

theorem clearDocsLoop_frame (count lid : Nat) (s : TensorAttribute) :
    (clearDocsLoop count lid s).genHandler = s.genHandler ∧
    (clearDocsLoop count lid s).genHolder = s.genHolder ∧
    (clearDocsLoop count lid s).numDocs = s.numDocs ∧
    (clearDocsLoop count lid s).committedDocIdLimit = s.committedDocIdLimit ∧
    (clearDocsLoop count lid s).refVector.capacity = s.refVector.capacity ∧
    (clearDocsLoop count lid s).refVector.growPercent = s.refVector.growPercent ∧
    (clearDocsLoop count lid s).refVector.growDelta = s.refVector.growDelta := by
  induction count generalizing lid s with
  | zero => exact ⟨rfl, rfl, rfl, rfl, rfl, rfl, rfl⟩
  | succ n ih =>
    obtain ⟨a1, a2, a3, a4, a5, a6, a7⟩ := ih (lid + 1) (s.clearDocsStep lid)
    obtain ⟨b1, b2, b3, b4, b5, b6, b7⟩ := clearDocsStep_frame s lid
    exact ⟨a1.trans b1, a2.trans b2, a3.trans b3, a4.trans b4, a5.trans b5, a6.trans b6,
      a7.trans b7⟩

theorem clearDocsLoop_getElem? (count lid : Nat) (s : TensorAttribute) (i : Nat) :
    (clearDocsLoop count lid s).refVector.data[i]? =
      if lid ≤ i ∧ i < lid + count then
        (s.refVector.data[i]?).map (fun _ => EntryRef.invalid)
      else s.refVector.data[i]? := by
  induction count generalizing lid s with
  | zero =>
    have : ¬ (lid ≤ i ∧ i < lid + 0) := by omega
    simp only [clearDocsLoop, this, if_false]
  | succ n ih =>
    simp only [clearDocsLoop]
    rw [ih (lid + 1) (s.clearDocsStep lid), clearDocsStep_data, List.getElem?_set]
    by_cases h1 : lid = i
    · subst h1
      have c1 : ¬ (lid + 1 ≤ lid ∧ lid < lid + 1 + n) := by omega
      have c2 : lid ≤ lid ∧ lid < lid + (n + 1) := by omega
      simp only [c1, c2, if_false, if_true]
      by_cases hl : lid < s.refVector.data.length
      · simp [hl, List.getElem?_eq_getElem hl]
      · simp [hl, List.getElem?_eq_none (Nat.le_of_not_lt hl)]
    · simp only [h1, if_false]
      by_cases h2 : lid + 1 ≤ i ∧ i < lid + 1 + n
      · have c2 : lid ≤ i ∧ i < lid + (n + 1) := by omega
        simp only [h2, c2, and_self, if_true]
      · have c2 : ¬ (lid ≤ i ∧ i < lid + (n + 1)) := by omega
        simp only [h2, c2, if_false]

theorem clearDocsLoop_length (count lid : Nat) (s : TensorAttribute) :
    (clearDocsLoop count lid s).refVector.data.length = s.refVector.data.length := by
  induction count generalizing lid s with
  | zero => rfl
  | succ n ih =>
    simp only [clearDocsLoop]
    rw [ih (lid + 1) (s.clearDocsStep lid), clearDocsStep_data, List.length_set]

theorem clearDocsLoop_hold1 (count lid : Nat) (s : TensorAttribute) :
    (clearDocsLoop count lid s).tensorStore.hold1 =
      s.tensorStore.hold1 ++ ((s.refVector.data.drop lid).take count).filter EntryRef.valid := by
  induction count generalizing lid s with
  | zero => simp [clearDocsLoop]
  | succ n ih =>
    simp only [clearDocsLoop]
    rw [ih (lid + 1) (s.clearDocsStep lid), clearDocsStep_hold1, clearDocsStep_data,
      List.drop_set_of_lt _ _ (Nat.lt_succ_self lid), List.append_assoc]
    congr 1
    by_cases hl : lid < s.refVector.data.length
    · have hget : s.refVector.get lid = s.refVector.data[lid] := by
        simp [RcuVectorBase.get, List.getD_eq_getElem?_getD, List.getElem?_eq_getElem hl]
      rw [hget, List.drop_eq_getElem_cons hl, List.take_succ_cons, ← List.filter_append]
      rfl
    · have hle : s.refVector.data.length ≤ lid := Nat.le_of_not_lt hl
      rw [get_of_le _ _ hle, List.drop_eq_nil_of_le hle,
        List.drop_eq_nil_of_le (Nat.le_succ_of_le hle)]
      simp [EntryRef.valid, EntryRef.invalid]

theorem clearDoc_genHandler (s : TensorAttribute) (docId : Nat) :
    (s.clearDoc docId).2.genHandler = s.genHandler := by
  obtain ⟨-, -, -, f4, -, -⟩ := updateUncommittedDocIdLimit_frame s docId
  unfold clearDoc
  dsimp only
  split_ifs <;> exact f4

theorem setTensorRef_genHandler (s t : TensorAttribute) (docId : Nat) (ref : EntryRef)
    (h : s.setTensorRef docId ref = some t) : t.genHandler = s.genHandler := by
  obtain ⟨-, -, -, f4, -, -⟩ := updateUncommittedDocIdLimit_frame s docId
  unfold setTensorRef at h
  dsimp only at h
  split_ifs at h <;> simp only [Option.some.injEq] at h <;> subst h <;> exact f4

theorem clearDocs_eq (s t : TensorAttribute) (lidLow lidLimit : Nat)
    (h : s.clearDocs lidLow lidLimit = some t) :
    t = clearDocsLoop (lidLimit - lidLow) lidLow s := by
  unfold clearDocs at h
  split_ifs at h
  simp only [Option.some.injEq] at h
  exact h.symm

theorem onShrinkLidSpace_some (s : TensorAttribute)
    (h : s.refVector.size ≥ s.committedDocIdLimit) :
    ∃ t, s.onShrinkLidSpace = some t ∧
      t.refVector.data = s.refVector.data.take s.committedDocIdLimit ∧
      t.numDocs = s.committedDocIdLimit ∧
      t.tensorStore = s.tensorStore ∧
      t.genHandler = s.genHandler := by
  unfold onShrinkLidSpace
  simp only [getCommittedDocIdLimit, h, if_true]
  refine ⟨_, rfl, ?_, rfl, rfl, rfl⟩
  unfold RcuVectorBase.shrink setNumDocs
  dsimp only
  split_ifs <;> rfl

theorem onShrinkLidSpace_genHandler (s t : TensorAttribute)
    (h : s.onShrinkLidSpace = some t) : t.genHandler = s.genHandler := by
  by_cases hs : s.refVector.size ≥ s.committedDocIdLimit
  · obtain ⟨u, hu, -, -, -, hg⟩ := onShrinkLidSpace_some s hs
    rw [hu, Option.some.injEq] at h
    rw [← h]; exact hg
  · unfold onShrinkLidSpace at h
    simp only [getCommittedDocIdLimit, hs, if_false] at h
    cases h

theorem addDoc_generation (s : TensorAttribute) :
    s.genHandler.generation ≤ (s.addDoc).2.genHandler.generation := by
  unfold addDoc
  dsimp only
  split_ifs
  · rw [incGeneration_generation, (updateUncommittedDocIdLimit_frame _ _).2.2.2.1]
    exact Nat.le_succ _
  · rw [(removeAllOldGenerations_frame _).2.2, (updateUncommittedDocIdLimit_frame _ _).2.2.2.1]
    exact Nat.le_refl _

theorem onCommit_generation (impl : TensorAttribute → TensorAttribute) (s : TensorAttribute) :
    (s.onCommit impl).genHandler.generation = s.genHandler.generation + 1 ∨
    (s.onCommit impl).genHandler.generation
      = (impl s.incGeneration).genHandler.generation := by
  unfold onCommit
  dsimp only
  split_ifs
  · right; rfl
  · left; rfl
  · left; rfl

end TensorAttribute

/-! ## Claims -/

namespace TensorAttribute

/-- C1 (counterexample): on `hugeDeadColumn` the three conditions of the claim hold after
the generation increment (first used generation 1 > compact generation 0, dead >= 65536,
dead * 5 > used as integers), yet `onCommit` does not call `compactWorst`, because the
product `dead * 5` wraps to 4 in `size_t`. -/
theorem onCommit_trigger_overflow_counterexample :
    (hugeDeadColumn.incGeneration.getFirstUsedGeneration > hugeDeadColumn.compactGeneration ∧
      hugeDeadColumn.status.dead ≥ 65536 ∧
      hugeDeadColumn.status.dead * 5 > hugeDeadColumn.status.used) ∧
    (hugeDeadColumn.onCommit exampleCompactWorst).compactWorstCalls
      = hugeDeadColumn.compactWorstCalls := by
  decide

/-- C1 (amended): `onCommit` calls `compactWorst` (exactly once) if and only if, after its
generation increment, firstUsedGeneration > compactGeneration and dead >= 65536 and the
`size_t` product dead * 5 (taken modulo 2^64) exceeds used; otherwise it does not call
it.  Whenever dead * 5 fits in `size_t` the last condition is dead * 5 > used. -/
theorem onCommit_calls_compactWorst_iff (impl : TensorAttribute → TensorAttribute)
    (s : TensorAttribute) :
    ((s.onCommit impl).compactWorstCalls = s.compactWorstCalls + 1 ↔
      (s.incGeneration.getFirstUsedGeneration > s.compactGeneration ∧
        s.status.dead ≥ 65536 ∧ (s.status.dead * 5) % 2 ^ 64 > s.status.used)) ∧
    ((s.onCommit impl).compactWorstCalls = s.compactWorstCalls ↔
      ¬ (s.incGeneration.getFirstUsedGeneration > s.compactGeneration ∧
        s.status.dead ≥ 65536 ∧ (s.status.dead * 5) % 2 ^ 64 > s.status.used)) ∧
    (s.status.dead * 5 < 2 ^ 64 →
      ((s.onCommit impl).compactWorstCalls = s.compactWorstCalls + 1 ↔
        (s.incGeneration.getFirstUsedGeneration > s.compactGeneration ∧
          s.status.dead ≥ 65536 ∧ s.status.dead * 5 > s.status.used))) := by
  have key := onCommit_calls impl s
  simp only [DEAD_SLACK, size_t_mul, SIZE_T_BITS] at key
  refine ⟨?_, ?_, ?_⟩
  · rw [key]; split_ifs with h
    · simp only [true_iff]; exact h
    · constructor
      · intro h'; omega
      · intro h'; exact absurd h' h
  · rw [key]; split_ifs with h
    · constructor
      · intro h'; omega
      · intro h'; exact absurd h h'
    · simp only [true_iff]; exact h
  · intro hfit
    have hmod : s.status.dead * 5 % 2 ^ 64 = s.status.dead * 5 := Nat.mod_eq_of_lt hfit
    rw [key]; split_ifs with h
    · simp only [true_iff]; rw [hmod] at h; exact h
    · constructor
      · intro h'; omega
      · intro h'; rw [← hmod] at h'; exact absurd h' h

/-- C1 (amended, instance): a column with 100000 dead bytes out of 400000 used ones
compacts on commit. -/
theorem onCommit_calls_compactWorst_iff_witness :
    (({ exampleColumn with status := { used := 400000, dead := 100000 } } :
        TensorAttribute).onCommit exampleCompactWorst).compactWorstCalls = 1 := by
  have h := (onCommit_calls_compactWorst_iff exampleCompactWorst
    { exampleColumn with status := { used := 400000, dead := 100000 } }).2.2 (by decide)
  exact h.mpr (by decide)

/-- C2 (counterexample): `addDoc` releases memory.  On `heldColumn` (a payload held since
generation 0, no reader left, free capacity in the vector) `addDoc` removes old
generations: the held payload is released and leaves the hold list, so `addDoc` is not an
operation that only queues. -/
theorem addDoc_releases_counterexample :
    heldColumn.tensorStore.released = [] ∧
    heldColumn.tensorStore.hold2 = [(0, ⟨7⟩)] ∧
    (heldColumn.addDoc).2.tensorStore.released = [⟨7⟩] ∧
    (heldColumn.addDoc).2.tensorStore.hold2 = [] ∧
    ¬ OnlyQueues heldColumn (heldColumn.addDoc).2 := by
  refine ⟨by decide, by decide, by decide, by decide, ?_⟩
  intro h
  exact absurd h.1 (by decide)

/-- C2 (amended): `clearDoc`, `clearDocs`, `setTensorRef` and `onShrinkLidSpace` only queue
resources on a hold list and release none of them (no entry leaves a hold list, nothing
is added to the released resources).  `addDoc` is not among them: like `onCommit` it
removes old generations, so that after `addDoc`, as after the generation increment of
`onCommit`, no held entry older than the first used generation remains in the tensor
store or the generation holder. -/
theorem only_queueing_operations (s : TensorAttribute) :
    (∀ docId, OnlyQueues s (s.clearDoc docId).2) ∧
    (∀ lidLow lidLimit t, s.clearDocs lidLow lidLimit = some t → OnlyQueues s t) ∧
    (∀ docId ref t, s.setTensorRef docId ref = some t → OnlyQueues s t) ∧
    (∀ t, s.onShrinkLidSpace = some t → OnlyQueues s t) ∧
    (∀ e ∈ (s.addDoc).2.tensorStore.hold2,
      (s.addDoc).2.genHandler.firstUsedGeneration ≤ e.1) ∧
    (∀ e ∈ (s.addDoc).2.genHolder.hold2,
      (s.addDoc).2.genHandler.firstUsedGeneration ≤ e.1) ∧
    (∀ e ∈ s.incGeneration.tensorStore.hold2,
      s.incGeneration.genHandler.firstUsedGeneration ≤ e.1) ∧
    (∀ e ∈ s.incGeneration.genHolder.hold2,
      s.incGeneration.genHandler.firstUsedGeneration ≤ e.1) := by
  refine ⟨clearDoc_onlyQueues s, ?_, ?_, ?_, ?_, ?_,
    (removeAllOldGenerations_trimmed _).1, (removeAllOldGenerations_trimmed _).2⟩
  · intro lo hi t h; exact clearDocs_onlyQueues s t lo hi h
  · intro d r t h; exact setTensorRef_onlyQueues s t d r h
  · intro t h; exact onShrinkLidSpace_onlyQueues s t h
  · obtain ⟨t, ht⟩ := addDoc_state s
    rw [ht]; exact (removeAllOldGenerations_trimmed t).1
  · obtain ⟨t, ht⟩ := addDoc_state s
    rw [ht]; exact (removeAllOldGenerations_trimmed t).2

/-- C2 (amended, instance): clearing lids 1 and 2 of `filledColumn` releases nothing and
queues the two payloads. -/
theorem only_queueing_operations_witness :
    filledColumn.clearDocs 1 3 = some (clearDocsLoop 2 1 filledColumn) ∧
    OnlyQueues filledColumn (clearDocsLoop 2 1 filledColumn) ∧
    (clearDocsLoop 2 1 filledColumn).tensorStore.hold1 = [⟨5⟩, ⟨9⟩] :=
  ⟨by decide,
   (only_queueing_operations filledColumn).2.1 1 3 (clearDocsLoop 2 1 filledColumn) (by decide),
   by decide⟩

/-- C3: for every docId < refVector.size() and every reference ref, setTensorRef(docId, ref)
succeeds and afterwards the entry at docId equals ref; a valid previous entry is handed to
holdTensor exactly once (appended to the hold queue, not released), and for an invalid
previous entry nothing is put on hold. -/
theorem setTensorRef_installs_and_holds (s : TensorAttribute) (docId : Nat) (ref : EntryRef)
    (h : docId < s.refVector.size) :
    ∃ t, s.setTensorRef docId ref = some t ∧
      t.refVector.data[docId]? = some ref ∧
      t.refVector.get docId = ref ∧
      t.tensorStore.released = s.tensorStore.released ∧
      t.tensorStore.hold2 = s.tensorStore.hold2 ∧
      ((s.refVector.get docId).valid = true →
        t.tensorStore.hold1 = s.tensorStore.hold1 ++ [s.refVector.get docId]) ∧
      ((s.refVector.get docId).valid = false → t.tensorStore = s.tensorStore) := by
  have hlen : docId < s.refVector.data.length := h
  obtain ⟨f1, f2, -, -, -, -⟩ := updateUncommittedDocIdLimit_frame s docId
  unfold setTensorRef
  simp only [h, if_true, f1, f2]
  cases hv : (s.refVector.get docId).valid
  · simp only [Bool.false_eq_true, if_false]
    refine ⟨_, rfl, ?_, ?_, ?_, ?_, ?_, ?_⟩
    · simp [RcuVectorBase.set, hlen]
    · simp [RcuVectorBase.set, RcuVectorBase.get, hlen]
    · rfl
    · rfl
    · intro hc; cases hc
    · intro _; rfl
  · simp only [if_true]
    refine ⟨_, rfl, ?_, ?_, ?_, ?_, ?_, ?_⟩
    · simp [RcuVectorBase.set, hlen]
    · simp [RcuVectorBase.set, RcuVectorBase.get, hlen]
    · simp [TensorStore.holdTensor, HoldLists.hold, f2]
    · simp [TensorStore.holdTensor, HoldLists.hold, f2]
    · intro _; simp [TensorStore.holdTensor, HoldLists.hold, f2]
    · intro hc; cases hc

/-- C3 (instance): overwriting the payload 5 at lid 1 of `filledColumn` installs the new
reference and queues the old one. -/
theorem setTensorRef_installs_and_holds_witness :
    ∃ t, filledColumn.setTensorRef 1 ⟨11⟩ = some t ∧
      t.refVector.data[1]? = some ⟨11⟩ ∧
      t.refVector.get 1 = ⟨11⟩ ∧
      t.tensorStore.released = filledColumn.tensorStore.released ∧
      t.tensorStore.hold2 = filledColumn.tensorStore.hold2 ∧
      ((filledColumn.refVector.get 1).valid = true →
        t.tensorStore.hold1 = filledColumn.tensorStore.hold1 ++ [filledColumn.refVector.get 1]) ∧
      ((filledColumn.refVector.get 1).valid = false →
        t.tensorStore = filledColumn.tensorStore) :=
  setTensorRef_installs_and_holds filledColumn 1 ⟨11⟩ (by decide)

/-- C4: for every docId < refVector.size(), clearDoc(docId) leaves the entry at docId
invalid and keeps the lid slot (vector size and numDocs unchanged); with a valid old entry
it returns 1 and puts the old reference on hold, with an invalid old entry it returns 0
and holds nothing. -/
theorem clearDoc_clears_and_holds (s : TensorAttribute) (docId : Nat)
    (h : docId < s.refVector.size) :
    (s.clearDoc docId).2.refVector.data[docId]? = some EntryRef.invalid ∧
    (s.clearDoc docId).2.refVector.size = s.refVector.size ∧
    (s.clearDoc docId).2.numDocs = s.numDocs ∧
    ((s.refVector.get docId).valid = true →
      (s.clearDoc docId).1 = 1 ∧
      (s.clearDoc docId).2.tensorStore.hold1 = s.tensorStore.hold1 ++ [s.refVector.get docId] ∧
      (s.clearDoc docId).2.tensorStore.hold2 = s.tensorStore.hold2 ∧
      (s.clearDoc docId).2.tensorStore.released = s.tensorStore.released) ∧
    ((s.refVector.get docId).valid = false →
      (s.clearDoc docId).1 = 0 ∧ (s.clearDoc docId).2.tensorStore = s.tensorStore) := by
  have hlen : docId < s.refVector.data.length := h
  obtain ⟨f1, f2, -, -, f5, -⟩ := updateUncommittedDocIdLimit_frame s docId
  unfold clearDoc
  cases hv : (s.refVector.get docId).valid
  · simp only [hv, Bool.false_eq_true, if_false, f1, f2, f5]
    refine ⟨?_, ?_, ?_, ?_, ?_⟩ <;> simp [RcuVectorBase.set, RcuVectorBase.size, hlen]
  · simp only [hv, if_true, f1, f2, f5]
    refine ⟨?_, ?_, ?_, ?_, ?_⟩ <;>
      simp [RcuVectorBase.set, RcuVectorBase.size, hlen, TensorStore.holdTensor, HoldLists.hold]

/-- C4 (instance): clearing lid 1 of `filledColumn`, which holds payload 5. -/
theorem clearDoc_clears_and_holds_witness :
    (filledColumn.clearDoc 1).1 = 1 ∧
    (filledColumn.clearDoc 1).2.refVector.data = [EntryRef.invalid, EntryRef.invalid, ⟨9⟩] ∧
    (filledColumn.clearDoc 1).2.refVector.data[1]? = some EntryRef.invalid ∧
    (filledColumn.clearDoc 1).2.tensorStore.hold1 = [⟨5⟩] :=
  ⟨((clearDoc_clears_and_holds filledColumn 1 (by decide)).2.2.2.1 (by decide)).1,
   by decide,
   (clearDoc_clears_and_holds filledColumn 1 (by decide)).1,
   by decide⟩

/-- C5: addDoc always returns true, appends exactly one invalid entry to the ref vector,
increases numDocs by one and reports a docId equal to the number of documents before the
call (the new numDocs - 1); every entry that existed before the call is unchanged. -/
theorem addDoc_appends_invalid_entry (s : TensorAttribute) :
    (s.addDoc).1.1 = true ∧
    (s.addDoc).2.refVector.data = s.refVector.data ++ [EntryRef.invalid] ∧
    (s.addDoc).2.refVector.size = s.refVector.size + 1 ∧
    (s.addDoc).2.numDocs = s.numDocs + 1 ∧
    (s.addDoc).1.2 = s.numDocs ∧
    (s.addDoc).1.2 = (s.addDoc).2.numDocs - 1 ∧
    (∀ i, i < s.refVector.size →
      (s.addDoc).2.refVector.data[i]? = s.refVector.data[i]?) := by
  obtain ⟨h1, h2, h3⟩ := addDoc_refVector_numDocs s
  have hd : (s.addDoc).2.refVector.data = s.refVector.data ++ [EntryRef.invalid] := by
    rw [h1, push_back_data]
  refine ⟨by rw [h3], hd, ?_, h2, by rw [h3], ?_, ?_⟩
  · simp [RcuVectorBase.size, hd]
  · rw [h3, h2, Nat.add_sub_cancel]
  · intro i hi
    have hi2 : i < s.refVector.data.length := hi
    rw [hd, List.getElem?_append_left hi2]

/-- C5 (instance): adding a document to `exampleColumn`, which holds lid 0 only, reports
lid 1 and leaves lid 0 as it was. -/
theorem addDoc_appends_invalid_entry_witness :
    (exampleColumn.addDoc).1 = (true, 1) ∧
    (exampleColumn.addDoc).2.refVector.data = [EntryRef.invalid, EntryRef.invalid] ∧
    (exampleColumn.addDoc).2.refVector.data[0]? = exampleColumn.refVector.data[0]? :=
  ⟨by decide, by decide,
   (addDoc_appends_invalid_entry exampleColumn).2.2.2.2.2.2 0 (by decide)⟩

/-- C6: checkTensorType(tensor) throws WrongTensorTypeException exactly when the configured
tensor type is not assignable from the type of the tensor, with the message
"Field tensor type is (field type spec) but other tensor type is (tensor type spec)",
each spec in single quotes; whether it throws or not the column is left unmodified. -/
theorem checkTensorType_throws_iff (isAssignableType : ValueType → ValueType → Bool)
    (s : TensorAttribute) (tensor : Tensor) :
    ((s.checkTensorType isAssignableType tensor).1 =
        Except.error ⟨"Field tensor type is '" ++ s.config.tensorType.to_spec ++
          "' but other tensor type is '" ++ tensor.type.to_spec ++ "'"⟩ ↔
      isAssignableType s.config.tensorType tensor.type = false) ∧
    ((s.checkTensorType isAssignableType tensor).1 = Except.ok () ↔
      isAssignableType s.config.tensorType tensor.type = true) ∧
    (s.checkTensorType isAssignableType tensor).2 = s ∧
    (s.checkTensorType isAssignableType tensor).2.refVector = s.refVector ∧
    (s.checkTensorType isAssignableType tensor).2.tensorStore = s.tensorStore := by
  unfold checkTensorType
  cases hA : isAssignableType s.config.tensorType tensor.type <;>
    simp [hA, makeWrongTensorTypeMsg]

/-- C6 (instance): with assignability taken as equality of types, a tensor of type
tensor(x[2]) is rejected by `exampleColumn`, whose field type is tensor(x[2],y[3]). -/
theorem checkTensorType_throws_iff_witness :
    (exampleColumn.checkTensorType (fun a b => decide (a = b)) ⟨⟨"tensor(x[2])"⟩⟩).1 =
      Except.error
        ⟨"Field tensor type is 'tensor(x[2],y[3])' but other tensor type is 'tensor(x[2])'"⟩ :=
  (checkTensorType_throws_iff (fun a b => decide (a = b)) exampleColumn
    ⟨⟨"tensor(x[2])"⟩⟩).1.mpr (by decide)

/-- C7: a resource queued on a hold list (by clearDoc, clearDocs or setTensorRef) while the
column is at generation G is tagged with G by onGenerationChange(G + 1), and a following
removeOldGenerations(firstUsed) releases it if and only if firstUsed > G, in the tensor
store and in the generation holder alike; what is released is exactly the held entries
with a generation below firstUsed, so an entry with generation >= firstUsed stays held. -/
theorem hold_tagged_then_released_iff (s : TensorAttribute) (G firstUsed : Nat) :
    (∀ r, r ∈ s.tensorStore.hold1 →
      (G, r) ∈ (s.onGenerationChange (G + 1)).tensorStore.hold2 ∧
      ((G, r) ∈ ((s.onGenerationChange (G + 1)).removeOldGenerations firstUsed).tensorStore.hold2
        ↔ ¬ firstUsed > G) ∧
      (firstUsed > G →
        r ∈ ((s.onGenerationChange (G + 1)).removeOldGenerations firstUsed).tensorStore.released)) ∧
    (∀ a, a ∈ s.genHolder.hold1 →
      (G, a) ∈ (s.onGenerationChange (G + 1)).genHolder.hold2 ∧
      ((G, a) ∈ ((s.onGenerationChange (G + 1)).removeOldGenerations firstUsed).genHolder.hold2
        ↔ ¬ firstUsed > G) ∧
      (firstUsed > G →
        a ∈ ((s.onGenerationChange (G + 1)).removeOldGenerations firstUsed).genHolder.released)) ∧
    (s.onGenerationChange (G + 1)).tensorStore.hold2
      = s.tensorStore.hold2 ++ s.tensorStore.hold1.map (fun r => (G, r)) ∧
    (s.onGenerationChange (G + 1)).genHolder.hold2
      = s.genHolder.hold2 ++ s.genHolder.hold1.map (fun a => (G, a)) ∧
    (s.removeOldGenerations firstUsed).tensorStore.hold2
      = s.tensorStore.hold2.filter (fun e => decide (firstUsed ≤ e.1)) ∧
    (s.removeOldGenerations firstUsed).tensorStore.released
      = s.tensorStore.released ++
          (s.tensorStore.hold2.filter (fun e => decide (e.1 < firstUsed))).map Prod.snd ∧
    (s.removeOldGenerations firstUsed).genHolder.hold2
      = s.genHolder.hold2.filter (fun e => decide (firstUsed ≤ e.1)) ∧
    (s.removeOldGenerations firstUsed).genHolder.released
      = s.genHolder.released ++
          (s.genHolder.hold2.filter (fun e => decide (e.1 < firstUsed))).map Prod.snd ∧
    (∀ e, e ∈ s.tensorStore.hold2 → e.1 ≥ firstUsed →
      e ∈ (s.removeOldGenerations firstUsed).tensorStore.hold2) ∧
    (∀ e, e ∈ s.genHolder.hold2 → e.1 ≥ firstUsed →
      e ∈ (s.removeOldGenerations firstUsed).genHolder.hold2) := by
  refine ⟨?_, ?_, rfl, rfl, rfl, rfl, rfl, rfl, ?_, ?_⟩
  · intro r hr
    simp only [onGenerationChange, removeOldGenerations, HoldLists.transferHoldLists,
      HoldLists.trimHoldLists, Nat.add_sub_cancel]
    refine ⟨?_, ?_, ?_⟩
    · exact List.mem_append_right _ (List.mem_map.mpr ⟨r, hr, rfl⟩)
    · rw [List.mem_filter]
      constructor
      · intro h; have := h.2; simp only [decide_eq_true_eq] at this; omega
      · intro h
        refine ⟨List.mem_append_right _ (List.mem_map.mpr ⟨r, hr, rfl⟩), ?_⟩
        simp only [decide_eq_true_eq]; omega
    · intro h
      refine List.mem_append_right _ (List.mem_map.mpr ⟨(G, r), ?_, rfl⟩)
      rw [List.mem_filter]
      refine ⟨List.mem_append_right _ (List.mem_map.mpr ⟨r, hr, rfl⟩), ?_⟩
      simp only [decide_eq_true_eq]; omega
  · intro a ha
    simp only [onGenerationChange, removeOldGenerations, HoldLists.transferHoldLists,
      HoldLists.trimHoldLists, Nat.add_sub_cancel]
    refine ⟨?_, ?_, ?_⟩
    · exact List.mem_append_right _ (List.mem_map.mpr ⟨a, ha, rfl⟩)
    · rw [List.mem_filter]
      constructor
      · intro h; have := h.2; simp only [decide_eq_true_eq] at this; omega
      · intro h
        refine ⟨List.mem_append_right _ (List.mem_map.mpr ⟨a, ha, rfl⟩), ?_⟩
        simp only [decide_eq_true_eq]; omega
    · intro h
      refine List.mem_append_right _ (List.mem_map.mpr ⟨(G, a), ?_, rfl⟩)
      rw [List.mem_filter]
      refine ⟨List.mem_append_right _ (List.mem_map.mpr ⟨a, ha, rfl⟩), ?_⟩
      simp only [decide_eq_true_eq]; omega
  · intro e he hge
    simp only [removeOldGenerations, HoldLists.trimHoldLists, List.mem_filter,
      decide_eq_true_eq]
    exact ⟨he, hge⟩
  · intro e he hge
    simp only [removeOldGenerations, HoldLists.trimHoldLists, List.mem_filter,
      decide_eq_true_eq]
    exact ⟨he, hge⟩

/-- C7 (instance): the payload 5 cleared from lid 1 of `filledColumn` at generation 0 is
tagged with 0 by the change to generation 1; it is still held for firstUsed = 0 and
released for firstUsed = 1. -/
theorem hold_tagged_then_released_iff_witness :
    (filledColumn.clearDoc 1).2.tensorStore.hold1 = [⟨5⟩] ∧
    (0, (⟨5⟩ : EntryRef)) ∈
      (((filledColumn.clearDoc 1).2.onGenerationChange (0 + 1)).removeOldGenerations
        0).tensorStore.hold2 ∧
    (⟨5⟩ : EntryRef) ∈
      (((filledColumn.clearDoc 1).2.onGenerationChange (0 + 1)).removeOldGenerations
        1).tensorStore.released :=
  ⟨by decide,
   (((hold_tagged_then_released_iff (filledColumn.clearDoc 1).2 0 0).1 ⟨5⟩
      (by decide)).2.1).mpr (by decide),
   ((hold_tagged_then_released_iff (filledColumn.clearDoc 1).2 0 1).1 ⟨5⟩
      (by decide)).2.2 (by decide)⟩

/-- C8: every call of onCommit increments the generation counter (the generation after
the call is strictly greater than before) whether or not the compaction trigger fires,
for every implementation of the virtual compactWorst that does not itself decrease the
generation; and no operation of the column decreases the generation. -/
theorem onCommit_increments_generation (impl : TensorAttribute → TensorAttribute)
    (himpl : ∀ t : TensorAttribute, t.genHandler.generation ≤ (impl t).genHandler.generation)
    (s : TensorAttribute) :
    s.genHandler.generation < (s.onCommit impl).genHandler.generation ∧
    s.incGeneration.genHandler.generation = s.genHandler.generation + 1 ∧
    s.genHandler.generation ≤ (s.addDoc).2.genHandler.generation ∧
    (∀ docId, s.genHandler.generation ≤ (s.clearDoc docId).2.genHandler.generation) ∧
    (∀ lidLow lidLimit t, s.clearDocs lidLow lidLimit = some t →
      s.genHandler.generation ≤ t.genHandler.generation) ∧
    (∀ docId ref t, s.setTensorRef docId ref = some t →
      s.genHandler.generation ≤ t.genHandler.generation) ∧
    (∀ t, s.onShrinkLidSpace = some t →
      s.genHandler.generation ≤ t.genHandler.generation) ∧
    (∀ firstUsed,
      s.genHandler.generation ≤ (s.removeOldGenerations firstUsed).genHandler.generation) ∧
    (∀ generation,
      s.genHandler.generation ≤ (s.onGenerationChange generation).genHandler.generation) := by
  refine ⟨?_, rfl, addDoc_generation s, ?_, ?_, ?_, ?_, ?_, ?_⟩
  · rcases onCommit_generation impl s with h | h
    · rw [h]; exact Nat.lt_succ_self _
    · rw [h]
      have h1 := himpl s.incGeneration
      rw [incGeneration_generation] at h1
      exact h1
  · intro docId; rw [clearDoc_genHandler]
  · intro lo hi t h
    rw [clearDocs_eq s t lo hi h, (clearDocsLoop_frame _ _ _).1]
  · intro d r t h; rw [setTensorRef_genHandler s t d r h]
  · intro t h; rw [onShrinkLidSpace_genHandler s t h]
  · intro fu; exact Nat.le_refl _
  · intro g; exact Nat.le_refl _

/-- C8 (instance): a commit of `exampleColumn` (generation 0) with a compaction routine
that advances the generation itself ends at a later generation. -/
theorem onCommit_increments_generation_witness :
    exampleColumn.genHandler.generation
      < (exampleColumn.onCommit exampleCompactWorst).genHandler.generation ∧
    (exampleColumn.onCommit exampleCompactWorst).genHandler.generation = 1 :=
  ⟨(onCommit_increments_generation exampleCompactWorst
      (fun t => by
        show t.genHandler.generation ≤ t.genHandler.generation + 1
        exact Nat.le_succ _) exampleColumn).1,
   by decide⟩

/-- C9: onShrinkLidSpace never removes a committed entry: when refVector.size() >=
committedDocIdLimit it succeeds, sets both the ref vector size and numDocs to
committedDocIdLimit and leaves every entry with lid < committedDocIdLimit as it was. -/
theorem onShrinkLidSpace_keeps_committed (s : TensorAttribute)
    (h : s.refVector.size ≥ s.committedDocIdLimit) :
    ∃ t, s.onShrinkLidSpace = some t ∧
      t.refVector.size = s.committedDocIdLimit ∧
      t.numDocs = s.committedDocIdLimit ∧
      (∀ lid, lid < s.committedDocIdLimit →
        t.refVector.data[lid]? = s.refVector.data[lid]?) := by
  obtain ⟨t, ht, hd, hn, -, -⟩ := onShrinkLidSpace_some s h
  refine ⟨t, ht, ?_, hn, ?_⟩
  · have h2 : s.committedDocIdLimit ≤ s.refVector.data.length := h
    simp only [RcuVectorBase.size, hd, List.length_take]
    exact Nat.min_eq_left h2
  · intro lid hl
    rw [hd, List.getElem?_take_of_lt hl]

/-- C9 (instance): shrinking `filledColumn` after its committed limit dropped to 2 keeps
lids 0 and 1. -/
theorem onShrinkLidSpace_keeps_committed_witness :
    ∃ t, ({ filledColumn with committedDocIdLimit := 2 } : TensorAttribute).onShrinkLidSpace
        = some t ∧
      t.refVector.size = 2 ∧ t.numDocs = 2 ∧
      (∀ lid, lid < 2 → t.refVector.data[lid]? = filledColumn.refVector.data[lid]?) :=
  onShrinkLidSpace_keeps_committed { filledColumn with committedDocIdLimit := 2 } (by decide)

/-- C10 (counterexample): on `uncommittedTailColumn` (payload 5 at lid 1, committed limit
1) onShrinkLidSpace succeeds and drops lid 1 although its entry is valid, and the dropped
reference is on no hold list afterwards. -/
theorem onShrinkLidSpace_drops_valid_counterexample :
    uncommittedTailColumn.committedDocIdLimit ≤ 1 ∧
    uncommittedTailColumn.refVector.data[1]? = some ⟨5⟩ ∧
    (⟨5⟩ : EntryRef).valid = true ∧
    uncommittedTailColumn.onShrinkLidSpace.map (fun t => t.refVector.data)
      = some [EntryRef.invalid] ∧
    uncommittedTailColumn.onShrinkLidSpace.map (fun t => t.tensorStore)
      = some { hold1 := [], hold2 := [], released := [] } := by
  decide

/-- C10 (amended): onShrinkLidSpace itself neither checks nor clears the entries it drops;
it removes only cleared lids when the caller has cleared the tail first.  After
clearDocs(committedDocIdLimit, numDocs) every entry with lid >= committedDocIdLimit is
invalid, so the following onShrinkLidSpace drops invalid entries only, every reference
that was valid in the dropped range has been put on hold (and none released), and the
committed entries are kept. -/
theorem onShrinkLidSpace_after_clearDocs (s : TensorAttribute)
    (hc : s.committedDocIdLimit ≤ s.numDocs) (hn : s.numDocs = s.refVector.size) :
    ∃ s1 s2, s.clearDocs s.committedDocIdLimit s.numDocs = some s1 ∧
      s1.onShrinkLidSpace = some s2 ∧
      (∀ lid, s.committedDocIdLimit ≤ lid → lid < s1.refVector.size →
        s1.refVector.data[lid]? = some EntryRef.invalid) ∧
      (∀ lid, s.committedDocIdLimit ≤ lid → lid < s.refVector.size →
        (s.refVector.get lid).valid = true →
        s.refVector.get lid ∈ s2.tensorStore.hold1) ∧
      s2.tensorStore.released = s.tensorStore.released ∧
      s2.refVector.data = s.refVector.data.take s.committedDocIdLimit := by
  have hsize : s.refVector.data.length = s.numDocs := hn.symm
  have hcl : s.clearDocs s.committedDocIdLimit s.numDocs
      = some (clearDocsLoop (s.numDocs - s.committedDocIdLimit) s.committedDocIdLimit s) := by
    unfold clearDocs
    simp only [hc, getNumDocs, Nat.le_refl, if_true]
  have hcdl := (clearDocsLoop_frame (s.numDocs - s.committedDocIdLimit)
    s.committedDocIdLimit s).2.2.2.1
  have hlen := clearDocsLoop_length (s.numDocs - s.committedDocIdLimit) s.committedDocIdLimit s
  have hge : (clearDocsLoop (s.numDocs - s.committedDocIdLimit) s.committedDocIdLimit
      s).refVector.size ≥ (clearDocsLoop (s.numDocs - s.committedDocIdLimit)
      s.committedDocIdLimit s).committedDocIdLimit := by
    show _ ≤ List.length _
    rw [hcdl, hlen, hsize]; exact hc
  obtain ⟨s2, hs2, hd, -, hts, -⟩ := onShrinkLidSpace_some _ hge
  refine ⟨_, s2, hcl, hs2, ?_, ?_, ?_, ?_⟩
  · intro lid h1 h2
    have h2a : lid < s.refVector.data.length := by
      have : lid < List.length _ := h2
      rw [hlen] at this; exact this
    have hin : s.committedDocIdLimit ≤ lid ∧
        lid < s.committedDocIdLimit + (s.numDocs - s.committedDocIdLimit) := by omega
    rw [clearDocsLoop_getElem?]
    simp only [hin, and_self, if_true, List.getElem?_eq_getElem h2a, Option.map_some']
  · intro lid h1 h2 hv
    have h2a : lid < s.refVector.data.length := h2
    have hget : s.refVector.get lid = s.refVector.data[lid] := by
      simp [RcuVectorBase.get, List.getD_eq_getElem?_getD, List.getElem?_eq_getElem h2a]
    rw [hts, clearDocsLoop_hold1]
    refine List.mem_append_right _ (List.mem_filter.mpr ⟨?_, hv⟩)
    rw [List.mem_iff_getElem?]
    refine ⟨lid - s.committedDocIdLimit, ?_⟩
    have hlt : lid - s.committedDocIdLimit < s.numDocs - s.committedDocIdLimit := by omega
    rw [List.getElem?_take_of_lt hlt, List.getElem?_drop,
      Nat.add_sub_cancel' h1, List.getElem?_eq_getElem h2a, hget]
  · rw [hts]
    exact (clearDocsLoop_onlyQueues _ _ s).1
  · rw [hd, hcdl]
    apply List.ext_getElem?
    intro j
    rw [List.getElem?_take, List.getElem?_take]
    by_cases hj : j < s.committedDocIdLimit
    · have hout : ¬ (s.committedDocIdLimit ≤ j ∧
          j < s.committedDocIdLimit + (s.numDocs - s.committedDocIdLimit)) := by omega
      simp only [hj, if_true, clearDocsLoop_getElem?, hout, if_false]
    · simp only [hj, if_false]

/-- C10 (amended, instance): on `uncommittedTailColumn` the payload 5 at lid 1 is put on
hold by clearDocs(1, 2) before onShrinkLidSpace drops the lid. -/
theorem onShrinkLidSpace_after_clearDocs_witness :
    ∃ s1 s2, uncommittedTailColumn.clearDocs uncommittedTailColumn.committedDocIdLimit
        uncommittedTailColumn.numDocs = some s1 ∧
      s1.onShrinkLidSpace = some s2 ∧
      (∀ lid, uncommittedTailColumn.committedDocIdLimit ≤ lid → lid < s1.refVector.size →
        s1.refVector.data[lid]? = some EntryRef.invalid) ∧
      (∀ lid, uncommittedTailColumn.committedDocIdLimit ≤ lid →
        lid < uncommittedTailColumn.refVector.size →
        (uncommittedTailColumn.refVector.get lid).valid = true →
        uncommittedTailColumn.refVector.get lid ∈ s2.tensorStore.hold1) ∧
      s2.tensorStore.released = uncommittedTailColumn.tensorStore.released ∧
      s2.refVector.data
        = uncommittedTailColumn.refVector.data.take uncommittedTailColumn.committedDocIdLimit :=
  onShrinkLidSpace_after_clearDocs uncommittedTailColumn (by decide) (by decide)

end TensorAttribute

/-! ## Auxiliary facts on clearing ranges -/

namespace TensorAttribute

theorem clearDoc_refVector (s : TensorAttribute) (docId : Nat) :
    (s.clearDoc docId).2.refVector = s.refVector.set docId EntryRef.invalid := by
  obtain ⟨f1, -, -, -, -, -⟩ := updateUncommittedDocIdLimit_frame s docId
  unfold clearDoc
  dsimp only
  split_ifs <;> simp only [f1]

theorem clearDoc_tensorStore (s : TensorAttribute) (docId : Nat) :
    (s.clearDoc docId).2.tensorStore =
      if (s.refVector.get docId).valid then s.tensorStore.holdTensor (s.refVector.get docId)
      else s.tensorStore := by
  obtain ⟨-, f2, -, -, -, -⟩ := updateUncommittedDocIdLimit_frame s docId
  unfold clearDoc
  dsimp only
  split_ifs <;> simp only [f2]

theorem clearDoc_fst (s : TensorAttribute) (docId : Nat) :
    (s.clearDoc docId).1 = if (s.refVector.get docId).valid then 1 else 0 := by
  unfold clearDoc
  dsimp only
  split_ifs <;> rfl

theorem clearDocsStep_refVector (s : TensorAttribute) (lid : Nat) :
    (s.clearDocsStep lid).refVector = s.refVector.set lid EntryRef.invalid := by
  have hd := clearDocsStep_data s lid
  obtain ⟨-, -, -, -, h5, h6, h7⟩ := clearDocsStep_frame s lid
  cases hv : (s.clearDocsStep lid).refVector with
  | mk d c p g =>
    rw [hv] at hd h5 h6 h7
    simp only at hd h5 h6 h7
    simp only [RcuVectorBase.set, hd, h5, h6, h7]

theorem clearDocsStep_tensorStore (s : TensorAttribute) (lid : Nat) :
    (s.clearDocsStep lid).tensorStore =
      if (s.refVector.get lid).valid then s.tensorStore.holdTensor (s.refVector.get lid)
      else s.tensorStore := by
  unfold clearDocsStep
  dsimp only
  split_ifs <;> rfl

theorem clearDocSeq_refines (count lid : Nat) (s u : TensorAttribute)
    (hr : s.refVector = u.refVector) (ht : s.tensorStore = u.tensorStore) :
    (clearDocsLoop count lid s).refVector = (clearDocSeq count lid u).2.refVector ∧
    (clearDocsLoop count lid s).tensorStore = (clearDocSeq count lid u).2.tensorStore ∧
    (clearDocSeq count lid u).1 + u.tensorStore.hold1.length
      = (clearDocSeq count lid u).2.tensorStore.hold1.length := by
  induction count generalizing lid s u with
  | zero => exact ⟨hr, ht, by simp [clearDocSeq]⟩
  | succ n ih =>
    have hr1 : (s.clearDocsStep lid).refVector = (u.clearDoc lid).2.refVector := by
      rw [clearDocsStep_refVector, clearDoc_refVector, hr]
    have ht1 : (s.clearDocsStep lid).tensorStore = (u.clearDoc lid).2.tensorStore := by
      rw [clearDocsStep_tensorStore, clearDoc_tensorStore, hr, ht]
    obtain ⟨a1, a2, a3⟩ := ih (lid + 1) (s.clearDocsStep lid) (u.clearDoc lid).2 hr1 ht1
    simp only [clearDocsLoop, clearDocSeq]
    refine ⟨a1, a2, ?_⟩
    rw [← a3]
    have hstep : (u.clearDoc lid).1 + u.tensorStore.hold1.length
        = (u.clearDoc lid).2.tensorStore.hold1.length := by
      rw [clearDoc_fst, clearDoc_tensorStore]
      split_ifs <;> simp [TensorStore.holdTensor, HoldLists.hold, Nat.add_comm]
    omega

end TensorAttribute

/-! ## Claims on the two-phase set operation and on clearing ranges -/

namespace TensorAttribute

/-- C11: prepare_set_tensor is side-effect free: for every docid and tensor the base
implementation leaves the whole column state (ref vector, tensor store, generation,
numDocs and all the rest) unchanged and returns an empty (null) PrepareResult; the base
complete_set_tensor, given that or any other result, likewise leaves the column
unchanged. -/
theorem prepare_set_tensor_side_effect_free (s : TensorAttribute) (docid : Nat)
    (tensor : Tensor) :
    (s.prepare_set_tensor docid tensor).2 = s ∧
    (s.prepare_set_tensor docid tensor).2.refVector = s.refVector ∧
    (s.prepare_set_tensor docid tensor).2.tensorStore = s.tensorStore ∧
    (s.prepare_set_tensor docid tensor).2.genHandler.generation = s.genHandler.generation ∧
    (s.prepare_set_tensor docid tensor).2.numDocs = s.numDocs ∧
    (s.prepare_set_tensor docid tensor).1 = none ∧
    s.complete_set_tensor docid tensor (s.prepare_set_tensor docid tensor).1 = s ∧
    (∀ r : Option PrepareResult, s.complete_set_tensor docid tensor r = s) :=
  ⟨rfl, rfl, rfl, rfl, rfl, rfl, rfl, fun _ => rfl⟩

/-- C19: for lidLow <= lidLimit <= numDocs, clearDocs(lidLow, lidLimit) succeeds; afterwards
every entry with lidLow <= lid < lidLimit is invalid, the hold queue of the tensor store
has grown by exactly the references that were valid in that range, one per lid and in lid
order (nothing is tagged or released), and every entry outside the range, the vector size
and numDocs are unchanged. -/
theorem clearDocs_clears_range (s : TensorAttribute) (lidLow lidLimit : Nat)
    (h1 : lidLow ≤ lidLimit) (h2 : lidLimit ≤ s.numDocs) :
    ∃ t, s.clearDocs lidLow lidLimit = some t ∧
      (∀ lid, lidLow ≤ lid → lid < lidLimit → lid < s.refVector.size →
        t.refVector.data[lid]? = some EntryRef.invalid) ∧
      (∀ lid, lidLow ≤ lid → lid < lidLimit → t.refVector.get lid = EntryRef.invalid) ∧
      t.tensorStore.hold1 = s.tensorStore.hold1 ++
        ((s.refVector.data.drop lidLow).take (lidLimit - lidLow)).filter EntryRef.valid ∧
      t.tensorStore.hold2 = s.tensorStore.hold2 ∧
      t.tensorStore.released = s.tensorStore.released ∧
      (∀ lid, ¬ (lidLow ≤ lid ∧ lid < lidLimit) →
        t.refVector.data[lid]? = s.refVector.data[lid]?) ∧
      t.refVector.size = s.refVector.size ∧
      t.numDocs = s.numDocs := by
  have hcl : s.clearDocs lidLow lidLimit
      = some (clearDocsLoop (lidLimit - lidLow) lidLow s) := by
    unfold clearDocs
    simp only [h1, h2, getNumDocs, if_true]
  have hq := clearDocsLoop_onlyQueues (lidLimit - lidLow) lidLow s
  have hentry : ∀ lid, lidLow ≤ lid → lid < lidLimit →
      (clearDocsLoop (lidLimit - lidLow) lidLow s).refVector.data[lid]?
        = (s.refVector.data[lid]?).map (fun _ => EntryRef.invalid) := by
    intro lid ha hb
    have hin : lidLow ≤ lid ∧ lid < lidLow + (lidLimit - lidLow) := by omega
    rw [clearDocsLoop_getElem?]
    simp only [hin, and_self, if_true]
  refine ⟨_, hcl, ?_, ?_, clearDocsLoop_hold1 _ _ _, hq.2.1, hq.1, ?_, ?_,
    (clearDocsLoop_frame _ _ _).2.2.1⟩
  · intro lid ha hb hc
    have hc2 : lid < s.refVector.data.length := hc
    rw [hentry lid ha hb, List.getElem?_eq_getElem hc2, Option.map_some']
  · intro lid ha hb
    by_cases hc : lid < s.refVector.data.length
    · apply get_eq_of_getElem?
      rw [hentry lid ha hb, List.getElem?_eq_getElem hc, Option.map_some']
    · apply get_of_le
      rw [clearDocsLoop_length]
      exact Nat.le_of_not_lt hc
  · intro lid hout
    have hout2 : ¬ (lidLow ≤ lid ∧ lid < lidLow + (lidLimit - lidLow)) := by omega
    rw [clearDocsLoop_getElem?]
    simp only [hout2, if_false]
  · exact clearDocsLoop_length _ _ _

/-- C19 (instance): clearing lids 1 and 2 of `filledColumn` queues the payloads 5 and 9
and leaves lid 0 alone. -/
theorem clearDocs_clears_range_witness :
    ∃ t, filledColumn.clearDocs 1 3 = some t ∧
      t.refVector.data = [EntryRef.invalid, EntryRef.invalid, EntryRef.invalid] ∧
      t.tensorStore.hold1 = [⟨5⟩, ⟨9⟩] ∧
      t.numDocs = 3 := by
  obtain ⟨t, ht, -, -, -, -, -, -, -, -⟩ :=
    clearDocs_clears_range filledColumn 1 3 (by decide) (by decide)
  refine ⟨t, ht, ?_⟩
  have h2 : filledColumn.clearDocs 1 3 = some (clearDocsLoop 2 1 filledColumn) := by decide
  rw [h2, Option.some.injEq] at ht
  subst ht
  decide

/-- C20: for lidLow <= lidLimit <= numDocs, clearDocs(lidLow, lidLimit) leaves the ref vector
and the tensor store (its hold queue included) in the same state as calling clearDoc(lid)
for lid = lidLow, ..., lidLimit - 1 in increasing order, and the sum of the values those
clearDoc calls return equals the number of references clearDocs puts on hold. -/
theorem clearDocs_refines_clearDoc_sequence (s : TensorAttribute) (lidLow lidLimit : Nat)
    (h1 : lidLow ≤ lidLimit) (h2 : lidLimit ≤ s.numDocs) :
    ∃ t, s.clearDocs lidLow lidLimit = some t ∧
      t.refVector = (clearDocSeq (lidLimit - lidLow) lidLow s).2.refVector ∧
      t.tensorStore = (clearDocSeq (lidLimit - lidLow) lidLow s).2.tensorStore ∧
      (clearDocSeq (lidLimit - lidLow) lidLow s).1 + s.tensorStore.hold1.length
        = t.tensorStore.hold1.length := by
  have hcl : s.clearDocs lidLow lidLimit
      = some (clearDocsLoop (lidLimit - lidLow) lidLow s) := by
    unfold clearDocs
    simp only [h1, h2, getNumDocs, if_true]
  obtain ⟨a1, a2, a3⟩ := clearDocSeq_refines (lidLimit - lidLow) lidLow s s rfl rfl
  exact ⟨_, hcl, a1, a2, by rw [a3, a2]⟩

/-- C20 (instance): on `filledColumn` the two clearDoc calls for lids 1 and 2 return 1
each, and clearDocs(1, 3) holds two references. -/
theorem clearDocs_refines_clearDoc_sequence_witness :
    (clearDocSeq 2 1 filledColumn).1 = 2 ∧
    ∃ t, filledColumn.clearDocs 1 3 = some t ∧
      t.refVector = (clearDocSeq (3 - 1) 1 filledColumn).2.refVector ∧
      t.tensorStore = (clearDocSeq (3 - 1) 1 filledColumn).2.tensorStore ∧
      (clearDocSeq (3 - 1) 1 filledColumn).1 + filledColumn.tensorStore.hold1.length
        = t.tensorStore.hold1.length :=
  ⟨by decide, clearDocs_refines_clearDoc_sequence filledColumn 1 3 (by decide) (by decide)⟩

end TensorAttribute

/-! ## Auxiliary facts on the attribute writer -/

namespace proton

namespace Attribute

theorem getD_append_replicate (vs : List (Option Int)) (k lid : Nat) :
    (vs ++ List.replicate k none).getD lid none = vs.getD lid none := by
  simp only [List.getD_eq_getElem?_getD]
  by_cases h : lid < vs.length
  · rw [List.getElem?_append_left h]
  · have h2 : vs.length ≤ lid := Nat.le_of_not_lt h
    rw [List.getElem?_append_right h2, List.getElem?_eq_none h2, List.getElem?_replicate]
    split_ifs <;> rfl

theorem applyChange_length (vs : List (Option Int)) (change : Nat × FieldOp) :
    (applyChange vs change).length = vs.length := by
  simp [applyChange]

theorem foldl_applyChange_length (changes : List (Nat × FieldOp)) (vs : List (Option Int)) :
    (changes.foldl applyChange vs).length = vs.length := by
  induction changes generalizing vs with
  | nil => rfl
  | cons c cs ih => rw [List.foldl_cons, ih, applyChange_length]

theorem getD_applyChange (vs : List (Option Int)) (l : Nat) (op : FieldOp) (lid : Nat) :
    (applyChange vs (l, op)).getD lid none =
      if l = lid ∧ lid < vs.length then op.apply (vs.getD lid none) else vs.getD lid none := by
  simp only [applyChange, List.getD_eq_getElem?_getD, List.getElem?_set]
  by_cases h1 : l = lid
  · subst h1
    by_cases h2 : l < vs.length
    · simp [h2]
    · simp [h2, List.getElem?_eq_none (Nat.le_of_not_lt h2)]
  · simp [h1]

theorem getD_foldl_applyChange_snoc (changes : List (Nat × FieldOp)) (vs : List (Option Int))
    (lid : Nat) (op : FieldOp) (h : lid < vs.length) :
    ((changes ++ [(lid, op)]).foldl applyChange vs).getD lid none =
      op.apply ((changes.foldl applyChange vs).getD lid none) := by
  have hl : lid < (changes.foldl applyChange vs).length := by
    rw [foldl_applyChange_length]; exact h
  rw [List.foldl_append, List.foldl_cons, List.foldl_nil, getD_applyChange]
  simp only [hl, and_self, if_true]

theorem getD_foldl_clear (lids : List Nat) (vs : List (Option Int)) (lid : Nat) :
    ((lids.map (fun l => (l, FieldOp.clear))).foldl applyChange vs).getD lid none =
      if lid ∈ lids then none else vs.getD lid none := by
  induction lids generalizing vs with
  | nil => simp
  | cons l ls ih =>
    rw [List.map_cons, List.foldl_cons, ih, getD_applyChange]
    by_cases h1 : lid ∈ ls
    · simp [h1]
    · by_cases h2 : l = lid
      · subst h2
        by_cases h3 : l < vs.length
        · simp [h1, h3, FieldOp.apply]
        · have h4 : vs.getD l none = none := by
            simp [List.getD_eq_getElem?_getD, List.getElem?_eq_none (Nat.le_of_not_lt h3)]
          simp only [h1, h3, h4, and_false, if_false, List.mem_cons, or_false, if_true]
      · have h5 : ¬ lid = l := fun h => h2 h.symm
        simp [h1, h2, h5]

theorem update_spec (a : Attribute) (lid : Nat) (op : FieldOp) :
    (a.update lid op).name = a.name ∧
    (a.update lid op).componentId = a.componentId ∧
    (a.update lid op).lastSyncToken = a.lastSyncToken ∧
    (a.update lid op).changes = a.changes ++ [(lid, op)] ∧
    (a.update lid op).values
      = a.values ++ List.replicate (lid + 1 - a.values.length) none :=
  ⟨rfl, rfl, rfl, rfl, rfl⟩

theorem foldl_update_spec (changes : List (Nat × FieldOp)) (a : Attribute) :
    (changes.foldl (fun a change => a.update change.1 change.2) a).name = a.name ∧
    (changes.foldl (fun a change => a.update change.1 change.2) a).componentId
      = a.componentId ∧
    (changes.foldl (fun a change => a.update change.1 change.2) a).lastSyncToken
      = a.lastSyncToken ∧
    (changes.foldl (fun a change => a.update change.1 change.2) a).changes
      = a.changes ++ changes ∧
    (∃ k, (changes.foldl (fun a change => a.update change.1 change.2) a).values
      = a.values ++ List.replicate k none) ∧
    (∀ change ∈ changes,
      change.1 < (changes.foldl (fun a change => a.update change.1 change.2) a).values.length) := by
  induction changes generalizing a with
  | nil => exact ⟨rfl, rfl, rfl, by simp, ⟨0, by simp⟩, by simp⟩
  | cons c cs ih =>
    obtain ⟨h1, h2, h3, h4, ⟨k, h5⟩, h6⟩ := ih (a.update c.1 c.2)
    obtain ⟨u1, u2, u3, u4, u5⟩ := update_spec a c.1 c.2
    simp only [List.foldl_cons]
    refine ⟨h1.trans u1, h2.trans u2, h3.trans u3, ?_, ?_, ?_⟩
    · rw [h4, u4, List.append_assoc]; rfl
    · refine ⟨(c.1 + 1 - a.values.length) + k, ?_⟩
      rw [h5, u5, List.append_assoc, ← List.replicate_add]
    · intro change hc
      rcases List.mem_cons.mp hc with rfl | hc'
      · rw [h5, u5]
        simp only [List.length_append, List.length_replicate]
        omega
      · exact h6 change hc'

theorem foldl_update_values_of_covered (changes : List (Nat × FieldOp)) (a : Attribute)
    (h : ∀ change ∈ changes, change.1 < a.values.length) :
    (changes.foldl (fun a change => a.update change.1 change.2) a).values = a.values := by
  induction changes generalizing a with
  | nil => rfl
  | cons c cs ih =>
    have hc : c.1 < a.values.length := h c (List.mem_cons_self _ _)
    have hv : (a.update c.1 c.2).values = a.values := by
      rw [(update_spec a c.1 c.2).2.2.2.2]
      have : c.1 + 1 - a.values.length = 0 := by omega
      rw [this]; simp
    simp only [List.foldl_cons]
    rw [ih (a.update c.1 c.2) (by
      intro change hch
      rw [hv]; exact h change (List.mem_cons_of_mem _ hch)), hv]

theorem commit_spec (a : Attribute) (serial : Nat) :
    (a.commit serial).name = a.name ∧
    (a.commit serial).componentId = a.componentId ∧
    (a.commit serial).lastSyncToken = serial ∧
    (a.commit serial).changes = [] ∧
    (a.commit serial).values = a.changes.foldl applyChange a.values :=
  ⟨rfl, rfl, rfl, rfl, rfl⟩

theorem applyWrite_of_eq (serial : Nat) (immediate : Bool) (changes : List (Nat × FieldOp))
    (a : Attribute) (h : a.lastSyncToken = serial) :
    a.applyWrite serial immediate changes = a := by
  unfold applyWrite
  simp only [h, if_true]

theorem applyWrite_immediate (serial : Nat) (changes : List (Nat × FieldOp)) (a : Attribute)
    (h : a.lastSyncToken ≠ serial) :
    a.applyWrite serial true changes
      = (changes.foldl (fun a change => a.update change.1 change.2) a).commit serial := by
  unfold applyWrite
  simp only [h, if_false, if_true]

theorem applyWrite_delayed (serial : Nat) (changes : List (Nat × FieldOp)) (a : Attribute)
    (h : a.lastSyncToken ≠ serial) :
    a.applyWrite serial false changes
      = changes.foldl (fun a change => a.update change.1 change.2) a := by
  unfold applyWrite
  simp only [h, if_false, Bool.false_eq_true]

theorem applyWrite_name (serial : Nat) (immediate : Bool) (changes : List (Nat × FieldOp))
    (a : Attribute) : (a.applyWrite serial immediate changes).name = a.name := by
  by_cases h : a.lastSyncToken = serial
  · rw [applyWrite_of_eq _ _ _ _ h]
  · cases immediate
    · rw [applyWrite_delayed _ _ _ h]; exact (foldl_update_spec changes a).1
    · rw [applyWrite_immediate _ _ _ h]; exact (foldl_update_spec changes a).1

theorem applyWrite_delayed_token (serial : Nat) (changes : List (Nat × FieldOp))
    (a : Attribute) : (a.applyWrite serial false changes).lastSyncToken = a.lastSyncToken := by
  by_cases h : a.lastSyncToken = serial
  · rw [applyWrite_of_eq _ _ _ _ h]
  · rw [applyWrite_delayed _ _ _ h]; exact (foldl_update_spec changes a).2.2.1

theorem applyWrite_delayed_get (serial : Nat) (changes : List (Nat × FieldOp))
    (a : Attribute) (lid : Nat) : (a.applyWrite serial false changes).get lid = a.get lid := by
  by_cases h : a.lastSyncToken = serial
  · rw [applyWrite_of_eq _ _ _ _ h]
  · rw [applyWrite_delayed _ _ _ h]
    obtain ⟨k, hk⟩ := (foldl_update_spec changes a).2.2.2.2.1
    unfold get
    rw [hk, getD_append_replicate]

end Attribute

end proton

namespace proton

namespace AttributeWriter

theorem isStale_eq_false_iff (w : AttributeWriter) (serial : Nat) :
    w.isStale serial = false ↔ ∀ a ∈ w.attributes, a.lastSyncToken ≤ serial := by
  unfold isStale
  rw [List.any_eq_false]
  constructor
  · intro h a ha
    have := h a ha
    simp only [decide_eq_true_eq] at this
    omega
  · intro h a ha
    have := h a ha
    simp only [decide_eq_true_eq]
    omega

theorem isStale_eq_true_iff (w : AttributeWriter) (serial : Nat) :
    w.isStale serial = true ↔ ∃ a ∈ w.attributes, serial < a.lastSyncToken := by
  unfold isStale
  rw [List.any_eq_true]
  constructor
  · rintro ⟨a, ha, h⟩
    exact ⟨a, ha, by simpa using h⟩
  · rintro ⟨a, ha, h⟩
    exact ⟨a, ha, by simpa using h⟩

theorem forall2_map_of_forall {α β : Type} (R : α → β → Prop) (f : α → β) (l : List α)
    (h : ∀ a ∈ l, R a (f a)) : List.Forall₂ R l (l.map f) := by
  induction l with
  | nil => exact List.Forall₂.nil
  | cons x xs ih =>
    exact List.Forall₂.cons (h x (List.mem_cons_self _ _))
      (ih (fun a ha => h a (List.mem_cons_of_mem _ ha)))

theorem putOp_apply (doc : Document) (name : String) (x : Option Int) :
    (putOp doc name).apply x = doc.fields.lookup name := by
  unfold putOp
  cases doc.fields.lookup name <;> rfl

theorem put_of_not_stale (w : AttributeWriter) (serial : Nat) (doc : Document) (lid : Nat)
    (immediate : Bool) (h : w.isStale serial = false) :
    w.put serial doc lid immediate =
      (.ok (),
       { w with
         attributes :=
           w.attributes.map (fun a => a.applyWrite serial immediate [(lid, putOp doc a.name)]),
         executeHistory := w.executeHistory ++ w.executorIds w.attributes }) := by
  unfold put
  simp only [h, Bool.false_eq_true, if_false]

theorem forceCommit_of_not_stale (w : AttributeWriter) (serial : Nat)
    (h : w.isStale serial = false) :
    w.forceCommit serial =
      (.ok (),
       { w with
         attributes := w.attributes.map (fun a => a.commit serial),
         executeHistory := w.executeHistory ++ w.executorIds w.attributes,
         importedSearchCaches := w.importedSearchCaches.map (fun _ => []) }) := by
  unfold forceCommit
  simp only [h, Bool.false_eq_true, if_false]

theorem removeBatch_of_not_stale (w : AttributeWriter) (lids : List Nat) (serial : Nat)
    (immediate : Bool) (h : w.isStale serial = false) :
    w.removeBatch lids serial immediate =
      (.ok (),
       { w with
         attributes :=
           w.attributes.map (fun a =>
             a.applyWrite serial immediate (lids.map (fun lid => (lid, FieldOp.clear)))),
         executeHistory := w.executeHistory ++ w.executorIds w.attributes }) := by
  unfold removeBatch
  simp only [h, Bool.false_eq_true, if_false]

theorem put_attributes (w : AttributeWriter) (serial : Nat) (doc : Document) (lid : Nat)
    (immediate : Bool) :
    (w.put serial doc lid immediate).2.attributes = w.attributes ∨
    (w.put serial doc lid immediate).2.attributes =
      w.attributes.map (fun a => a.applyWrite serial immediate [(lid, putOp doc a.name)]) := by
  unfold put
  split_ifs
  · left; rfl
  · right; rfl

theorem applyWrite_put_immediate (serial : Nat) (doc : Document) (lid : Nat) (a : Attribute)
    (hnew : a.lastSyncToken < serial) :
    (a.applyWrite serial true [(lid, putOp doc a.name)]).lastSyncToken = serial ∧
    (a.applyWrite serial true [(lid, putOp doc a.name)]).getNumDocs
      = a.values.length + (lid + 1 - a.values.length) ∧
    (a.applyWrite serial true [(lid, putOp doc a.name)]).get lid = doc.fields.lookup a.name := by
  have hne : a.lastSyncToken ≠ serial := Nat.ne_of_lt hnew
  rw [Attribute.applyWrite_immediate _ _ _ hne]
  simp only [List.foldl_cons, List.foldl_nil]
  obtain ⟨-, -, -, u4, u5⟩ := Attribute.update_spec a lid (putOp doc a.name)
  obtain ⟨-, -, c3, -, c5⟩ := Attribute.commit_spec (a.update lid (putOp doc a.name)) serial
  refine ⟨c3, ?_, ?_⟩
  · unfold Attribute.getNumDocs
    rw [c5, Attribute.foldl_applyChange_length, u5]
    simp only [List.length_append, List.length_replicate]
  · unfold Attribute.get
    rw [c5, u4, Attribute.getD_foldl_applyChange_snoc, putOp_apply]
    rw [u5]
    simp only [List.length_append, List.length_replicate]
    omega

theorem applyWrite_observable_idem (serial : Nat) (immediate : Bool)
    (changes : List (Nat × FieldOp)) (a : Attribute) :
    observable ((a.applyWrite serial immediate changes).applyWrite serial immediate changes)
      = observable (a.applyWrite serial immediate changes) ∧
    (immediate = true →
      (a.applyWrite serial immediate changes).applyWrite serial immediate changes
        = a.applyWrite serial immediate changes) := by
  by_cases h : a.lastSyncToken = serial
  · rw [Attribute.applyWrite_of_eq _ _ _ _ h, Attribute.applyWrite_of_eq _ _ _ _ h]
    exact ⟨rfl, fun _ => rfl⟩
  · cases immediate
    · refine ⟨?_, fun hc => by cases hc⟩
      rw [Attribute.applyWrite_delayed _ _ _ h]
      obtain ⟨h1, -, h3, -, -, h6⟩ := Attribute.foldl_update_spec changes a
      have hne : (changes.foldl (fun a change => a.update change.1 change.2) a).lastSyncToken
          ≠ serial := by rw [h3]; exact h
      rw [Attribute.applyWrite_delayed _ _ _ hne]
      obtain ⟨g1, -, g3, -, -, -⟩ := Attribute.foldl_update_spec changes
        (changes.foldl (fun a change => a.update change.1 change.2) a)
      unfold observable
      rw [g1, g3, Attribute.foldl_update_values_of_covered changes _ h6]
    · have heq : (a.applyWrite serial true changes).lastSyncToken = serial := by
        rw [Attribute.applyWrite_immediate _ _ _ h]; rfl
      rw [Attribute.applyWrite_of_eq _ _ _ _ heq]
      exact ⟨rfl, fun _ => rfl⟩

theorem applyWrite_token_le (serial : Nat) (immediate : Bool)
    (changes : List (Nat × FieldOp)) (a : Attribute) (h : a.lastSyncToken ≤ serial) :
    (a.applyWrite serial immediate changes).lastSyncToken ≤ serial := by
  by_cases he : a.lastSyncToken = serial
  · rw [Attribute.applyWrite_of_eq _ _ _ _ he]; exact h
  · cases immediate
    · rw [Attribute.applyWrite_delayed_token]; exact h
    · rw [Attribute.applyWrite_immediate _ _ _ he]; exact Nat.le_refl _

theorem mem_executorIds (w : AttributeWriter) (touched : List Attribute) (i : Nat) :
    i ∈ w.executorIds touched ↔ ∃ a ∈ touched, a.componentId % w.numShards = i := by
  unfold executorIds
  rw [(List.perm_insertionSort _ _).mem_iff, List.mem_dedup, List.mem_map]
  rfl

theorem nodup_executorIds (w : AttributeWriter) (touched : List Attribute) :
    (w.executorIds touched).Nodup := by
  unfold executorIds
  rw [(List.perm_insertionSort _ _).nodup_iff]
  exact List.nodup_dedup _

theorem executorIds_perm (w : AttributeWriter) (l₁ l₂ : List Attribute) (h : l₁.Perm l₂) :
    w.executorIds l₁ = w.executorIds l₂ := by
  unfold executorIds
  apply List.eq_of_perm_of_sorted (r := fun i j : Nat => i ≤ j)
  · exact ((List.perm_insertionSort _ _).trans ((h.map _).dedup)).trans
      (List.perm_insertionSort _ _).symm
  · exact List.sorted_insertionSort _ _
  · exact List.sorted_insertionSort _ _

theorem executorIds_single_shard (w : AttributeWriter) (touched : List Attribute)
    (h1 : w.numShards = 1) (hne : touched ≠ []) : w.executorIds touched = [0] := by
  have hall : ∀ i ∈ w.executorIds touched, i = 0 := by
    intro i hi
    obtain ⟨a, -, ha⟩ := (mem_executorIds w touched i).mp hi
    rw [h1, Nat.mod_one] at ha
    exact ha.symm
  have hmem : 0 ∈ w.executorIds touched := by
    cases touched with
    | nil => exact absurd rfl hne
    | cons a as =>
      exact (mem_executorIds w (a :: as) 0).mpr
        ⟨a, List.mem_cons_self _ _, by rw [h1, Nat.mod_one]⟩
  have hnd := nodup_executorIds w touched
  cases hl : w.executorIds touched with
  | nil => rw [hl] at hmem; cases hmem
  | cons x xs =>
    rw [hl] at hall hnd
    have hx : x = 0 := hall x (List.mem_cons_self _ _)
    cases xs with
    | nil => rw [hx]
    | cons y ys =>
      have hy : y = 0 := hall y (List.mem_cons_of_mem _ (List.mem_cons_self _ _))
      have := (List.nodup_cons.mp hnd).1
      rw [hx, hy] at this
      exact absurd (List.mem_cons_self _ _) this

end AttributeWriter

end proton

namespace proton

namespace AttributeWriter

theorem update_of_not_stale (w : AttributeWriter) (serial : Nat) (upd : DocumentUpdate)
    (lid : Nat) (immediate : Bool) (h : w.isStale serial = false) :
    w.update serial upd lid immediate =
      (.ok (),
       { w with
         attributes :=
           w.attributes.map (fun a =>
             if (updateOps upd lid a.name).isEmpty then a
             else a.applyWrite serial immediate (updateOps upd lid a.name)),
         executeHistory := w.executeHistory ++
           w.executorIds
             (w.attributes.filter (fun a => !(updateOps upd lid a.name).isEmpty)) }) := by
  unfold update
  simp only [h, Bool.false_eq_true, if_false]

theorem remove_of_not_stale (w : AttributeWriter) (serial : Nat) (lid : Nat)
    (immediate : Bool) (h : w.isStale serial = false) :
    w.remove serial lid immediate =
      (.ok (),
       { w with
         attributes :=
           w.attributes.map (fun a => a.applyWrite serial immediate [(lid, .clear)]),
         executeHistory := w.executeHistory ++ w.executorIds w.attributes }) := by
  unfold remove
  simp only [h, Bool.false_eq_true, if_false]

theorem map_twice_observable (f : Attribute → Attribute) (l : List Attribute)
    (h : ∀ a, observable (f (f a)) = observable (f a)) :
    ((l.map f).map f).map observable = (l.map f).map observable := by
  simp only [List.map_map]
  apply List.map_congr_left
  intro a _
  exact h a

theorem map_twice_eq (f : Attribute → Attribute) (l : List Attribute)
    (h : ∀ a, f (f a) = f a) : (l.map f).map f = l.map f := by
  simp only [List.map_map]
  apply List.map_congr_left
  intro a _
  exact h a

theorem map_token_le (f : Attribute → Attribute) (l : List Attribute) (serial : Nat)
    (hl : ∀ a ∈ l, a.lastSyncToken ≤ serial)
    (hf : ∀ a, a.lastSyncToken ≤ serial → (f a).lastSyncToken ≤ serial) :
    ∀ a ∈ l.map f, a.lastSyncToken ≤ serial := by
  intro a ha
  obtain ⟨b, hb, rfl⟩ := List.mem_map.mp ha
  exact hf b (hl b hb)

theorem updateStep_idem (serial : Nat) (immediate : Bool) (upd : DocumentUpdate) (lid : Nat)
    (a : Attribute) :
    observable
        ((fun a : Attribute =>
            if (updateOps upd lid a.name).isEmpty then a
            else a.applyWrite serial immediate (updateOps upd lid a.name))
          ((fun a : Attribute =>
            if (updateOps upd lid a.name).isEmpty then a
            else a.applyWrite serial immediate (updateOps upd lid a.name)) a))
      = observable
          ((fun a : Attribute =>
            if (updateOps upd lid a.name).isEmpty then a
            else a.applyWrite serial immediate (updateOps upd lid a.name)) a) ∧
    (immediate = true →
      (fun a : Attribute =>
          if (updateOps upd lid a.name).isEmpty then a
          else a.applyWrite serial immediate (updateOps upd lid a.name))
        ((fun a : Attribute =>
          if (updateOps upd lid a.name).isEmpty then a
          else a.applyWrite serial immediate (updateOps upd lid a.name)) a)
      = (fun a : Attribute =>
          if (updateOps upd lid a.name).isEmpty then a
          else a.applyWrite serial immediate (updateOps upd lid a.name)) a) := by
  dsimp only
  by_cases he : (updateOps upd lid a.name).isEmpty = true
  · simp [he]
  · simp only [he, if_false, Attribute.applyWrite_name, Bool.false_eq_true]
    exact applyWrite_observable_idem serial immediate _ a

theorem updateStep_token_le (serial : Nat) (immediate : Bool) (upd : DocumentUpdate)
    (lid : Nat) (a : Attribute) (h : a.lastSyncToken ≤ serial) :
    ((fun a : Attribute =>
        if (updateOps upd lid a.name).isEmpty then a
        else a.applyWrite serial immediate (updateOps upd lid a.name)) a).lastSyncToken
      ≤ serial := by
  dsimp only
  split_ifs
  · exact h
  · exact applyWrite_token_le _ _ _ _ h

theorem applyWrite_clear_get (serial S : Nat) (lids : List Nat) (a : Attribute)
    (hne : a.lastSyncToken ≠ serial) (hc : a.changes = []) (lid : Nat) :
    (a.applyWrite serial true (lids.map (fun l => (l, FieldOp.clear)))).get lid
      = (if lid ∈ lids then none else a.get lid) ∧
    ((a.applyWrite serial false (lids.map (fun l => (l, FieldOp.clear)))).commit S).get lid
      = (if lid ∈ lids then none else a.get lid) := by
  rw [Attribute.applyWrite_immediate _ _ _ hne, Attribute.applyWrite_delayed _ _ _ hne]
  obtain ⟨-, -, -, h4, ⟨k, h5⟩, -⟩ :=
    Attribute.foldl_update_spec (lids.map (fun l => (l, FieldOp.clear))) a
  rw [hc, List.nil_append] at h4
  have key : ∀ T : Nat,
      (((lids.map (fun l => (l, FieldOp.clear))).foldl
        (fun a change => a.update change.1 change.2) a).commit T).get lid
        = (if lid ∈ lids then none else a.get lid) := by
    intro T
    unfold Attribute.get
    rw [(Attribute.commit_spec _ T).2.2.2.2, h4, Attribute.getD_foldl_clear, h5,
      Attribute.getD_append_replicate]
  exact ⟨key serial, key S⟩

end AttributeWriter

end proton

/-! ## Claims on the attribute writer -/

namespace proton

namespace AttributeWriter

/-- C12: a put with immediate commit and a serial beyond the last sync token of every
attribute, on a lid equal to the attributes' current numDocs, is accepted and leaves
every attribute of the writer (with any number of shards, one in particular) with
numDocs = lid + 1 and lastSyncToken = serial; the value stored at lid is the document's
value for every field present in the document and undefined for the fields absent from
it. -/
theorem put_immediate_stores_document (w : AttributeWriter) (serial : Nat) (doc : Document)
    (lid : Nat) (hnew : ∀ a ∈ w.attributes, a.lastSyncToken < serial)
    (hlid : ∀ a ∈ w.attributes, a.getNumDocs = lid) :
    (w.put serial doc lid true).1 = .ok () ∧
    (w.put serial doc lid true).2.attributes.map (fun a => a.name)
      = w.attributes.map (fun a => a.name) ∧
    (∀ a ∈ (w.put serial doc lid true).2.attributes,
      a.getNumDocs = lid + 1 ∧ a.lastSyncToken = serial ∧
      a.get lid = doc.fields.lookup a.name) := by
  have hns : w.isStale serial = false :=
    (isStale_eq_false_iff w serial).mpr (fun a ha => Nat.le_of_lt (hnew a ha))
  rw [put_of_not_stale w serial doc lid true hns]
  refine ⟨rfl, ?_, ?_⟩
  · simp only [List.map_map]
    apply List.map_congr_left
    intro a _
    exact Attribute.applyWrite_name _ _ _ a
  · intro a' ha'
    obtain ⟨a, ha, rfl⟩ := List.mem_map.mp ha'
    obtain ⟨h1, h2, h3⟩ := applyWrite_put_immediate serial doc lid a (hnew a ha)
    have hl : a.values.length = lid := hlid a ha
    refine ⟨?_, h1, ?_⟩
    · rw [h2, hl]; omega
    · rw [h3, Attribute.applyWrite_name]

/-- C12 (instance): the scenario of `putAttributes`: put(1, doc(10, 15, 20), lid 1) on
three fresh columns gives numDocs 2, lastSyncToken 1 and the values 10, 15, 20. -/
theorem put_immediate_stores_document_witness :
    ((threeColumnWriter 1).put 1 threeColumnDocument 1 true).1 = .ok () ∧
    ((threeColumnWriter 1).put 1 threeColumnDocument 1 true).2.attributes.map
        (fun a => (a.getNumDocs, a.lastSyncToken, a.get 1))
      = [(2, 1, some 10), (2, 1, some 15), (2, 1, some 20)] :=
  ⟨(put_immediate_stores_document (threeColumnWriter 1) 1 threeColumnDocument 1
      (by decide) (by decide)).1,
   by decide⟩

/-- C13: a put with immediate = false never changes the lastSyncToken of an attribute,
although with a new serial numDocs grows to cover the lid; a forceCommit(S) that is
accepted (it is whenever no attribute has a token beyond S) sets the lastSyncToken of
every attribute of the writer to exactly S. -/
theorem delayed_put_keeps_token_until_forceCommit (w : AttributeWriter) (serial : Nat)
    (doc : Document) (lid S : Nat) :
    (w.put serial doc lid false).2.attributes.map (fun a => a.lastSyncToken)
      = w.attributes.map (fun a => a.lastSyncToken) ∧
    ((∀ a ∈ w.attributes, a.lastSyncToken < serial) →
      ∀ a ∈ (w.put serial doc lid false).2.attributes, lid < a.getNumDocs) ∧
    ((w.forceCommit S).1 = .ok () →
      ∀ a ∈ (w.forceCommit S).2.attributes, a.lastSyncToken = S) ∧
    ((∀ a ∈ w.attributes, a.lastSyncToken ≤ S) → (w.forceCommit S).1 = .ok ()) := by
  refine ⟨?_, ?_, ?_, ?_⟩
  · rcases put_attributes w serial doc lid false with h | h
    · rw [h]
    · rw [h, List.map_map]
      apply List.map_congr_left
      intro a _
      exact Attribute.applyWrite_delayed_token _ _ a
  · intro hnew a' ha'
    have hns : w.isStale serial = false :=
      (isStale_eq_false_iff w serial).mpr (fun a ha => Nat.le_of_lt (hnew a ha))
    rw [put_of_not_stale w serial doc lid false hns] at ha'
    obtain ⟨a, ha, rfl⟩ := List.mem_map.mp ha'
    rw [Attribute.applyWrite_delayed _ _ _ (Nat.ne_of_lt (hnew a ha))]
    have := (Attribute.foldl_update_spec [(lid, putOp doc a.name)] a).2.2.2.2.2
      (lid, putOp doc a.name) (List.mem_cons_self _ _)
    exact this
  · intro hok a' ha'
    cases hs : w.isStale S
    · rw [forceCommit_of_not_stale w S hs] at ha'
      obtain ⟨a, -, rfl⟩ := List.mem_map.mp ha'
      rfl
    · unfold forceCommit at hok
      simp only [hs, if_true] at hok
      cases hok
  · intro hle
    rw [forceCommit_of_not_stale w S ((isStale_eq_false_iff w S).mpr hle)]

/-- C13 (instance): the scenario of `visibility_delay_is_honoured`: with token 3, the
delayed puts with serials 4 (lid 2) and 5 (lid 4) leave the token at 3 while numDocs
grows to 3 and 5, and forceCommit(6) makes the token 6. -/
theorem delayed_put_keeps_token_until_forceCommit_witness :
    (delayedWriter.put 4 (a1Document 10) 2 false).2.attributes.map
        (fun a => (a.getNumDocs, a.lastSyncToken)) = [(3, 3)] ∧
    ((delayedWriter.put 4 (a1Document 10) 2 false).2.put 5 (a1Document 10) 4 false).2.attributes.map
        (fun a => (a.getNumDocs, a.lastSyncToken)) = [(5, 3)] ∧
    (∀ a ∈ (((delayedWriter.put 4 (a1Document 10) 2 false).2.put 5 (a1Document 10) 4
        false).2.forceCommit 6).2.attributes, a.lastSyncToken = 6) :=
  ⟨by decide, by decide,
   (delayed_put_keeps_token_until_forceCommit
      ((delayedWriter.put 4 (a1Document 10) 2 false).2.put 5 (a1Document 10) 4 false).2
      0 (a1Document 10) 0 6).2.2.1 rfl⟩

end AttributeWriter

end proton

namespace proton

namespace AttributeWriter

theorem two_delayed_puts_attribute (s1 s2 S lid : Nat) (d1 d2 : Document) (a : Attribute)
    (h1 : a.lastSyncToken ≤ s1) (h12 : s1 < s2) :
    ((a.applyWrite s1 false [(lid, putOp d1 a.name)]).applyWrite s2 false
        [(lid, putOp d2 (a.applyWrite s1 false [(lid, putOp d1 a.name)]).name)]).name
      = a.name ∧
    ((a.applyWrite s1 false [(lid, putOp d1 a.name)]).applyWrite s2 false
        [(lid, putOp d2 (a.applyWrite s1 false [(lid, putOp d1 a.name)]).name)]).lastSyncToken
      = a.lastSyncToken ∧
    ((a.applyWrite s1 false [(lid, putOp d1 a.name)]).applyWrite s2 false
        [(lid, putOp d2 (a.applyWrite s1 false [(lid, putOp d1 a.name)]).name)]).get lid
      = a.get lid ∧
    (((a.applyWrite s1 false [(lid, putOp d1 a.name)]).applyWrite s2 false
        [(lid, putOp d2 (a.applyWrite s1 false [(lid, putOp d1 a.name)]).name)]).commit S).get
        lid
      = d2.fields.lookup a.name := by
  have hn1 := Attribute.applyWrite_name s1 false [(lid, putOp d1 a.name)] a
  have ht1 := Attribute.applyWrite_delayed_token s1 [(lid, putOp d1 a.name)] a
  have hg1 := Attribute.applyWrite_delayed_get s1 [(lid, putOp d1 a.name)] a lid
  rw [hn1]
  generalize a.applyWrite s1 false [(lid, putOp d1 a.name)] = b at hn1 ht1 hg1
  have hne : b.lastSyncToken ≠ s2 := by rw [ht1]; omega
  refine ⟨?_, ?_, ?_, ?_⟩
  · rw [Attribute.applyWrite_name, hn1]
  · rw [Attribute.applyWrite_delayed_token, ht1]
  · rw [Attribute.applyWrite_delayed_get, hg1]
  · rw [Attribute.applyWrite_delayed _ _ _ hne]
    simp only [List.foldl_cons, List.foldl_nil]
    obtain ⟨-, -, -, u4, u5⟩ := Attribute.update_spec b lid (putOp d2 a.name)
    unfold Attribute.get
    rw [(Attribute.commit_spec _ S).2.2.2.2, u4, Attribute.getD_foldl_applyChange_snoc,
      putOp_apply]
    rw [u5]
    simp only [List.length_append, List.length_replicate]
    omega

/-- C14: for delayed puts put(s1, d1, lid, immediate = false) then put(s2, d2, lid,
immediate = false) with s2 > s1, both accepted, a read of that lid before any forceCommit
returns what it returned before the two puts (the value as of the last committed token,
not the latest write, the token itself unchanged), and a read after an accepted
forceCommit returns the value written by the latest put. -/
theorem delayed_puts_visible_after_forceCommit (w : AttributeWriter) (s1 s2 : Nat)
    (d1 d2 : Document) (lid S : Nat) (h12 : s1 < s2)
    (h1 : ∀ a ∈ w.attributes, a.lastSyncToken ≤ s1)
    (hS : ∀ a ∈ w.attributes, a.lastSyncToken ≤ S) :
    (w.put s1 d1 lid false).1 = .ok () ∧
    ((w.put s1 d1 lid false).2.put s2 d2 lid false).1 = .ok () ∧
    (((w.put s1 d1 lid false).2.put s2 d2 lid false).2.forceCommit S).1 = .ok () ∧
    ((w.put s1 d1 lid false).2.put s2 d2 lid false).2.attributes.map
        (fun a => (a.name, a.get lid, a.lastSyncToken))
      = w.attributes.map (fun a => (a.name, a.get lid, a.lastSyncToken)) ∧
    (((w.put s1 d1 lid false).2.put s2 d2 lid false).2.forceCommit S).2.attributes.map
        (fun a => (a.name, a.get lid))
      = w.attributes.map (fun a => (a.name, d2.fields.lookup a.name)) := by
  have hns1 : w.isStale s1 = false := (isStale_eq_false_iff w s1).mpr h1
  rw [put_of_not_stale w s1 d1 lid false hns1]
  have hns2 : AttributeWriter.isStale
      { w with
        attributes :=
          w.attributes.map (fun a => a.applyWrite s1 false [(lid, putOp d1 a.name)]),
        executeHistory := w.executeHistory ++ w.executorIds w.attributes } s2 = false := by
    rw [isStale_eq_false_iff]
    intro a' ha'
    obtain ⟨a, ha, rfl⟩ := List.mem_map.mp ha'
    rw [Attribute.applyWrite_delayed_token]
    have := h1 a ha
    omega
  rw [put_of_not_stale _ s2 d2 lid false hns2]
  have hnsS : AttributeWriter.isStale
      { numShards := w.numShards,
        attributes :=
          (w.attributes.map (fun a => a.applyWrite s1 false [(lid, putOp d1 a.name)])).map
            (fun a => a.applyWrite s2 false [(lid, putOp d2 a.name)]),
        executeHistory := (w.executeHistory ++ w.executorIds w.attributes) ++
          AttributeWriter.executorIds
            { w with
              attributes :=
                w.attributes.map (fun a => a.applyWrite s1 false [(lid, putOp d1 a.name)]),
              executeHistory := w.executeHistory ++ w.executorIds w.attributes }
            (w.attributes.map (fun a => a.applyWrite s1 false [(lid, putOp d1 a.name)])),
        importedSearchCaches := w.importedSearchCaches } S = false := by
    rw [isStale_eq_false_iff]
    intro a'' ha''
    obtain ⟨a', ha', rfl⟩ := List.mem_map.mp ha''
    obtain ⟨a, ha, rfl⟩ := List.mem_map.mp ha'
    rw [(two_delayed_puts_attribute s1 s2 S lid d1 d2 a (h1 a ha) h12).2.1]
    exact hS a ha
  rw [forceCommit_of_not_stale _ S hnsS]
  refine ⟨rfl, rfl, rfl, ?_, ?_⟩
  · simp only [List.map_map]
    apply List.map_congr_left
    intro a ha
    obtain ⟨e1, e2, e3, -⟩ := two_delayed_puts_attribute s1 s2 S lid d1 d2 a (h1 a ha) h12
    simp only [Function.comp_apply, e1, e2, e3]
  · simp only [List.map_map]
    apply List.map_congr_left
    intro a ha
    obtain ⟨e1, -, -, e4⟩ := two_delayed_puts_attribute s1 s2 S lid d1 d2 a (h1 a ha) h12
    simp only [Function.comp_apply, e4]
    exact congrArg (fun n => (n, d2.fields.lookup a.name)) e1

/-- C14 (instance): the scenario of `visibility_delay_is_honoured`: after the delayed puts
of 11, 20 and 30 to lid 2 the column still reads 10 there, and after forceCommit(12) it
reads 30. -/
theorem delayed_puts_visible_after_forceCommit_witness :
    (((committedDelayedWriter.put 9 (a1Document 11) 2 false).2.put 10 (a1Document 20) 2
        false).2.put 11 (a1Document 30) 2 false).2.attributes.map
          (fun a => (a.name, a.get 2, a.lastSyncToken))
      = [("a1", some 10, 8)] ∧
    ((((committedDelayedWriter.put 9 (a1Document 11) 2 false).2.put 10 (a1Document 20) 2
        false).2.put 11 (a1Document 30) 2 false).2.forceCommit 12).2.attributes.map
          (fun a => (a.name, a.get 2))
      = [("a1", some 30)] :=
  ⟨((delayed_puts_visible_after_forceCommit
        (committedDelayedWriter.put 9 (a1Document 11) 2 false).2 10 11 (a1Document 20)
        (a1Document 30) 2 12 (by decide) (by decide) (by decide)).2.2.2.1).trans (by decide),
   ((delayed_puts_visible_after_forceCommit
        (committedDelayedWriter.put 9 (a1Document 11) 2 false).2 10 11 (a1Document 20)
        (a1Document 30) 2 12 (by decide) (by decide) (by decide)).2.2.2.2).trans (by decide)⟩

/-- C15: a put, update, remove or batch remove whose serial number is strictly less than
the last committed serial of some attribute raises the StaleOperation condition and
leaves the writer, and with it the values, numDocs and lastSyncToken of every attribute,
exactly as it was. -/
theorem stale_serial_is_rejected (w : AttributeWriter) (serial : Nat)
    (hstale : ∃ a ∈ w.attributes, serial < a.lastSyncToken) :
    (∀ doc lid immediate,
      w.put serial doc lid immediate = (.error .staleOperation, w)) ∧
    (∀ upd lid immediate,
      w.update serial upd lid immediate = (.error .staleOperation, w)) ∧
    (∀ lid immediate,
      w.remove serial lid immediate = (.error .staleOperation, w)) ∧
    (∀ lids immediate,
      w.removeBatch lids serial immediate = (.error .staleOperation, w)) := by
  have hs : w.isStale serial = true := (isStale_eq_true_iff w serial).mpr hstale
  refine ⟨?_, ?_, ?_, ?_⟩
  · intro doc lid immediate
    unfold put; simp only [hs, if_true]
  · intro upd lid immediate
    unfold update; simp only [hs, if_true]
  · intro lid immediate
    unfold remove; simp only [hs, if_true]
  · intro lids immediate
    unfold removeBatch; simp only [hs, if_true]

/-- C15 (instance): the scenario of `handles_remove` and `handles_update`: after
remove(2, 0) the operations remove(1, 0) and update(1, upd, 1) are rejected and change
nothing. -/
theorem stale_serial_is_rejected_witness :
    (filledWriter.remove 2 0 true).2.remove 1 0 true
      = (.error .staleOperation, (filledWriter.remove 2 0 true).2) ∧
    (filledWriter.remove 2 0 true).2.update 1 arithmeticUpdate 1 true
      = (.error .staleOperation, (filledWriter.remove 2 0 true).2) :=
  ⟨(stale_serial_is_rejected (filledWriter.remove 2 0 true).2 1 (by decide)).2.2.1 0 true,
   (stale_serial_is_rejected (filledWriter.remove 2 0 true).2 1 (by decide)).2.1
      arithmeticUpdate 1 true⟩

end AttributeWriter

end proton

namespace proton

namespace AttributeWriter

/-- C16: re-issuing a put, update, remove or batch remove with the same serial number as
one that was accepted raises no error and leaves the observable state of every attribute
(its values, hence numDocs, and its lastSyncToken) exactly as it was after the first
application; with immediate commit the attributes are not touched at all by the
replay. -/
theorem replay_with_same_serial_is_noop (w : AttributeWriter) (serial : Nat)
    (hok : ∀ a ∈ w.attributes, a.lastSyncToken ≤ serial) :
    (∀ doc lid immediate,
      ((w.put serial doc lid immediate).2.put serial doc lid immediate).1 = .ok () ∧
      ((w.put serial doc lid immediate).2.put serial doc lid immediate).2.attributes.map
          observable
        = (w.put serial doc lid immediate).2.attributes.map observable ∧
      (immediate = true →
        ((w.put serial doc lid immediate).2.put serial doc lid immediate).2.attributes
          = (w.put serial doc lid immediate).2.attributes)) ∧
    (∀ upd lid immediate,
      ((w.update serial upd lid immediate).2.update serial upd lid immediate).1 = .ok () ∧
      ((w.update serial upd lid immediate).2.update serial upd lid immediate).2.attributes.map
          observable
        = (w.update serial upd lid immediate).2.attributes.map observable ∧
      (immediate = true →
        ((w.update serial upd lid immediate).2.update serial upd lid immediate).2.attributes
          = (w.update serial upd lid immediate).2.attributes)) ∧
    (∀ lid immediate,
      ((w.remove serial lid immediate).2.remove serial lid immediate).1 = .ok () ∧
      ((w.remove serial lid immediate).2.remove serial lid immediate).2.attributes.map
          observable
        = (w.remove serial lid immediate).2.attributes.map observable ∧
      (immediate = true →
        ((w.remove serial lid immediate).2.remove serial lid immediate).2.attributes
          = (w.remove serial lid immediate).2.attributes)) ∧
    (∀ lids immediate,
      ((w.removeBatch lids serial immediate).2.removeBatch lids serial immediate).1 = .ok () ∧
      ((w.removeBatch lids serial immediate).2.removeBatch lids serial
          immediate).2.attributes.map observable
        = (w.removeBatch lids serial immediate).2.attributes.map observable ∧
      (immediate = true →
        ((w.removeBatch lids serial immediate).2.removeBatch lids serial
            immediate).2.attributes
          = (w.removeBatch lids serial immediate).2.attributes)) := by
  have hns : w.isStale serial = false := (isStale_eq_false_iff w serial).mpr hok
  refine ⟨?_, ?_, ?_, ?_⟩
  · intro doc lid immediate
    rw [put_of_not_stale w serial doc lid immediate hns]
    have hns2 : AttributeWriter.isStale
        { w with
          attributes := w.attributes.map
            (fun a => a.applyWrite serial immediate [(lid, putOp doc a.name)]),
          executeHistory := w.executeHistory ++ w.executorIds w.attributes } serial
          = false := by
      rw [isStale_eq_false_iff]
      exact map_token_le _ _ _ hok (fun a ha => applyWrite_token_le _ _ _ a ha)
    rw [put_of_not_stale _ serial doc lid immediate hns2]
    refine ⟨rfl, ?_, ?_⟩
    · apply map_twice_observable
        (fun a => a.applyWrite serial immediate [(lid, putOp doc a.name)])
      intro a
      rw [Attribute.applyWrite_name]
      exact (applyWrite_observable_idem serial immediate _ a).1
    · intro hi
      apply map_twice_eq (fun a => a.applyWrite serial immediate [(lid, putOp doc a.name)])
      intro a
      rw [Attribute.applyWrite_name]
      exact (applyWrite_observable_idem serial immediate _ a).2 hi
  · intro upd lid immediate
    rw [update_of_not_stale w serial upd lid immediate hns]
    have hns2 : AttributeWriter.isStale
        { w with
          attributes := w.attributes.map (fun a =>
            if (updateOps upd lid a.name).isEmpty then a
            else a.applyWrite serial immediate (updateOps upd lid a.name)),
          executeHistory := w.executeHistory ++
            w.executorIds
              (w.attributes.filter (fun a => !(updateOps upd lid a.name).isEmpty)) } serial
          = false := by
      rw [isStale_eq_false_iff]
      exact map_token_le _ _ _ hok (fun a ha => updateStep_token_le _ _ _ _ a ha)
    rw [update_of_not_stale _ serial upd lid immediate hns2]
    refine ⟨rfl, ?_, ?_⟩
    · exact map_twice_observable _ _
        (fun a => (updateStep_idem serial immediate upd lid a).1)
    · intro hi
      exact map_twice_eq _ _ (fun a => (updateStep_idem serial immediate upd lid a).2 hi)
  · intro lid immediate
    rw [remove_of_not_stale w serial lid immediate hns]
    have hns2 : AttributeWriter.isStale
        { w with
          attributes := w.attributes.map
            (fun a => a.applyWrite serial immediate [(lid, .clear)]),
          executeHistory := w.executeHistory ++ w.executorIds w.attributes } serial
          = false := by
      rw [isStale_eq_false_iff]
      exact map_token_le _ _ _ hok (fun a ha => applyWrite_token_le _ _ _ a ha)
    rw [remove_of_not_stale _ serial lid immediate hns2]
    refine ⟨rfl, ?_, ?_⟩
    · exact map_twice_observable _ _
        (fun a => (applyWrite_observable_idem serial immediate _ a).1)
    · intro hi
      exact map_twice_eq _ _ (fun a => (applyWrite_observable_idem serial immediate _ a).2 hi)
  · intro lids immediate
    rw [removeBatch_of_not_stale w lids serial immediate hns]
    have hns2 : AttributeWriter.isStale
        { w with
          attributes := w.attributes.map (fun a =>
            a.applyWrite serial immediate (lids.map (fun lid => (lid, FieldOp.clear)))),
          executeHistory := w.executeHistory ++ w.executorIds w.attributes } serial
          = false := by
      rw [isStale_eq_false_iff]
      exact map_token_le _ _ _ hok (fun a ha => applyWrite_token_le _ _ _ a ha)
    rw [removeBatch_of_not_stale _ lids serial immediate hns2]
    refine ⟨rfl, ?_, ?_⟩
    · exact map_twice_observable _ _
        (fun a => (applyWrite_observable_idem serial immediate _ a).1)
    · intro hi
      exact map_twice_eq _ _ (fun a => (applyWrite_observable_idem serial immediate _ a).2 hi)

/-- C16 (instance): the scenarios of `handles_remove` and `handles_update`: remove(2, 0)
twice, and update(2, upd, 1) twice with an arithmetic add: the second update does not add
again, a1 stays 15 and a2 stays 30. -/
theorem replay_with_same_serial_is_noop_witness :
    ((filledWriter.remove 2 0 true).2.remove 2 0 true).2.attributes
      = (filledWriter.remove 2 0 true).2.attributes ∧
    ((filledWriter.update 2 arithmeticUpdate 1 true).2.update 2 arithmeticUpdate 1
        true).2.attributes
      = (filledWriter.update 2 arithmeticUpdate 1 true).2.attributes ∧
    (filledWriter.update 2 arithmeticUpdate 1 true).2.attributes.map (fun a => a.get 1)
      = [some 15, some 30] :=
  ⟨((replay_with_same_serial_is_noop filledWriter 2 (by decide)).2.2.1 0 true).2.2 rfl,
   ((replay_with_same_serial_is_noop filledWriter 2 (by decide)).2.1 arithmeticUpdate 1
      true).2.2 rfl,
   by decide⟩

/-- C17: for every list of lids L, the batch remove(L, serial) with a new serial, on a
writer without uncommitted changes, leaves in every attribute each lid of L
undefined/default and the value of every lid outside L unchanged: directly when the
remove commits immediately, and after the next forceCommit when it is delayed. -/
theorem batch_remove_clears_exactly (w : AttributeWriter) (lids : List Nat) (serial S : Nat)
    (hnew : ∀ a ∈ w.attributes, a.lastSyncToken < serial)
    (hcommitted : ∀ a ∈ w.attributes, a.changes = []) (hS : serial ≤ S) :
    (w.removeBatch lids serial true).1 = .ok () ∧
    List.Forall₂
      (fun a a' => a'.name = a.name ∧
        ∀ lid, (lid ∈ lids → a'.get lid = none) ∧ (lid ∉ lids → a'.get lid = a.get lid))
      w.attributes (w.removeBatch lids serial true).2.attributes ∧
    ((w.removeBatch lids serial false).2.forceCommit S).1 = .ok () ∧
    List.Forall₂
      (fun a a' => a'.name = a.name ∧
        ∀ lid, (lid ∈ lids → a'.get lid = none) ∧ (lid ∉ lids → a'.get lid = a.get lid))
      w.attributes ((w.removeBatch lids serial false).2.forceCommit S).2.attributes := by
  have hns : w.isStale serial = false :=
    (isStale_eq_false_iff w serial).mpr (fun a ha => Nat.le_of_lt (hnew a ha))
  rw [removeBatch_of_not_stale w lids serial true hns,
    removeBatch_of_not_stale w lids serial false hns]
  have hnsS : AttributeWriter.isStale
      { w with
        attributes := w.attributes.map (fun a =>
          a.applyWrite serial false (lids.map (fun lid => (lid, FieldOp.clear)))),
        executeHistory := w.executeHistory ++ w.executorIds w.attributes } S = false := by
    rw [isStale_eq_false_iff]
    intro a' ha'
    obtain ⟨a, ha, rfl⟩ := List.mem_map.mp ha'
    rw [Attribute.applyWrite_delayed_token]
    have := hnew a ha
    omega
  rw [forceCommit_of_not_stale _ S hnsS]
  refine ⟨rfl, ?_, rfl, ?_⟩
  · apply forall2_map_of_forall
    intro a ha
    refine ⟨Attribute.applyWrite_name _ _ _ a, ?_⟩
    intro lid
    have h := (applyWrite_clear_get serial S lids a (Nat.ne_of_lt (hnew a ha))
      (hcommitted a ha) lid).1
    constructor
    · intro hin; rw [h]; simp only [hin, if_true]
    · intro hout; rw [h]; simp only [hout, if_false]
  · simp only [List.map_map]
    apply forall2_map_of_forall
    intro a ha
    refine ⟨Attribute.applyWrite_name _ _ _ a, ?_⟩
    intro lid
    have h := (applyWrite_clear_get serial S lids a (Nat.ne_of_lt (hnew a ha))
      (hcommitted a ha) lid).2
    constructor
    · intro hin
      simp only [Function.comp_apply]
      rw [h]; simp only [hin, if_true]
    · intro hout
      simp only [Function.comp_apply]
      rw [h]; simp only [hout, if_false]

/-- C17 (instance): the scenario of `handles_batch_remove`: removing the lids 1 and 3 from
columns filled with 22 and 33 leaves lid 2 at 22 / 33 and the lids 1 and 3 undefined. -/
theorem batch_remove_clears_exactly_witness :
    (batchWriter.removeBatch [1, 3] 2 true).1 = .ok () ∧
    (batchWriter.removeBatch [1, 3] 2 true).2.attributes.map
        (fun a => (a.get 1, a.get 2, a.get 3))
      = [(none, some 22, none), (none, some 33, none)] :=
  ⟨(batch_remove_clears_exactly batchWriter [1, 3] 2 2 (by decide) (by decide)
      (by decide)).1,
   by decide⟩

/-- C18: with N shards an accepted write executes work on exactly the shard indices the
columns it touches are pinned to (all columns for a put, the named columns for an
update), each such shard once and in shard order, independently of the order in which
the columns are submitted; with N = 1 all work runs on shard 0. -/
theorem write_executes_on_pinned_shards (w : AttributeWriter) (serial : Nat)
    (hok : ∀ a ∈ w.attributes, a.lastSyncToken ≤ serial) :
    (∀ doc lid immediate,
      (w.put serial doc lid immediate).2.executeHistory
        = w.executeHistory ++ w.executorIds w.attributes) ∧
    (∀ upd lid immediate,
      (w.update serial upd lid immediate).2.executeHistory
        = w.executeHistory ++
            w.executorIds
              (w.attributes.filter (fun a => !(updateOps upd lid a.name).isEmpty))) ∧
    (∀ touched i,
      i ∈ w.executorIds touched ↔ ∃ a ∈ touched, a.componentId % w.numShards = i) ∧
    (∀ touched, (w.executorIds touched).Nodup ∧
      (w.executorIds touched).Sorted (fun i j => i ≤ j)) ∧
    (∀ touched submitted, submitted.Perm touched →
      w.executorIds submitted = w.executorIds touched) ∧
    (w.numShards = 1 → ∀ touched, touched ≠ [] → w.executorIds touched = [0]) := by
  have hns : w.isStale serial = false := (isStale_eq_false_iff w serial).mpr hok
  refine ⟨?_, ?_, mem_executorIds w, ?_, ?_, ?_⟩
  · intro doc lid immediate
    rw [put_of_not_stale w serial doc lid immediate hns]
  · intro upd lid immediate
    rw [update_of_not_stale w serial upd lid immediate hns]
  · intro touched
    exact ⟨nodup_executorIds w touched, List.sorted_insertionSort _ _⟩
  · intro touched submitted hp
    exact executorIds_perm w submitted touched hp
  · intro h1 touched hne
    exact executorIds_single_shard w touched h1 hne

/-- C18 (instance): the scenario of `putAttributes`: a put touching a1, a2 and a3 yields
the execute history [0] with 1 shard, [0, 1] with 2 shards and [0, 1, 2] with 8
shards. -/
theorem write_executes_on_pinned_shards_witness :
    ((threeColumnWriter 1).put 1 threeColumnDocument 1 true).2.executeHistory = [0] ∧
    ((threeColumnWriter 2).put 1 threeColumnDocument 1 true).2.executeHistory = [0, 1] ∧
    ((threeColumnWriter 8).put 1 threeColumnDocument 1 true).2.executeHistory = [0, 1, 2] :=
  ⟨((write_executes_on_pinned_shards (threeColumnWriter 1) 1 (by decide)).1
      threeColumnDocument 1 true).trans (by decide),
   ((write_executes_on_pinned_shards (threeColumnWriter 2) 1 (by decide)).1
      threeColumnDocument 1 true).trans (by decide),
   ((write_executes_on_pinned_shards (threeColumnWriter 8) 1 (by decide)).1
      threeColumnDocument 1 true).trans (by decide)⟩

end AttributeWriter

end proton

/-! ## Auxiliary facts on the size of the reference vector -/

namespace TensorAttribute

theorem clearDoc_numDocs (s : TensorAttribute) (docId : Nat) :
    (s.clearDoc docId).2.numDocs = s.numDocs := by
  obtain ⟨-, -, -, -, f5, -⟩ := updateUncommittedDocIdLimit_frame s docId
  unfold clearDoc
  dsimp only
  split_ifs <;> simp only [f5]

theorem setTensorRef_some (s : TensorAttribute) (docId : Nat) (ref : EntryRef)
    (h : docId < s.refVector.size) :
    ∃ t, s.setTensorRef docId ref = some t ∧
      t.refVector = s.refVector.set docId ref ∧ t.numDocs = s.numDocs := by
  obtain ⟨f1, -, -, -, f5, -⟩ := updateUncommittedDocIdLimit_frame s docId
  unfold setTensorRef
  simp only [h, if_true]
  split_ifs
  · exact ⟨_, rfl, by simp only [f1], by simp only [f5]⟩
  · exact ⟨_, rfl, by simp only [f1], by simp only [f5]⟩

theorem push_back_of_isFull (v : RcuVectorBase) (g : GenerationHolder) (x : EntryRef)
    (h : v.isFull = true) :
    v.push_back g x =
      ({ v with data := v.data ++ [x], capacity := v.calcNewSize v.capacity },
        HoldLists.hold g v.data) := by
  unfold RcuVectorBase.isFull at h
  have hl : v.data.length = v.capacity := by simpa using h
  unfold RcuVectorBase.push_back
  have : ¬ v.data.length < v.capacity := by omega
  simp only [this, if_false]

theorem push_back_of_room (v : RcuVectorBase) (g : GenerationHolder) (x : EntryRef)
    (h : v.data.length < v.capacity) :
    v.push_back g x = ({ v with data := v.data ++ [x] }, g) := by
  unfold RcuVectorBase.push_back
  simp only [h, if_true]

theorem incGeneration_holds (t : TensorAttribute) (a : List EntryRef)
    (ha : a ∈ t.genHolder.hold1) :
    ((t.genHandler.generation, a) ∈ t.incGeneration.genHolder.hold2 ↔
      t.incGeneration.genHandler.firstUsedGeneration ≤ t.genHandler.generation) ∧
    (t.genHandler.generation < t.incGeneration.genHandler.firstUsedGeneration →
      a ∈ t.incGeneration.genHolder.released) := by
  simp only [incGeneration, onGenerationChange, removeAllOldGenerations, removeOldGenerations,
    HoldLists.transferHoldLists, HoldLists.trimHoldLists,
    GenerationHandler.getNextGeneration, GenerationHandler.incGeneration,
    GenerationHandler.updateFirstUsedGeneration, Nat.add_sub_cancel]
  constructor
  · rw [List.mem_filter]
    constructor
    · intro h; simpa using h.2
    · intro h
      exact ⟨List.mem_append_right _ (List.mem_map.mpr ⟨a, ha, rfl⟩), by simpa using h⟩
  · intro h
    refine List.mem_append_right _ (List.mem_map.mpr ⟨(t.genHandler.generation, a), ?_, rfl⟩)
    rw [List.mem_filter]
    exact ⟨List.mem_append_right _ (List.mem_map.mpr ⟨a, ha, rfl⟩), by simpa using h⟩

end TensorAttribute

/-! ## Claims on the size of the reference vector, on growth and on the committed copy -/

/-- C21: the equality refVector.size() == numDocs is an invariant of the column: when it
holds before addDoc, clearDoc, clearDocs, setTensorRef or onShrinkLidSpace (the latter
with committedDocIdLimit <= size) the operation returns and the equality holds
afterwards; under it the assertion of setTensorRef holds for every docId < numDocs and
the assertion of getRefCopy holds whenever committedDocIdLimit <= numDocs. -/
theorem TensorAttribute.refVector_size_eq_numDocs_invariant (s : TensorAttribute)
    (h : s.refVector.size = s.numDocs) :
    (s.addDoc).2.refVector.size = (s.addDoc).2.numDocs ∧
    (∀ docId, (s.clearDoc docId).2.refVector.size = (s.clearDoc docId).2.numDocs) ∧
    (∀ lidLow lidLimit, lidLow ≤ lidLimit → lidLimit ≤ s.numDocs →
      ∃ t, s.clearDocs lidLow lidLimit = some t ∧ t.refVector.size = t.numDocs) ∧
    (∀ docId ref, docId < s.numDocs →
      ∃ t, s.setTensorRef docId ref = some t ∧ t.refVector.size = t.numDocs) ∧
    (s.committedDocIdLimit ≤ s.refVector.size →
      ∃ t, s.onShrinkLidSpace = some t ∧ t.refVector.size = t.numDocs) ∧
    (s.committedDocIdLimit ≤ s.numDocs → ∃ copy, (s.getRefCopy).1 = some copy) := by
  unfold RcuVectorBase.size at h
  refine ⟨?_, ?_, ?_, ?_, ?_, ?_⟩
  · obtain ⟨a1, a2, -⟩ := TensorAttribute.addDoc_refVector_numDocs s
    unfold RcuVectorBase.size
    rw [a1, a2, TensorAttribute.push_back_data, List.length_append, List.length_singleton, h]
  · intro docId
    unfold RcuVectorBase.size
    rw [TensorAttribute.clearDoc_refVector, TensorAttribute.clearDoc_numDocs]
    simp only [RcuVectorBase.set, List.length_set]
    exact h
  · intro lidLow lidLimit h1 h2
    refine ⟨TensorAttribute.clearDocsLoop (lidLimit - lidLow) lidLow s, ?_, ?_⟩
    · unfold TensorAttribute.clearDocs
      simp only [h1, TensorAttribute.getNumDocs, h2, if_true]
    · unfold RcuVectorBase.size
      rw [TensorAttribute.clearDocsLoop_length,
        (TensorAttribute.clearDocsLoop_frame _ _ _).2.2.1]
      exact h
  · intro docId ref hd
    obtain ⟨t, ht, hr, hn⟩ := TensorAttribute.setTensorRef_some s docId ref
      (by unfold RcuVectorBase.size; omega)
    refine ⟨t, ht, ?_⟩
    unfold RcuVectorBase.size
    rw [hr, hn]
    simp only [RcuVectorBase.set, List.length_set]
    exact h
  · intro hc
    obtain ⟨t, ht, hd, hn, -, -⟩ := TensorAttribute.onShrinkLidSpace_some s hc
    refine ⟨t, ht, ?_⟩
    unfold RcuVectorBase.size at hc ⊢
    rw [hd, hn, List.length_take]
    omega
  · intro hc
    unfold TensorAttribute.getRefCopy
    have : s.committedDocIdLimit ≤ s.refVector.size := by
      unfold RcuVectorBase.size; omega
    simp only [TensorAttribute.getCommittedDocIdLimit, this, if_true]
    exact ⟨_, rfl⟩

/-- C21 (instance): on `filledColumn`, with three references and three documents, the
vector and the document count agree after addDoc. -/
theorem TensorAttribute.refVector_size_eq_numDocs_invariant_witness :
    TensorAttribute.filledColumn.refVector.size = TensorAttribute.filledColumn.numDocs ∧
    (TensorAttribute.filledColumn.addDoc).2.refVector.size
      = (TensorAttribute.filledColumn.addDoc).2.numDocs :=
  ⟨by decide,
   (TensorAttribute.refVector_size_eq_numDocs_invariant TensorAttribute.filledColumn
      (by decide)).1⟩

/-- C22: addDoc increments the generation exactly when the reference vector was full
before the append.  When it was full, the append replaces the backing array, and the
replaced array is put on the generation hold list tagged with the generation being left:
it is still held afterwards exactly when a reader keeps the first used generation at or
below that generation, and released otherwise.  When the vector was not full the
generation is unchanged, addDoc removes all old generations instead, and (for a vector
within its capacity) no array is put on hold. -/
theorem TensorAttribute.addDoc_increments_generation_iff_full (s : TensorAttribute) :
    ((s.addDoc).2.genHandler.generation = s.genHandler.generation + 1 ↔
      s.refVector.isFull = true) ∧
    (s.refVector.isFull = true →
      (s.addDoc).2.refVector.capacity = s.refVector.calcNewSize s.refVector.capacity ∧
      (((s.genHandler.generation, s.refVector.data) ∈ (s.addDoc).2.genHolder.hold2) ↔
        (s.addDoc).2.genHandler.firstUsedGeneration ≤ s.genHandler.generation) ∧
      (s.genHandler.generation < (s.addDoc).2.genHandler.firstUsedGeneration →
        s.refVector.data ∈ (s.addDoc).2.genHolder.released)) ∧
    (s.refVector.isFull = false →
      (s.addDoc).2.genHandler.generation = s.genHandler.generation ∧
      (s.addDoc).2 =
        (({ s with
            refVector := (s.refVector.push_back s.genHolder EntryRef.invalid).1,
            genHolder := (s.refVector.push_back s.genHolder EntryRef.invalid).2
          }.incNumDocs).updateUncommittedDocIdLimit s.numDocs).removeAllOldGenerations ∧
      (s.refVector.size ≤ s.refVector.capacity →
        (s.addDoc).2.refVector.capacity = s.refVector.capacity ∧
        (s.addDoc).2.genHolder.hold1 = s.genHolder.hold1)) := by
  have hfull : s.refVector.isFull = true →
      (s.addDoc).2 =
        (({ s with
            refVector := (s.refVector.push_back s.genHolder EntryRef.invalid).1,
            genHolder := (s.refVector.push_back s.genHolder EntryRef.invalid).2
          }.incNumDocs).updateUncommittedDocIdLimit s.numDocs).incGeneration := by
    intro hf
    unfold TensorAttribute.addDoc
    simp only [hf, if_true, TensorAttribute.getNumDocs, TensorAttribute.incNumDocs,
      Nat.add_sub_cancel]
  have hroom : s.refVector.isFull = false →
      (s.addDoc).2 =
        (({ s with
            refVector := (s.refVector.push_back s.genHolder EntryRef.invalid).1,
            genHolder := (s.refVector.push_back s.genHolder EntryRef.invalid).2
          }.incNumDocs).updateUncommittedDocIdLimit s.numDocs).removeAllOldGenerations := by
    intro hf
    unfold TensorAttribute.addDoc
    simp only [hf, Bool.false_eq_true, if_false, TensorAttribute.getNumDocs,
      TensorAttribute.incNumDocs, Nat.add_sub_cancel]
  refine ⟨?_, ?_, ?_⟩
  · cases hf : s.refVector.isFull
    · rw [hroom hf, (TensorAttribute.removeAllOldGenerations_frame _).2.2,
        (TensorAttribute.updateUncommittedDocIdLimit_frame _ _).2.2.2.1]
      simp [TensorAttribute.incNumDocs]
    · rw [hfull hf, TensorAttribute.incGeneration_generation,
        (TensorAttribute.updateUncommittedDocIdLimit_frame _ _).2.2.2.1]
      simp [TensorAttribute.incNumDocs]
  · intro hf
    obtain ⟨f1, -, f3, f4, -, -⟩ := TensorAttribute.updateUncommittedDocIdLimit_frame
      ({ s with
          refVector := (s.refVector.push_back s.genHolder EntryRef.invalid).1,
          genHolder := (s.refVector.push_back s.genHolder EntryRef.invalid).2
        }.incNumDocs) s.numDocs
    have hmem : s.refVector.data ∈
        ((({ s with
            refVector := (s.refVector.push_back s.genHolder EntryRef.invalid).1,
            genHolder := (s.refVector.push_back s.genHolder EntryRef.invalid).2
          }.incNumDocs).updateUncommittedDocIdLimit s.numDocs)).genHolder.hold1 := by
      rw [f3]
      simp [TensorAttribute.incNumDocs, TensorAttribute.push_back_of_isFull _ _ _ hf,
        HoldLists.hold]
    obtain ⟨g1, g2⟩ := TensorAttribute.incGeneration_holds _ _ hmem
    rw [f4] at g1 g2
    rw [hfull hf]
    refine ⟨?_, ?_, ?_⟩
    · rw [(TensorAttribute.incGeneration_frame _).1, f1]
      simp [TensorAttribute.incNumDocs, TensorAttribute.push_back_of_isFull _ _ _ hf]
    · exact g1
    · exact g2
  · intro hf
    refine ⟨?_, hroom hf, ?_⟩
    · rw [hroom hf, (TensorAttribute.removeAllOldGenerations_frame _).2.2,
        (TensorAttribute.updateUncommittedDocIdLimit_frame _ _).2.2.2.1]
      simp [TensorAttribute.incNumDocs]
    · intro hcap
      have hlt : s.refVector.data.length < s.refVector.capacity := by
        unfold RcuVectorBase.size at hcap
        unfold RcuVectorBase.isFull at hf
        have : s.refVector.data.length ≠ s.refVector.capacity := by simpa using hf
        omega
      obtain ⟨f1, -, f3, -, -, -⟩ := TensorAttribute.updateUncommittedDocIdLimit_frame
        ({ s with
            refVector := (s.refVector.push_back s.genHolder EntryRef.invalid).1,
            genHolder := (s.refVector.push_back s.genHolder EntryRef.invalid).2
          }.incNumDocs) s.numDocs
      rw [hroom hf]
      constructor
      · rw [(TensorAttribute.removeAllOldGenerations_frame _).1, f1]
        simp [TensorAttribute.incNumDocs, TensorAttribute.push_back_of_room _ _ _ hlt]
      · simp only [TensorAttribute.removeAllOldGenerations,
          TensorAttribute.removeOldGenerations, HoldLists.trimHoldLists]
        rw [f3]
        simp [TensorAttribute.incNumDocs, TensorAttribute.push_back_of_room _ _ _ hlt]

/-- C22 (instance): `filledColumn` has room for a fourth reference, so addDoc leaves the
generation at 0; the column it yields is full, and the next addDoc advances the
generation to 1 and releases the replaced array, no reader being active. -/
theorem TensorAttribute.addDoc_increments_generation_iff_full_witness :
    TensorAttribute.filledColumn.refVector.isFull = false ∧
    (TensorAttribute.filledColumn.addDoc).2.genHandler.generation = 0 ∧
    (TensorAttribute.filledColumn.addDoc).2.refVector.isFull = true ∧
    ((TensorAttribute.filledColumn.addDoc).2.addDoc).2.genHandler.generation = 1 ∧
    (TensorAttribute.filledColumn.addDoc).2.refVector.data ∈
      ((TensorAttribute.filledColumn.addDoc).2.addDoc).2.genHolder.released :=
  ⟨by decide,
   ((TensorAttribute.addDoc_increments_generation_iff_full
      TensorAttribute.filledColumn).2.2 (by decide)).1,
   by decide,
   ((TensorAttribute.addDoc_increments_generation_iff_full
      (TensorAttribute.filledColumn.addDoc).2).1).mpr (by decide),
   ((TensorAttribute.addDoc_increments_generation_iff_full
      (TensorAttribute.filledColumn.addDoc).2).2.1 (by decide)).2.2 (by decide)⟩

/-- C23: getRefCopy returns a copy of exactly the committed prefix of the reference
vector: when its assertion holds it returns a list whose length is committedDocIdLimit
and whose element i, for every i < committedDocIdLimit, is refVector[i]; the column
itself is unchanged. -/
theorem TensorAttribute.getRefCopy_is_committed_prefix (s : TensorAttribute)
    (h : s.committedDocIdLimit ≤ s.refVector.size) :
    ∃ copy : List EntryRef, (s.getRefCopy).1 = some copy ∧
      copy.length = s.committedDocIdLimit ∧
      (∀ i, i < s.committedDocIdLimit →
        copy[i]? = s.refVector.data[i]? ∧ copy[i]? = some (s.refVector.get i)) ∧
      (s.getRefCopy).2 = s := by
  unfold TensorAttribute.getRefCopy
  simp only [TensorAttribute.getCommittedDocIdLimit, h, if_true]
  unfold RcuVectorBase.size at h
  refine ⟨s.refVector.data.take s.committedDocIdLimit, rfl, ?_, ?_, trivial⟩
  · rw [List.length_take]; omega
  · intro i hi
    have hlt : i < s.refVector.data.length := by omega
    have e1 : (List.take s.committedDocIdLimit s.refVector.data)[i]? = s.refVector.data[i]? := by
      rw [List.getElem?_take]
      simp only [hi, if_true]
    refine ⟨e1, ?_⟩
    rw [e1, List.getElem?_eq_getElem hlt]
    unfold RcuVectorBase.get
    rw [List.getD_eq_getElem _ _ hlt]

/-- C23 (instance): on `uncommittedTailColumn`, with two references of which one is
committed, the copy holds the first reference only. -/
theorem TensorAttribute.getRefCopy_is_committed_prefix_witness :
    TensorAttribute.uncommittedTailColumn.committedDocIdLimit
      ≤ TensorAttribute.uncommittedTailColumn.refVector.size ∧
    ∃ copy : List EntryRef, (TensorAttribute.uncommittedTailColumn.getRefCopy).1 = some copy ∧
      copy.length = TensorAttribute.uncommittedTailColumn.committedDocIdLimit ∧
      (∀ i, i < TensorAttribute.uncommittedTailColumn.committedDocIdLimit →
        copy[i]? = TensorAttribute.uncommittedTailColumn.refVector.data[i]? ∧
        copy[i]? = some (TensorAttribute.uncommittedTailColumn.refVector.get i)) ∧
      (TensorAttribute.uncommittedTailColumn.getRefCopy).2
        = TensorAttribute.uncommittedTailColumn :=
  ⟨by decide,
   TensorAttribute.getRefCopy_is_committed_prefix TensorAttribute.uncommittedTailColumn
     (by decide)⟩

/-! ## Auxiliary facts on the distance feature -/

namespace search.features

theorem int32_sub_abs (a b : Int) (h : (a - b).natAbs < 2 ^ 31) :
    (if a > b then int32_sub a b else int32_sub b a) = some (((a - b).natAbs : Nat) : Int) := by
  unfold int32_sub
  norm_num at h
  by_cases hab : a > b
  · have hc : -2 ^ 31 ≤ a - b ∧ a - b < 2 ^ 31 := by
      constructor <;> (norm_num; omega)
    rw [if_pos hab, if_pos hc]
    congr 1
    omega
  · have hc : -2 ^ 31 ≤ b - a ∧ b - a < 2 ^ 31 := by
      constructor <;> (norm_num; omega)
    rw [if_neg hab, if_pos hc]
    congr 1
    omega

theorem uint32_of_int32_natCast (n : Nat) (h : n < 2 ^ 32) :
    uint32_of_int32 (n : Int) = n := by
  unfold uint32_of_int32
  norm_num at h ⊢
  omega

theorem scaled_lt (dx a : Nat) (hdx : dx < 2 ^ 32) (ha : a < 2 ^ 32) :
    dx * a < 2 ^ 64 ∧ dx * a / 2 ^ 32 < 2 ^ 32 ∧ dx * a / 2 ^ 32 ≤ dx := by
  have h1 : dx * a < 2 ^ 32 * 2 ^ 32 := Nat.mul_lt_mul'' hdx ha
  have h2 : dx * a ≤ dx * 2 ^ 32 := Nat.mul_le_mul_left dx (Nat.le_of_lt ha)
  refine ⟨by norm_num at h1 ⊢; exact h1, ?_, ?_⟩
  · rw [Nat.div_lt_iff_lt_mul (by norm_num)]
    exact h1
  · exact Nat.div_le_of_le_mul (by rw [Nat.mul_comm (2 ^ 32) dx]; exact h2)

theorem square_lt (d : Nat) (k : Nat) (h : d < 2 ^ k) : d * d < 2 ^ (2 * k) := by
  have := Nat.mul_lt_mul'' h h
  rw [← pow_add] at this
  rw [two_mul]
  exact this

namespace DistanceExecutor

/-- The horizontal difference after the aspect has been applied, over the exact
integers. -/
theorem exact_dx_lt (location : Location) (docx : Int) (k : Nat) (hk : k ≤ 32)
    (ha : location.xAspect < 2 ^ 32)
    (h : (location.xPosition - docx).natAbs < 2 ^ k) :
    (if location.xAspect ≠ 0 then
        (location.xPosition - docx).natAbs * location.xAspect / 2 ^ 32
      else (location.xPosition - docx).natAbs) < 2 ^ k := by
  have h32 : (location.xPosition - docx).natAbs < 2 ^ 32 :=
    lt_of_lt_of_le h (Nat.pow_le_pow_right (by norm_num) hk)
  split_ifs
  · exact lt_of_le_of_lt (scaled_lt _ _ h32 ha).2.2 h
  · exact h

theorem exactSqDist_lt (location : Location) (docx docy : Int)
    (ha : location.xAspect < 2 ^ 32)
    (hx : (location.xPosition - docx).natAbs < 2 ^ 31)
    (hy : (location.yPosition - docy).natAbs < 2 ^ 31) :
    exactSqDist location docx docy < 2 ^ 63 := by
  have bx2 := exact_dx_lt location docx 31 (by norm_num) ha hx
  have q1 := square_lt _ 31 bx2
  have q2 := square_lt _ 31 hy
  unfold exactSqDist
  dsimp only
  norm_num at q1 q2 ⊢
  omega

theorem sqdist_eq (location : Location) (docx docy : Int)
    (ha : location.xAspect < 2 ^ 32)
    (hx : (location.xPosition - docx).natAbs < 2 ^ 31)
    (hy : (location.yPosition - docy).natAbs < 2 ^ 31) :
    sqdist location docx docy = some (exactSqDist location docx docy) := by
  have bx : (location.xPosition - docx).natAbs < 2 ^ 32 :=
    lt_of_lt_of_le hx (Nat.pow_le_pow_right (by norm_num) (by norm_num))
  have by_ : (location.yPosition - docy).natAbs < 2 ^ 32 :=
    lt_of_lt_of_le hy (Nat.pow_le_pow_right (by norm_num) (by norm_num))
  obtain ⟨s1, s2, -⟩ := scaled_lt _ _ bx ha
  have bx2 := exact_dx_lt location docx 32 (Nat.le_refl _) ha bx
  have escale : (location.xPosition - docx).natAbs * location.xAspect % 2 ^ 64 / 2 ^ 32 % 2 ^ 32
      = (location.xPosition - docx).natAbs * location.xAspect / 2 ^ 32 := by
    rw [Nat.mod_eq_of_lt s1, Nat.mod_eq_of_lt s2]
  have q1 := square_lt _ 32 bx2
  have q2 := square_lt _ 32 by_
  have hfit := exactSqDist_lt location docx docy ha hx hy
  unfold exactSqDist at hfit
  unfold sqdist exactSqDist
  simp only [int32_sub_abs _ _ hx, int32_sub_abs _ _ hy, Option.some_bind,
    uint32_of_int32_natCast _ bx, uint32_of_int32_natCast _ by_, escale]
  rw [Nat.mod_eq_of_lt q1, Nat.mod_eq_of_lt q2]
  congr 1
  apply Nat.mod_eq_of_lt
  exact lt_trans hfit (by norm_num)

theorem foldl_sqabsdistStep (location : Location) (f : Int × Int → Nat)
    (l : List (Int × Int)) (init : Nat)
    (h : ∀ p ∈ l, sqdist location p.1 p.2 = some (f p)) :
    l.foldl (sqabsdistStep location) (some init) =
      some (l.foldl (fun acc p => if f p < acc then f p else acc) init) := by
  induction l generalizing init with
  | nil => rfl
  | cons x xs ih =>
    simp only [List.foldl_cons]
    have hx : sqabsdistStep location (some init) x
        = some (if f x < init then f x else init) := by
      unfold sqabsdistStep
      rw [h x (List.mem_cons_self _ _)]
      rfl
    rw [hx]
    exact ih _ (fun p hp => h p (List.mem_cons_of_mem _ hp))

theorem foldl_min_spec {α : Type} (f : α → Nat) (l : List α) (init : Nat) :
    l.foldl (fun acc p => if f p < acc then f p else acc) init ≤ init ∧
    (∀ p ∈ l, l.foldl (fun acc p => if f p < acc then f p else acc) init ≤ f p) ∧
    (l.foldl (fun acc p => if f p < acc then f p else acc) init = init ∨
      ∃ p ∈ l, l.foldl (fun acc p => if f p < acc then f p else acc) init = f p) := by
  induction l generalizing init with
  | nil => exact ⟨Nat.le_refl _, (fun p hp => absurd hp (List.not_mem_nil p)), Or.inl rfl⟩
  | cons x xs ih =>
    simp only [List.foldl_cons]
    obtain ⟨i1, i2, i3⟩ := ih (if f x < init then f x else init)
    have hstep : (if f x < init then f x else init) ≤ init ∧
        (if f x < init then f x else init) ≤ f x := by
      split_ifs <;> omega
    refine ⟨le_trans i1 hstep.1, ?_, ?_⟩
    · intro p hp
      rcases List.mem_cons.mp hp with rfl | hp
      · exact le_trans i1 hstep.2
      · exact i2 p hp
    · rcases i3 with h | ⟨p, hp, h⟩
      · by_cases hlt : f x < init
        · right
          refine ⟨x, List.mem_cons_self _ _, ?_⟩
          rw [h]; simp only [hlt, if_true]
        · left
          rw [h]; simp only [hlt, if_false]
      · exact Or.inr ⟨p, List.mem_cons_of_mem _ hp, h⟩

end DistanceExecutor

end search.features

/-! ## Claims on the distance feature -/

/-- C24 (counterexample): with the query location at (2^31 - 1, 2^31 - 1), no aspect, and
the single document position (-2^31, -2^31), all coordinates are int32 but the difference
2^31 - 1 - (-2^31) = 2^32 - 1 is not: the `int32_t` subtraction of the loop overflows, so
the code computes no defined squared distance.  The exact squared distance of the claim is
2^65 - 2^34 + 2, which exceeds the largest `uint64_t`: no value of the 64-bit variable
`sqabsdist` equals it. -/
theorem search.features.DistanceExecutor.calculate2DZDistance_difference_overflows_counterexample :
    search.features.DistanceExecutor.InRange search.features.cornerLocation
      [(-2147483648, -2147483648)] ∧
    search.features.int32_sub search.features.cornerLocation.xPosition (-2147483648) = none ∧
    search.features.DistanceExecutor.sqdist search.features.cornerLocation
      (-2147483648) (-2147483648) = none ∧
    search.features.DistanceExecutor.sqabsdist search.features.cornerLocation
      [(-2147483648, -2147483648)] = none ∧
    search.features.DistanceExecutor.exactSqDist search.features.cornerLocation
      (-2147483648) (-2147483648) = 36893488130239234050 ∧
    search.features.UINT64_MAX <
      search.features.DistanceExecutor.exactSqDist search.features.cornerLocation
        (-2147483648) (-2147483648) ∧
    ¬ ∃ m, search.features.DistanceExecutor.sqabsdist search.features.cornerLocation
        [(-2147483648, -2147483648)] = some m ∧
      m = search.features.DistanceExecutor.exactSqDist search.features.cornerLocation
        (-2147483648) (-2147483648) := by
  have hnone : search.features.DistanceExecutor.sqabsdist search.features.cornerLocation
      [(-2147483648, -2147483648)] = none := by decide
  refine ⟨?_, by decide, by decide, hnone, by decide, by decide, ?_⟩
  · unfold search.features.DistanceExecutor.InRange
    decide
  · rintro ⟨m, hm, -⟩
    rw [hnone] at hm
    cases hm

/-- C24 (amended): for every query location and every list of decoded document positions
with all coordinates int32, the aspect uint32 and every coordinate difference between the
location and a position an int32 value (below 2^31 in absolute value), no subtraction
overflows and nothing wraps: the squared distance computed for each position is the exact
integer dx^2 + dy^2, below 2^63, where dy = |locY - docY| and dx = |locX - docX|, replaced
by floor(dx * xAspect / 2^32) when xAspect != 0.  calculate2DZDistance returns the square
root of the minimum of these exact values over the positions, and of 2^64 - 1 for a
document with no positions. -/
theorem search.features.DistanceExecutor.calculate2DZDistance_exact_minimum
    (decode : Int → Int × Int) (location : search.features.Location)
    (pos : search.features.IAttributeVector) (docId : Nat)
    (hr : search.features.DistanceExecutor.InRange location ((pos.values docId).map decode))
    (hd : search.features.DistanceExecutor.DifferencesFit location
      ((pos.values docId).map decode)) :
    (∀ p ∈ (pos.values docId).map decode,
      search.features.DistanceExecutor.sqdist location p.1 p.2 =
        some (search.features.DistanceExecutor.exactSqDist location p.1 p.2) ∧
      search.features.DistanceExecutor.exactSqDist location p.1 p.2 < 2 ^ 63) ∧
    ∃ m : Nat,
      search.features.DistanceExecutor.sqabsdist location ((pos.values docId).map decode)
        = some m ∧
      search.features.DistanceExecutor.calculate2DZDistance decode location pos docId
        = some (search.features.FeatureValue.sqrt_of m) ∧
      ((pos.values docId).map decode = [] → m = 2 ^ 64 - 1) ∧
      ((pos.values docId).map decode ≠ [] →
        (∃ p ∈ (pos.values docId).map decode,
          m = search.features.DistanceExecutor.exactSqDist location p.1 p.2) ∧
        (∀ p ∈ (pos.values docId).map decode,
          m ≤ search.features.DistanceExecutor.exactSqDist location p.1 p.2)) := by
  obtain ⟨-, -, -, -, ha, -⟩ := hr
  have hsq : ∀ p ∈ (pos.values docId).map decode,
      search.features.DistanceExecutor.sqdist location p.1 p.2 =
        some (search.features.DistanceExecutor.exactSqDist location p.1 p.2) :=
    fun p hmem =>
      search.features.DistanceExecutor.sqdist_eq location p.1 p.2 ha (hd p hmem).1
        (hd p hmem).2
  have hlt : ∀ p ∈ (pos.values docId).map decode,
      search.features.DistanceExecutor.exactSqDist location p.1 p.2 < 2 ^ 63 :=
    fun p hmem =>
      search.features.DistanceExecutor.exactSqDist_lt location p.1 p.2 ha (hd p hmem).1
        (hd p hmem).2
  have hfold := search.features.DistanceExecutor.foldl_sqabsdistStep location
    (fun p : Int × Int => search.features.DistanceExecutor.exactSqDist location p.1 p.2)
    ((pos.values docId).map decode) search.features.UINT64_MAX hsq
  obtain ⟨-, m2, m3⟩ := search.features.DistanceExecutor.foldl_min_spec
    (fun p : Int × Int => search.features.DistanceExecutor.exactSqDist location p.1 p.2)
    ((pos.values docId).map decode) search.features.UINT64_MAX
  refine ⟨fun p hmem => ⟨hsq p hmem, hlt p hmem⟩, _, hfold, ?_, ?_, ?_⟩
  · unfold search.features.DistanceExecutor.calculate2DZDistance
    unfold search.features.DistanceExecutor.sqabsdist
    rw [hfold]
    rfl
  · intro hnil
    rw [hnil]
    rfl
  · intro hne
    constructor
    · rcases m3 with h | ⟨p, hmem, h⟩
      · obtain ⟨p, hmem⟩ := List.exists_mem_of_ne_nil _ hne
        have h1 := m2 p hmem
        have h2 := hlt p hmem
        rw [h] at h1
        simp only [search.features.UINT64_MAX] at h1
        norm_num at h1 h2
        omega
      · exact ⟨p, hmem, h⟩
    · exact m2

/-- C24 (instance): from Trondheim, document 1 of `positionAttribute` has one position 3
and 4 microdegrees away and one in Oslo; the squared distance is 25, the exact squared
distance of the nearer position. -/
theorem search.features.DistanceExecutor.calculate2DZDistance_exact_minimum_witness :
    search.features.DistanceExecutor.InRange search.features.trondheim
      ((search.features.positionAttribute.values 1).map search.features.pairDecode) ∧
    search.features.DistanceExecutor.DifferencesFit search.features.trondheim
      ((search.features.positionAttribute.values 1).map search.features.pairDecode) ∧
    search.features.DistanceExecutor.calculate2DZDistance search.features.pairDecode
      search.features.trondheim search.features.positionAttribute 1
      = some (search.features.FeatureValue.sqrt_of 25) ∧
    ∀ p ∈ (search.features.positionAttribute.values 1).map search.features.pairDecode,
      search.features.DistanceExecutor.sqdist search.features.trondheim p.1 p.2 =
        some (search.features.DistanceExecutor.exactSqDist search.features.trondheim
          p.1 p.2) ∧
      search.features.DistanceExecutor.exactSqDist search.features.trondheim p.1 p.2
        < 2 ^ 63 :=
  ⟨by unfold search.features.DistanceExecutor.InRange; decide,
   by unfold search.features.DistanceExecutor.DifferencesFit; decide,
   by decide,
   (search.features.DistanceExecutor.calculate2DZDistance_exact_minimum
      search.features.pairDecode search.features.trondheim search.features.positionAttribute 1
      (by unfold search.features.DistanceExecutor.InRange; decide)
      (by unfold search.features.DistanceExecutor.DifferencesFit; decide)).1⟩

namespace search.features.DistanceBlueprint

theorem setupZCurve_fst (getZCurveFieldName : String → String) (b : DistanceBlueprint)
    (env : IIndexEnvironment) (arg : String) (allow_bad_field : Bool) :
    (setupZCurve getZCurveFieldName b env arg allow_bad_field).1 = false ↔
      existsWithAttribute (env.getFieldByName (getZCurveFieldName arg)) = false ∧
      allow_bad_field = false := by
  unfold setupZCurve
  split_ifs with h1 h2
  · simp [setup_geopos, h1]
  · simp [setup_geopos, h2]
  · simp [h1, h2]

theorem setupField_fst (getZCurveFieldName : String → String) (b : DistanceBlueprint)
    (env : IIndexEnvironment) (arg : String) (allow_bad_field : Bool) :
    (setupField getZCurveFieldName b env arg allow_bad_field).1 = false ↔
      existsWithAttribute (env.getFieldByName arg) = false ∧
      existsWithAttribute (env.getFieldByName (getZCurveFieldName arg)) = false ∧
      allow_bad_field = false := by
  unfold setupField
  cases h : env.getFieldByName arg with
  | none =>
    simp only [existsWithAttribute, true_and]
    exact setupZCurve_fst getZCurveFieldName b env arg allow_bad_field
  | some fi =>
    simp only [existsWithAttribute]
    by_cases hattr : fi.hasAttribute = true
    · simp only [hattr, if_true]
      split_ifs <;> simp [setup_geopos, setup_nns]
    · have hf : fi.hasAttribute = false := by simpa using hattr
      simp only [hf, Bool.false_eq_true, if_false, true_and]
      exact setupZCurve_fst getZCurveFieldName b env arg allow_bad_field

end search.features.DistanceBlueprint

/-- C25: calculateDistance returns the default distance 6400000000.0 for every docId
whenever the query location is invalid or no position attribute is bound, and the 2D
z-curve distance otherwise.  The executor createExecutor builds in geo mode carries the
query location, and a position attribute is bound only when the blueprint is set up for
geo positions, the location is valid and the attribute exists, is an integer attribute
and is not a weighted set; in every other case none is bound. -/
theorem search.features.DistanceExecutor.calculateDistance_default_or_2dz
    (decode : Int → Int × Int) (b : search.features.DistanceBlueprint)
    (env : search.features.IQueryEnvironment) (docId : Nat) :
    search.features.DistanceExecutor.DEFAULT_DISTANCE
      = search.features.FeatureValue.literal 6400000000 ∧
    (∀ e : search.features.DistanceExecutor, e.location.isValid = false ∨ e.pos = none →
      search.features.DistanceExecutor.calculateDistance decode e docId
        = some search.features.DistanceExecutor.DEFAULT_DISTANCE) ∧
    (∀ (e : search.features.DistanceExecutor) (pos : search.features.IAttributeVector),
      e.location.isValid = true → e.pos = some pos →
      search.features.DistanceExecutor.calculateDistance decode e docId
        = search.features.DistanceExecutor.calculate2DZDistance decode e.location pos docId) ∧
    (b.use_nns_tensor = false → b.use_item_label = false →
      b.createExecutor env = search.features.Executor.distance
        { location := env.getLocation, pos := b.boundPosition env }) ∧
    (b.boundPosition env = none ↔
      (b.use_geo_pos = false ∨ env.getLocation.isValid = false ∨
        env.getAttribute b.arg_string = none ∨
        ∃ pos, env.getAttribute b.arg_string = some pos ∧
          (pos.isIntegerType = false ∨
            pos.collectionType = search.features.CollectionType.WSET))) ∧
    (∀ pos, b.boundPosition env = some pos →
      b.use_geo_pos = true ∧ env.getLocation.isValid = true ∧
      env.getAttribute b.arg_string = some pos ∧ pos.isIntegerType = true ∧
      pos.collectionType ≠ search.features.CollectionType.WSET) := by
  refine ⟨rfl, ?_, ?_, ?_, ?_, ?_⟩
  · intro e h
    unfold search.features.DistanceExecutor.calculateDistance
    rcases h with h | h
    · cases hp : e.pos <;> simp [h]
    · simp [h]
  · intro e pos hv hp
    unfold search.features.DistanceExecutor.calculateDistance
    simp [hv, hp]
  · intro h1 h2
    unfold search.features.DistanceBlueprint.createExecutor
    simp [h1, h2]
  · unfold search.features.DistanceBlueprint.boundPosition
    by_cases hg : b.use_geo_pos = true ∧ env.getLocation.isValid = true
    · simp only [hg, and_self, if_true]
      cases ha : env.getAttribute b.arg_string with
      | none => simp
      | some pos =>
        by_cases hi : pos.isIntegerType = true
        · by_cases hw : pos.collectionType = search.features.CollectionType.WSET
          · simp [hi, hw]
          · simp [hi, hw]
        · have hi2 : pos.isIntegerType = false := by simpa using hi
          simp [hi2]
    · simp only [hg, if_false, true_iff]
      by_cases h1 : b.use_geo_pos = true
      · right; left
        have : ¬ env.getLocation.isValid = true := fun h => hg ⟨h1, h⟩
        simpa using this
      · left; simpa using h1
  · intro pos hb
    unfold search.features.DistanceBlueprint.boundPosition at hb
    by_cases hg : b.use_geo_pos = true ∧ env.getLocation.isValid = true
    · simp only [hg, and_self, if_true] at hb
      cases ha : env.getAttribute b.arg_string with
      | none => rw [ha] at hb; cases hb
      | some p =>
        rw [ha] at hb
        simp only at hb
        by_cases hi : p.isIntegerType = true
        · by_cases hw : p.collectionType = search.features.CollectionType.WSET
          · simp [hi, hw] at hb
          · simp only [hi, Bool.not_true, Bool.false_eq_true, if_false, hw,
              Option.some.injEq] at hb
            subst hb
            exact ⟨hg.1, hg.2, rfl, hi, hw⟩
        · have hi2 : p.isIntegerType = false := by simpa using hi
          simp [hi2] at hb
    · simp only [hg, if_false] at hb
      cases hb

/-- C25 (instance): an executor without a bound position attribute returns the default
distance for document 1, and the executor of `posBlueprint` in `exampleQueryEnvironment`
has the attribute `pos_zcurve` bound. -/
theorem search.features.DistanceExecutor.calculateDistance_default_or_2dz_witness :
    search.features.DistanceExecutor.calculateDistance search.features.pairDecode
      { location := search.features.trondheim, pos := none } 1
      = some search.features.DistanceExecutor.DEFAULT_DISTANCE ∧
    search.features.posBlueprint.createExecutor search.features.exampleQueryEnvironment
      = search.features.Executor.distance
        { location := search.features.exampleQueryEnvironment.getLocation,
          pos := search.features.posBlueprint.boundPosition
            search.features.exampleQueryEnvironment } :=
  ⟨(search.features.DistanceExecutor.calculateDistance_default_or_2dz
      search.features.pairDecode search.features.posBlueprint
      search.features.exampleQueryEnvironment 1).2.1
      { location := search.features.trondheim, pos := none } (Or.inr rfl),
   (search.features.DistanceExecutor.calculateDistance_default_or_2dz
      search.features.pairDecode search.features.posBlueprint
      search.features.exampleQueryEnvironment 1).2.2.2.1 (by decide) (by decide)⟩

/-- C26: for parameter lists of length 1 or 2, setup returns false if and only if there
are two parameters and either the first is neither "label" nor "field", or the first is
"field" and neither the named field nor its z-curve companion field exists with an
attribute; a setup with a single parameter always succeeds, and ("label", x) always
succeeds in item-label mode with x as the label. -/
theorem search.features.DistanceBlueprint.setup_fails_iff
    (getZCurveFieldName : String → String) (b : search.features.DistanceBlueprint)
    (env : search.features.IIndexEnvironment) (params : List String)
    (hlen : params.length = 1 ∨ params.length = 2) :
    ((b.setup getZCurveFieldName env params).1 = false ↔
      params.length = 2 ∧
      ((params.getD 0 "" ≠ "label" ∧ params.getD 0 "" ≠ "field") ∨
        (params.getD 0 "" = "field" ∧
          search.features.DistanceBlueprint.existsWithAttribute
            (env.getFieldByName (params.getD 1 "")) = false ∧
          search.features.DistanceBlueprint.existsWithAttribute
            (env.getFieldByName (getZCurveFieldName (params.getD 1 ""))) = false))) ∧
    (params.length = 1 → (b.setup getZCurveFieldName env params).1 = true) ∧
    (params.length = 2 → params.getD 0 "" = "label" →
      (b.setup getZCurveFieldName env params).1 = true ∧
      (b.setup getZCurveFieldName env params).2.use_item_label = true ∧
      (b.setup getZCurveFieldName env params).2.arg_string = params.getD 1 "") := by
  have hone : params.length = 1 → (b.setup getZCurveFieldName env params).1 = true := by
    intro h1
    have hne : ¬ params.length = 2 := by omega
    unfold search.features.DistanceBlueprint.setup
    simp only [hne, if_false]
    cases hr : (search.features.DistanceBlueprint.setupField getZCurveFieldName b env
        (params.getD 0 "") true).1
    · have := (search.features.DistanceBlueprint.setupField_fst getZCurveFieldName b env
        (params.getD 0 "") true).mp hr
      exact absurd this.2.2 (by decide)
    · rfl
  refine ⟨?_, hone, ?_⟩
  · rcases hlen with h1 | h2
    · have hne : ¬ params.length = 2 := by omega
      rw [hone h1]
      simp [hne]
    · unfold search.features.DistanceBlueprint.setup
      simp only [h2, if_true, true_and]
      generalize params.getD 0 "" = a
      generalize params.getD 1 "" = x
      by_cases hl : a = "label"
      · subst hl
        simp
      · by_cases hf : a = "field"
        · subst hf
          rw [if_neg hl, if_pos rfl, search.features.DistanceBlueprint.setupField_fst]
          simp
        · rw [if_neg hl, if_neg hf]
          simp [hl, hf]
  · intro h2 hl
    unfold search.features.DistanceBlueprint.setup
    simp only [h2, if_true]
    rw [if_pos hl]
    exact ⟨rfl, rfl, rfl⟩

/-- C26 (instance): in `exampleIndexEnvironment`, ("field", "title") fails, `title` being
no attribute and `title_zcurve` unknown, while ("field", "pos") succeeds through the
companion field `pos_zcurve`. -/
theorem search.features.DistanceBlueprint.setup_fails_iff_witness :
    (search.features.DistanceBlueprint.new.setup search.features.zcurveName
      search.features.exampleIndexEnvironment ["field", "title"]).1 = false ∧
    (search.features.DistanceBlueprint.new.setup search.features.zcurveName
      search.features.exampleIndexEnvironment ["field", "pos"]).1 = true ∧
    (search.features.DistanceBlueprint.new.setup search.features.zcurveName
      search.features.exampleIndexEnvironment ["pos"]).1 = true :=
  ⟨((search.features.DistanceBlueprint.setup_fails_iff search.features.zcurveName
      search.features.DistanceBlueprint.new search.features.exampleIndexEnvironment
      ["field", "title"] (Or.inr rfl)).1).mpr (by decide),
   by decide,
   (search.features.DistanceBlueprint.setup_fails_iff search.features.zcurveName
      search.features.DistanceBlueprint.new search.features.exampleIndexEnvironment
      ["pos"] (Or.inl rfl)).2.1 rfl⟩

/-! ## Auxiliary facts on the storage protocol codec -/

namespace storage.mbusprot

theorem le_bytes_le_value (bs : List Nat) (h : ∀ b ∈ bs, b < 256) :
    le_bytes bs.length (le_value bs) = bs := by
  induction bs with
  | nil => rfl
  | cons b bs ih =>
    have hb : b < 256 := h b (List.mem_cons_self _ _)
    have e1 : (b + 256 * le_value bs) % 256 = b := by omega
    have e2 : (b + 256 * le_value bs) / 256 = le_value bs := by omega
    simp only [List.length_cons, le_value, le_bytes, e1, e2]
    rw [ih (fun x hx => h x (List.mem_cons_of_mem _ hx))]

theorem le_value_lt (bs : List Nat) (h : ∀ b ∈ bs, b < 256) :
    le_value bs < 256 ^ bs.length := by
  induction bs with
  | nil => simp [le_value]
  | cons b bs ih =>
    have hb : b < 256 := h b (List.mem_cons_self _ _)
    have := ih (fun x hx => h x (List.mem_cons_of_mem _ hx))
    simp only [le_value, List.length_cons, pow_succ]
    omega

theorem get_set_global_id (dest : protobuf.GlobalId) (g : GlobalId) (hg : g.WellFormed) :
    get_global_id (set_global_id dest g) = g := by
  obtain ⟨hlen, hb⟩ := hg
  have h4 : (g.get.take 4).length = 4 := by rw [List.length_take]; omega
  have h8 : ((g.get.drop 4).take 8).length = 8 := by
    rw [List.length_take, List.length_drop]; omega
  have b4 : ∀ b ∈ g.get.take 4, b < 256 := fun b hm => hb b (List.mem_of_mem_take hm)
  have b8 : ∀ b ∈ (g.get.drop 4).take 8, b < 256 :=
    fun b hm => hb b (List.mem_of_mem_drop (List.mem_of_mem_take hm))
  have r4 := le_bytes_le_value _ b4
  have r8 := le_bytes_le_value _ b8
  rw [h4] at r4
  rw [h8] at r8
  have hd : (g.get.drop 4).take 8 = g.get.drop 4 :=
    List.take_of_length_le (by rw [List.length_drop]; omega)
  unfold get_global_id set_global_id
  dsimp only
  rw [r4, r8, hd, List.take_append_drop]

theorem be_value32_putInt (v : Nat) (h : v < 2 ^ 32) : be_value32 (putInt v) % 2 ^ 32 = v := by
  unfold be_value32 putInt
  simp only [List.foldl]
  norm_num at h ⊢
  omega

theorem getInt_ok (buf : ByteBuffer) (h4 : 4 ≤ buf.getRemaining) :
    ∃ v, getInt buf = .ok (v, buf.incPos 4) ∧ toUInt32 v = headerLength buf := by
  have hn : ¬ buf.getRemaining < 4 := by omega
  unfold getInt
  simp only [hn, if_false]
  refine ⟨_, rfl, ?_⟩
  unfold toUInt32 headerLength
  have hu := Nat.mod_lt (be_value32 (buf.getBufferAtPos 4)) (show 0 < 2 ^ 32 by norm_num)
  generalize be_value32 (buf.getBufferAtPos 4) % 2 ^ 32 = u at hu ⊢
  norm_num at hu ⊢
  split_ifs <;> omega

theorem decode_request_header_eq (parse : List Nat → Option protobuf.RequestHeader)
    (buf : ByteBuffer) (h4 : 4 ≤ buf.getRemaining) :
    decode_request_header parse buf =
      if headerLength buf > (buf.incPos 4).getRemaining then
        .error (.BufferOutOfBoundsException (buf.incPos 4).pos (headerLength buf))
      else
        match parse ((buf.incPos 4).getBufferAtPos (headerLength buf)) with
        | none => .error (.IllegalArgumentException "Malformed protobuf request header")
        | some hdr => .ok (hdr, (buf.incPos 4).incPos (headerLength buf)) := by
  obtain ⟨v, hv, hl⟩ := getInt_ok buf h4
  unfold decode_request_header
  rw [hv]
  simp only [hl]

theorem decode_response_header_eq (parse : List Nat → Option protobuf.ResponseHeader)
    (buf : ByteBuffer) (h4 : 4 ≤ buf.getRemaining) :
    decode_response_header parse buf =
      if headerLength buf > (buf.incPos 4).getRemaining then
        .error (.BufferOutOfBoundsException (buf.incPos 4).pos (headerLength buf))
      else
        match parse ((buf.incPos 4).getBufferAtPos (headerLength buf)) with
        | none => .error (.IllegalArgumentException "Malformed protobuf response header")
        | some hdr => .ok (hdr, (buf.incPos 4).incPos (headerLength buf)) := by
  obtain ⟨v, hv, hl⟩ := getInt_ok buf h4
  unfold decode_response_header
  rw [hv]
  simp only [hl]

theorem incPos_getRemaining (buf : ByteBuffer) (n : Nat) :
    (buf.incPos n).getRemaining = buf.getRemaining - n := by
  unfold ByteBuffer.incPos ByteBuffer.getRemaining
  simp only
  omega

theorem framed_buffer (pre ser post : List Nat) (hs : ser.length < 2 ^ 32) :
    4 ≤ (ByteBuffer.mk (pre ++ putInt ser.length ++ ser ++ post) pre.length).getRemaining ∧
    headerLength (ByteBuffer.mk (pre ++ putInt ser.length ++ ser ++ post) pre.length)
      = ser.length ∧
    ((ByteBuffer.mk (pre ++ putInt ser.length ++ ser ++ post) pre.length).incPos
      4).getBufferAtPos ser.length = ser ∧
    ser.length ≤
      ((ByteBuffer.mk (pre ++ putInt ser.length ++ ser ++ post) pre.length).incPos
        4).getRemaining := by
  have hp : (putInt ser.length).length = 4 := rfl
  refine ⟨?_, ?_, ?_, ?_⟩
  · unfold ByteBuffer.getRemaining
    simp only [List.length_append, hp]
    omega
  · unfold headerLength ByteBuffer.getBufferAtPos
    simp only [List.append_assoc, List.drop_left]
    rw [← hp, List.take_left]
    exact be_value32_putInt _ hs
  · unfold ByteBuffer.getBufferAtPos ByteBuffer.incPos
    simp only
    have : pre.length + 4 = (pre ++ putInt ser.length).length := by
      rw [List.length_append, hp]
    rw [this, List.append_assoc (pre ++ putInt ser.length), List.drop_left, List.take_left]
  · unfold ByteBuffer.getRemaining ByteBuffer.incPos
    simp only [List.length_append, hp]
    omega

end storage.mbusprot

/-! ## Claims on the storage protocol codec -/

/-- C27: global ids round-trip through the wire form: for every 12-byte GlobalId g,
get_global_id applied to the protobuf GlobalId written by set_global_id(g) equals g, with
hi_32 holding bytes 0..3 and lo_64 holding bytes 4..11 (as little-endian numbers within
32 and 64 bits); hence get_diff_entry(set_diff_entry(e)) equals e for every diff
entry e. -/
theorem storage.mbusprot.global_id_round_trip (dest : storage.mbusprot.protobuf.GlobalId)
    (destEntry : storage.mbusprot.protobuf.MetaDiffEntry) (g : storage.mbusprot.GlobalId)
    (hg : g.WellFormed) :
    storage.mbusprot.get_global_id (storage.mbusprot.set_global_id dest g) = g ∧
    (storage.mbusprot.set_global_id dest g).hi_32
      = storage.mbusprot.le_value (g.get.take 4) ∧
    (storage.mbusprot.set_global_id dest g).lo_64
      = storage.mbusprot.le_value ((g.get.drop 4).take 8) ∧
    (∀ b0 b1 b2 b3 b4 b5 b6 b7 b8 b9 b10 b11 : Nat,
      g.get = [b0, b1, b2, b3, b4, b5, b6, b7, b8, b9, b10, b11] →
      (storage.mbusprot.set_global_id dest g).hi_32
        = b0 + 2 ^ 8 * b1 + 2 ^ 16 * b2 + 2 ^ 24 * b3 ∧
      (storage.mbusprot.set_global_id dest g).lo_64
        = b4 + 2 ^ 8 * b5 + 2 ^ 16 * b6 + 2 ^ 24 * b7 + 2 ^ 32 * b8 + 2 ^ 40 * b9
          + 2 ^ 48 * b10 + 2 ^ 56 * b11) ∧
    (storage.mbusprot.set_global_id dest g).hi_32 < 2 ^ 32 ∧
    (storage.mbusprot.set_global_id dest g).lo_64 < 2 ^ 64 ∧
    (∀ e : storage.mbusprot.Entry, e.WellFormed →
      storage.mbusprot.get_diff_entry (storage.mbusprot.set_diff_entry destEntry e) = e) := by
  have hlen := hg.1
  have hb := hg.2
  refine ⟨storage.mbusprot.get_set_global_id dest g hg, rfl, rfl, ?_, ?_, ?_, ?_⟩
  · intro b0 b1 b2 b3 b4 b5 b6 b7 b8 b9 b10 b11 hget
    unfold storage.mbusprot.set_global_id
    simp only [hget, List.take, List.drop, storage.mbusprot.le_value]
    constructor <;> ring
  · have h4 : (g.get.take 4).length = 4 := by rw [List.length_take]; omega
    have := storage.mbusprot.le_value_lt (g.get.take 4)
      (fun b hm => hb b (List.mem_of_mem_take hm))
    rw [h4] at this
    unfold storage.mbusprot.set_global_id
    norm_num at this ⊢
    exact this
  · have h8 : ((g.get.drop 4).take 8).length = 8 := by
      rw [List.length_take, List.length_drop]; omega
    have := storage.mbusprot.le_value_lt ((g.get.drop 4).take 8)
      (fun b hm => hb b (List.mem_of_mem_drop (List.mem_of_mem_take hm)))
    rw [h8] at this
    unfold storage.mbusprot.set_global_id
    norm_num at this ⊢
    exact this
  · intro e he
    obtain ⟨-, hgid, -, -, hf, hm⟩ := he
    unfold storage.mbusprot.get_diff_entry storage.mbusprot.set_diff_entry
    simp only [storage.mbusprot.get_set_global_id destEntry.gid e.gid hgid,
      Nat.mod_eq_of_lt hf, Nat.mod_eq_of_lt hm]

/-- C27 (instance): the global id with the bytes 1 .. 12 and the diff entry carrying it
are read back unchanged. -/
theorem storage.mbusprot.global_id_round_trip_witness :
    storage.mbusprot.exampleGid.WellFormed ∧
    storage.mbusprot.get_global_id
      (storage.mbusprot.set_global_id ⟨0, 0⟩ storage.mbusprot.exampleGid)
      = storage.mbusprot.exampleGid ∧
    (storage.mbusprot.set_global_id ⟨0, 0⟩ storage.mbusprot.exampleGid).hi_32 = 67305985 ∧
    storage.mbusprot.get_diff_entry
      (storage.mbusprot.set_diff_entry ⟨0, ⟨0, 0⟩, 0, 0, 0, 0⟩ storage.mbusprot.exampleEntry)
      = storage.mbusprot.exampleEntry :=
  ⟨by unfold storage.mbusprot.GlobalId.WellFormed; decide,
   (storage.mbusprot.global_id_round_trip ⟨0, 0⟩ ⟨0, ⟨0, 0⟩, 0, 0, 0, 0⟩
      storage.mbusprot.exampleGid
      (by unfold storage.mbusprot.GlobalId.WellFormed; decide)).1,
   by decide,
   (storage.mbusprot.global_id_round_trip ⟨0, 0⟩ ⟨0, ⟨0, 0⟩, 0, 0, 0, 0⟩
      storage.mbusprot.exampleGid
      (by unfold storage.mbusprot.GlobalId.WellFormed; decide)).2.2.2.2.2.2
      storage.mbusprot.exampleEntry
      (by unfold storage.mbusprot.Entry.WellFormed storage.mbusprot.GlobalId.WellFormed
          decide)⟩

/-- C28: bucket info round-trips through the wire form: for every BucketInfo i,
get_bucket_info applied to the message written by set_bucket_info(i) equals i, the
message carrying info_v1 with the eight members of i; and get_bucket_info of a message
without info_v1 returns the default constructed BucketInfo. -/
theorem storage.mbusprot.bucket_info_round_trip (defaultInfo : storage.mbusprot.BucketInfo)
    (dest : storage.mbusprot.protobuf.BucketInfo) (i : storage.mbusprot.BucketInfo) :
    storage.mbusprot.get_bucket_info defaultInfo (storage.mbusprot.set_bucket_info dest i)
      = i ∧
    (storage.mbusprot.set_bucket_info dest i).info_v1 = some
      { last_modified_timestamp := i.lastModified, checksum := i.checksum,
        doc_count := i.documentCount, total_doc_size := i.totalDocumentSize,
        meta_count := i.metaCount, used_file_size := i.usedFileSize, active := i.active,
        ready := i.ready } ∧
    (∀ src : storage.mbusprot.protobuf.BucketInfo, src.info_v1 = none →
      storage.mbusprot.get_bucket_info defaultInfo src = defaultInfo) := by
  refine ⟨rfl, rfl, ?_⟩
  intro src h
  unfold storage.mbusprot.get_bucket_info
  rw [h]

/-- C28 (instance): `exampleBucketInfo` is read back unchanged, and a message without
info_v1 yields the default bucket info. -/
theorem storage.mbusprot.bucket_info_round_trip_witness :
    storage.mbusprot.get_bucket_info storage.mbusprot.defaultBucketInfo
      (storage.mbusprot.set_bucket_info ⟨none⟩ storage.mbusprot.exampleBucketInfo)
      = storage.mbusprot.exampleBucketInfo ∧
    storage.mbusprot.get_bucket_info storage.mbusprot.defaultBucketInfo ⟨none⟩
      = storage.mbusprot.defaultBucketInfo :=
  ⟨(storage.mbusprot.bucket_info_round_trip storage.mbusprot.defaultBucketInfo ⟨none⟩
      storage.mbusprot.exampleBucketInfo).1,
   (storage.mbusprot.bucket_info_round_trip storage.mbusprot.defaultBucketInfo ⟨none⟩
      storage.mbusprot.exampleBucketInfo).2.2 ⟨none⟩ rfl⟩

/-- C29: decode_request_header and decode_response_header read a 32-bit length L and
then the header: with at least 4 bytes to read, they throw BufferOutOfBoundsException
(carrying the position after the length and L) if L exceeds the bytes remaining after
the length, throw IllegalArgumentException if the L bytes do not parse as a header, and
otherwise return the parsed header and advance the buffer position by exactly 4 + L
bytes; a header written by write_request_header, of at most 128 bytes and one that the
protobuf parser reads back, is decoded with the same message id, priority, source index
and load type id. -/
theorem storage.mbusprot.decode_header_framing
    (parseRequest : List Nat → Option storage.mbusprot.protobuf.RequestHeader)
    (parseResponse : List Nat → Option storage.mbusprot.protobuf.ResponseHeader)
    (serialize : storage.mbusprot.protobuf.RequestHeader → List Nat)
    (buf : storage.mbusprot.ByteBuffer) (h4 : 4 ≤ buf.getRemaining) :
    (storage.mbusprot.headerLength buf > buf.getRemaining - 4 →
      storage.mbusprot.decode_request_header parseRequest buf =
        .error (.BufferOutOfBoundsException (buf.pos + 4)
          (storage.mbusprot.headerLength buf)) ∧
      storage.mbusprot.decode_response_header parseResponse buf =
        .error (.BufferOutOfBoundsException (buf.pos + 4)
          (storage.mbusprot.headerLength buf))) ∧
    (storage.mbusprot.headerLength buf ≤ buf.getRemaining - 4 →
      (parseRequest ((buf.incPos 4).getBufferAtPos (storage.mbusprot.headerLength buf))
          = none →
        storage.mbusprot.decode_request_header parseRequest buf =
          .error (.IllegalArgumentException "Malformed protobuf request header")) ∧
      (parseResponse ((buf.incPos 4).getBufferAtPos (storage.mbusprot.headerLength buf))
          = none →
        storage.mbusprot.decode_response_header parseResponse buf =
          .error (.IllegalArgumentException "Malformed protobuf response header")) ∧
      (∀ hdr,
        parseRequest ((buf.incPos 4).getBufferAtPos (storage.mbusprot.headerLength buf))
          = some hdr →
        storage.mbusprot.decode_request_header parseRequest buf =
          .ok (hdr, { buf with pos := buf.pos + (4 + storage.mbusprot.headerLength buf) })) ∧
      (∀ hdr,
        parseResponse ((buf.incPos 4).getBufferAtPos (storage.mbusprot.headerLength buf))
          = some hdr →
        storage.mbusprot.decode_response_header parseResponse buf =
          .ok (hdr, { buf with pos := buf.pos + (4 + storage.mbusprot.headerLength buf) }))) ∧
    (∀ (pre post : List Nat) (cmd : storage.mbusprot.StorageCommand),
      (serialize
        { message_id := cmd.getMsgId, priority := cmd.getPriority,
          source_index := cmd.getSourceIndex, loadtype_id := cmd.getLoadTypeId }).length
        ≤ 128 →
      parseRequest (serialize
        { message_id := cmd.getMsgId, priority := cmd.getPriority,
          source_index := cmd.getSourceIndex, loadtype_id := cmd.getLoadTypeId }) =
        some
          { message_id := cmd.getMsgId, priority := cmd.getPriority,
            source_index := cmd.getSourceIndex, loadtype_id := cmd.getLoadTypeId } →
      ∃ out, storage.mbusprot.write_request_header serialize pre cmd = some out ∧
        out.length = pre.length + 4 + (serialize
          { message_id := cmd.getMsgId, priority := cmd.getPriority,
            source_index := cmd.getSourceIndex, loadtype_id := cmd.getLoadTypeId }).length ∧
        storage.mbusprot.decode_request_header parseRequest
            { bytes := out ++ post, pos := pre.length } =
          .ok ({ message_id := cmd.getMsgId, priority := cmd.getPriority,
                 source_index := cmd.getSourceIndex, loadtype_id := cmd.getLoadTypeId },
               { bytes := out ++ post, pos := out.length })) := by
  have hreq := storage.mbusprot.decode_request_header_eq parseRequest buf h4
  have hresp := storage.mbusprot.decode_response_header_eq parseResponse buf h4
  have hrem := storage.mbusprot.incPos_getRemaining buf 4
  refine ⟨?_, ?_, ?_⟩
  · intro hgt
    have hc : storage.mbusprot.headerLength buf > (buf.incPos 4).getRemaining := by
      rw [hrem]; exact hgt
    rw [hreq, hresp]
    simp only [hc, if_true]
    exact ⟨rfl, rfl⟩
  · intro hle
    have hc : ¬ storage.mbusprot.headerLength buf > (buf.incPos 4).getRemaining := by
      rw [hrem]; omega
    rw [hreq, hresp]
    simp only [hc, if_false]
    refine ⟨?_, ?_, ?_, ?_⟩
    · intro hn; rw [hn]
    · intro hn; rw [hn]
    · intro hdr hs; rw [hs]
      simp only [storage.mbusprot.ByteBuffer.incPos, Nat.add_assoc]
    · intro hdr hs; rw [hs]
      simp only [storage.mbusprot.ByteBuffer.incPos, Nat.add_assoc]
  · intro pre post cmd hsize hparse
    generalize hser : serialize
        { message_id := cmd.getMsgId, priority := cmd.getPriority,
          source_index := cmd.getSourceIndex, loadtype_id := cmd.getLoadTypeId } = ser
      at hsize hparse
    have hlt : ser.length < 2 ^ 32 := by norm_num; omega
    have hmod : ser.length % 2 ^ 32 = ser.length := Nat.mod_eq_of_lt hlt
    have hw : storage.mbusprot.write_request_header serialize pre cmd
        = some (pre ++ storage.mbusprot.putInt ser.length ++ ser) := by
      unfold storage.mbusprot.write_request_header
      simp only [hser, hmod, hsize, if_true, List.take_length]
    obtain ⟨f1, f2, f3, f4⟩ := storage.mbusprot.framed_buffer pre ser post hlt
    refine ⟨_, hw, ?_, ?_⟩
    · simp only [List.length_append]
      rfl
    · rw [storage.mbusprot.decode_request_header_eq parseRequest _ f1]
      have hc : ¬ storage.mbusprot.headerLength
          (storage.mbusprot.ByteBuffer.mk
            (pre ++ storage.mbusprot.putInt ser.length ++ ser ++ post) pre.length) >
          ((storage.mbusprot.ByteBuffer.mk
            (pre ++ storage.mbusprot.putInt ser.length ++ ser ++ post) pre.length).incPos
              4).getRemaining := by
        rw [f2]; omega
      rw [if_neg hc, f2, f3, hparse]
      simp only [storage.mbusprot.ByteBuffer.incPos, List.length_append]
      rfl

/-- C29 (instance): `truncatedBuffer` announces 2 bytes and holds 1, so decoding throws
BufferOutOfBoundsException(4, 2); and the header of `exampleCommand`, written in the toy
encoding after one byte, is decoded back. -/
theorem storage.mbusprot.decode_header_framing_witness :
    storage.mbusprot.decode_request_header storage.mbusprot.toyParse
      storage.mbusprot.truncatedBuffer =
      .error (.BufferOutOfBoundsException (storage.mbusprot.truncatedBuffer.pos + 4)
        (storage.mbusprot.headerLength storage.mbusprot.truncatedBuffer)) ∧
    ∃ out, storage.mbusprot.write_request_header storage.mbusprot.toySerialize [9]
        storage.mbusprot.exampleCommand = some out ∧
      out.length = [9].length + 4 + (storage.mbusprot.toySerialize
        { message_id := storage.mbusprot.exampleCommand.getMsgId,
          priority := storage.mbusprot.exampleCommand.getPriority,
          source_index := storage.mbusprot.exampleCommand.getSourceIndex,
          loadtype_id := storage.mbusprot.exampleCommand.getLoadTypeId }).length ∧
      storage.mbusprot.decode_request_header storage.mbusprot.toyParse
          { bytes := out ++ [], pos := [9].length } =
        .ok ({ message_id := storage.mbusprot.exampleCommand.getMsgId,
               priority := storage.mbusprot.exampleCommand.getPriority,
               source_index := storage.mbusprot.exampleCommand.getSourceIndex,
               loadtype_id := storage.mbusprot.exampleCommand.getLoadTypeId },
             { bytes := out ++ [], pos := out.length }) :=
  ⟨((storage.mbusprot.decode_header_framing storage.mbusprot.toyParse (fun _ => none)
      storage.mbusprot.toySerialize storage.mbusprot.truncatedBuffer (by decide)).1
      (by decide)).1,
   (storage.mbusprot.decode_header_framing storage.mbusprot.toyParse (fun _ => none)
      storage.mbusprot.toySerialize storage.mbusprot.truncatedBuffer (by decide)).2.2
      [9] [] storage.mbusprot.exampleCommand (by decide) (by decide)⟩
